import Mathlib

set_option maxRecDepth 4000
set_option maxHeartbeats 1000000

/-!
Verification of the task-ledger engine of the `taskautomation` repository:
the markdown block parsers, the schema/graph validator, the test-result
reconciler and the renderer, shallowly embedded over `List Char` strings.

Strings are modelled as `List Char` (a "Str"); a document is modelled both
as one `Str` (with newline characters) and as its list of lines.  The
embedding mirrors the Python source line by line; Python `dict`s become
association lists with insertion-order update semantics (`alSet`/`alGet`),
and the current wall-clock time is passed as an explicit parameter.
-/

namespace TaskAuto

/-- Characters of a string literal. -/
def chars (s : String) : List Char := s.data

/-- A Python string, modelled as a list of characters. -/
abbrev Str := List Char

/-- The newline character. -/
def nlChar : Char := Char.ofNat 10

/-- The space character. -/
def spChar : Char := Char.ofNat 32

/-- The single-quote character (used in validator error messages). -/
def sqChar : Char := Char.ofNat 39

/-- Whitespace characters recognised by Python `str.strip`. -/
def isWsChar (c : Char) : Bool :=
  c = spChar || c = Char.ofNat 9 || c = nlChar ||
  c = Char.ofNat 13 || c = Char.ofNat 11 || c = Char.ofNat 12

/-- Python `str.lstrip()` on character lists. -/
def lstripWs (l : Str) : Str := l.dropWhile isWsChar

/-- Python `str.rstrip()` on character lists. -/
def rstripWs (l : Str) : Str := (l.reverse.dropWhile isWsChar).reverse

/-- Python `str.strip()` on character lists. -/
def stripWs (l : Str) : Str := rstripWs (lstripWs l)

/-- Python `str.lower()` (ASCII model). -/
def lowerStr (l : Str) : Str := l.map Char.toLower

/-- Prefix test on character lists, by structural recursion on the
pattern (reduces definitionally, unlike `List.isPrefixOf`). -/
def isPre : Str → Str → Bool
  | [], _ => true
  | a :: as, l =>
    match l with
    | [] => false
    | b :: bs => (a = b) && isPre as bs

/-- Python `str.startswith(pat)`. -/
def startsWith (l pat : Str) : Bool := isPre pat l

/-- Split a string at the first occurrence of the (nonempty) pattern
`pat`: returns the part before the occurrence and the part after it, or
`none` when `pat` does not occur. -/
def splitFirst (pat : Str) : Str → Option (Str × Str)
  | [] => if pat.isEmpty then some ([], []) else none
  | c :: rest =>
    if isPre pat (c :: rest) then some ([], (c :: rest).drop pat.length)
    else (splitFirst pat rest).map (fun p => (c :: p.1, p.2))

/-- Python `pat in l` (substring containment). -/
def containsSub (pat l : Str) : Bool := (splitFirst pat l).isSome

theorem splitFirst_length {pat : Str} (hpat : pat ≠ []) :
    ∀ {l a b : Str}, splitFirst pat l = some (a, b) → b.length < l.length := by
  intro l
  induction l with
  | nil =>
    intro a b h
    simp [splitFirst, List.isEmpty_iff, hpat] at h
  | cons c rest ih =>
    intro a b h
    have hpatlen : 1 ≤ pat.length := by
      cases pat with
      | nil => exact absurd rfl hpat
      | cons p ps => simp
    simp only [splitFirst] at h
    by_cases hpre : isPre pat (c :: rest)
    · rw [if_pos hpre] at h
      have hb : b = (c :: rest).drop pat.length := by
        have h2 := Option.some.inj h
        exact (congrArg Prod.snd h2).symm
      subst hb
      have hd : ((c :: rest).drop pat.length).length = (c :: rest).length - pat.length :=
        List.length_drop _ _
      rw [hd]
      simp only [List.length_cons]
      omega
    · rw [if_neg hpre] at h
      match hsf : splitFirst pat rest with
      | none => rw [hsf] at h; exact absurd h (by simp)
      | some (a', b') =>
        rw [hsf] at h
        simp only [Option.map_some'] at h
        have hb : b = b' := by
          have := Option.some.inj h
          exact (congrArg Prod.snd this).symm
        subst hb
        have := ih hsf
        simp only [List.length_cons]
        omega

/-- Python `l.replace(pat, rep)`: replace every (left-to-right,
non-overlapping) occurrence of `pat` by `rep`. -/
def replaceAll (pat rep : Str) (l : Str) : Str :=
  if hpat : pat = [] then l
  else
    match h : splitFirst pat l with
    | none => l
    | some (a, b) => a ++ rep ++ replaceAll pat rep b
termination_by l.length
decreasing_by exact splitFirst_length hpat h

/-- Python `l.split(sep)` for a nonempty separator string. -/
def splitOnSub (sep : Str) (l : Str) : List Str :=
  if hsep : sep = [] then [l]
  else
    match h : splitFirst sep l with
    | none => [l]
    | some (a, b) => a :: splitOnSub sep b
termination_by l.length
decreasing_by exact splitFirst_length hsep h

/-- Python `text.split("\n")`. -/
def splitNl (l : Str) : List Str := splitOnSub [nlChar] l

/-- Python `"\n".join(lines)`. -/
def joinNl : List Str → Str
  | [] => []
  | [x] => x
  | x :: y :: rest => x ++ nlChar :: joinNl (y :: rest)

/-- A string containing no newline character. -/
def noNl (l : Str) : Prop := nlChar ∉ l

instance (l : Str) : Decidable (noNl l) := by
  unfold noNl; infer_instance

/-- Digit test (ASCII model of Python `str.isdigit` for our purposes). -/
def isDigitChar (c : Char) : Bool := ('0' ≤ c) && (c ≤ '9')

/-- Numeric value of a decimal digit character. -/
def digitVal (c : Char) : Nat := c.toNat - ('0').toNat

/-- Decimal digit character for a value below ten. -/
def digitChar (n : Nat) : Char := Char.ofNat (('0').toNat + n)

/-- Decimal numeral of a natural number (canonical form, as produced by
Python string formatting). -/
def natToStr (n : Nat) : Str :=
  if h : n < 10 then [digitChar n]
  else natToStr (n / 10) ++ [digitChar (n % 10)]
termination_by n
decreasing_by exact Nat.div_lt_self (by omega) (by omega)

/-- Decimal numeral of an integer (canonical form, as produced by Python
string formatting). -/
def intToStr (n : Int) : Str :=
  if n < 0 then '-' :: natToStr n.natAbs else natToStr n.toNat

/-- Value of a nonempty list of decimal digits. -/
def digitsVal (l : Str) : Nat := l.foldl (fun acc c => acc * 10 + digitVal c) 0

/-- Body of a Python `int()` literal after the optional sign: one digit,
then digits optionally separated by single underscores. -/
def intBodyOk : Str → Bool
  | [] => false
  | c :: rest => isDigitChar c && intBodyRest rest
where
  /-- Continuation state: after a digit. -/
  intBodyRest : Str → Bool
    | [] => true
    | c :: rest =>
      if isDigitChar c then intBodyRest rest
      else if c = '_' then
        match rest with
        | [] => false
        | d :: rest' => isDigitChar d && intBodyRest rest'
      else false

/-- Python `int(s)` (ASCII model): optional surrounding whitespace, an
optional sign, then decimal digits with optional underscore grouping.
Returns `none` where Python raises `ValueError`. -/
def parseIntPy (l : Str) : Option Int :=
  if startsWith (stripWs l) (("-").data) then
    if intBodyOk ((stripWs l).drop 1) then
      some (-(digitsVal (((stripWs l).drop 1).filter isDigitChar) : Int))
    else none
  else if startsWith (stripWs l) (("+").data) then
    if intBodyOk ((stripWs l).drop 1) then
      some ((digitsVal (((stripWs l).drop 1).filter isDigitChar) : Int))
    else none
  else
    if intBodyOk (stripWs l) then
      some ((digitsVal ((stripWs l).filter isDigitChar) : Int))
    else none

/-- Lookup in an association list (Python `dict.get`). -/
def alGet {α β : Type} [DecidableEq α] : List (α × β) → α → Option β
  | [], _ => none
  | (k, v) :: rest, key => if k = key then some v else alGet rest key

/-- Python `dict` assignment `d[k] = v`: update the value in place when
the key is present (keeping its position), else append at the end. -/
def alSet {α β : Type} [DecidableEq α] : List (α × β) → α → β → List (α × β)
  | [], key, v => [(key, v)]
  | (k, w) :: rest, key, v =>
    if k = key then (k, v) :: rest else (k, w) :: alSet rest key v

/-- Keys of an association list, in order. -/
def alKeys {α β : Type} (l : List (α × β)) : List α := l.map Prod.fst

/-- Python `k in d` for association lists. -/
def alMem {α β : Type} [DecidableEq α] (l : List (α × β)) (key : α) : Bool :=
  (alGet l key).isSome

/-- Python `x or default` for an optional string: `None` and the empty
string are falsy. -/
def pyOrStr (o : Option Str) (d : Str) : Str :=
  match o with
  | some s => if s.isEmpty then d else s
  | none => d

/-- Python `f"{s or 'None'}"` for a string already in hand. -/
def renderOr (s : Str) : Str := if s.isEmpty then ("None").data else s

namespace RT

/-! Embedding of `src/taskautomation/run_tests.py` (the reconciler). -/

/-- The `TaskInfo` named tuple of run_tests.py. -/
structure TaskInfo where
  file_path : Str
  checked : Bool
  task_id : Int
  priority : Str
  assignee : Option Str
  create_date : Option Str
  start_date : Option Str
  finish_date : Option Str
  subtasks : List (Str × Bool)
deriving DecidableEq

/-- The literal status string `"FAILED"`. -/
def sFAILED : Str := ("FAILED").data

/-- The literal status string `"PASSED"`. -/
def sPASSED : Str := ("PASSED").data

/-- Match a fixed literal, then a nonempty non-greedy group that extends
up to the first following occurrence of `pat` (regex `pre(.+?)pat`,
anchored at the start): returns the group and the remainder after `pat`. -/
def matchMid (pre pat l : Str) : Option (Str × Str) :=
  if startsWith l pre then
    match l.drop pre.length with
    | [] => none
    | d :: rem => (splitFirst pat rem).map (fun p => (d :: p.1, p.2))
  else none

/-- Model of `TASK_BLOCK_RE.match(line)` of run_tests.py, regex
`- \[([ x])\] \*\*Fix failing tests in (.+?)\*\*:`: returns the checked
flag and the file path. -/
def parseHeaderLine (l : Str) : Option (Bool × Str) :=
  if startsWith l (("- [").data) then
    match l.drop 3 with
    | [] => none
    | c :: rest =>
      if c = spChar || c = 'x' then
        match matchMid (("] **Fix failing tests in ").data) (("**:").data) rest with
        | some (t, _) => some (c = 'x', t)
        | none => none
      else none
  else none

/-- Model of `SUBTASK_RE.match(line)`, regex
`    - \[([ x])\] (.+?)(?:\n|$)` applied to a single line: returns the
checked flag and the (nonempty) text after the checkbox. -/
def parseSubtaskLine (l : Str) : Option (Bool × Str) :=
  if startsWith l (("    - [").data) then
    match l.drop 7 with
    | [] => none
    | c :: rest =>
      if c = spChar || c = 'x' then
        if startsWith rest (("] ").data) then
          match rest.drop 2 with
          | [] => none
          | d :: rem => some (c = 'x', d :: rem)
        else none
      else none
  else none

/-- Python `line.split(": ")[1]` (the text between the first and second
occurrence of `": "`), or `none` where Python raises `IndexError`. -/
def splitVal (l : Str) : Option Str := (splitOnSub ((": ").data) l).get? 1

/-- Normalise a metadata value: the literal `"None"` means null. -/
def noneNorm (v : Str) : Option Str :=
  if v = ("None").data then none else some v

/-- Mutable state of the metadata/subtask scanning loop inside
`parse_existing_tasks` of run_tests.py. -/
structure BAcc where
  task_id : Int
  priority : Str
  assignee : Option Str
  create_date : Option Str
  start_date : Option Str
  finish_date : Option Str
  subtasks : List (Str × Bool)
  inSub : Bool
deriving DecidableEq

/-- Initial loop state of `parse_existing_tasks` (run_tests.py). -/
def bAcc0 : BAcc :=
  ⟨-1, ("Critical").data, none, none, none, none, [], false⟩

/-- The inner `while` loop of `parse_existing_tasks` (run_tests.py):
scans metadata and subtask lines until a blank line or a new top-level
bullet, returning the accumulated fields and the unconsumed lines
(the breaking line included, as the Python loop leaves `i` on it). -/
def bodyR (acc : BAcc) : List Str → BAcc × List Str
  | [] => (acc, [])
  | line :: rest =>
    let s := stripWs line
    if startsWith s (("- **ID**: ").data) then
      bodyR { acc with task_id :=
        (match splitVal line with
        | some v => (parseIntPy v).getD (-1)
        | none => -1) } rest
    else if startsWith s (("- **Priority**: ").data) then
      bodyR { acc with priority :=
        (match splitVal line with
        | some v => stripWs v
        | none => acc.priority) } rest
    else if startsWith s (("- **Assignee**: ").data) then
      bodyR { acc with assignee :=
        (match splitVal line with
        | some v => noneNorm (stripWs v)
        | none => acc.assignee) } rest
    else if startsWith s (("- **Create Date**: ").data) then
      bodyR { acc with create_date :=
        (match splitVal line with
        | some v => noneNorm (stripWs v)
        | none => acc.create_date) } rest
    else if startsWith s (("- **Start Date**: ").data) then
      bodyR { acc with start_date :=
        (match splitVal line with
        | some v => noneNorm (stripWs v)
        | none => acc.start_date) } rest
    else if startsWith s (("- **Finish Date**: ").data) then
      bodyR { acc with finish_date :=
        (match splitVal line with
        | some v => noneNorm (stripWs v)
        | none => acc.finish_date) } rest
    else if startsWith s (("- **Subtasks**:").data) then
      bodyR { acc with inSub := true } rest
    else if acc.inSub && startsWith line (("    - [").data) then
      match parseSubtaskLine line with
      | some (b, nm) =>
        bodyR { acc with subtasks :=
          (alSet acc.subtasks (replaceAll (("Fix ").data) [] nm) b) } rest
      | none => bodyR acc rest
    else if s.isEmpty || startsWith line (("- [").data) then
      (acc, line :: rest)
    else
      bodyR acc rest

theorem bodyR_length (acc : BAcc) :
    ∀ l : List Str, (bodyR acc l).2.length ≤ l.length := by
  intro l
  induction l generalizing acc with
  | nil => simp [bodyR]
  | cons line rest ih =>
    simp only [bodyR]
    repeat' split
    all_goals simp only [List.length_cons]
    all_goals first
      | omega
      | (exact Nat.le_succ_of_le (ih _))

/-- The outer loop of `parse_existing_tasks` (run_tests.py).  Completed
(checked) tasks are dropped; the result maps file path to `TaskInfo`. -/
def parseTasksAuxR (tasks : List (Str × TaskInfo)) : List Str → List (Str × TaskInfo)
  | [] => tasks
  | line :: rest =>
    match parseHeaderLine line with
    | some (checked, fp) =>
      let res := bodyR bAcc0 rest
      let tasks' :=
        if checked then tasks
        else alSet tasks fp
          ⟨fp, checked, res.1.task_id, res.1.priority, res.1.assignee,
           res.1.create_date, res.1.start_date, res.1.finish_date, res.1.subtasks⟩
      parseTasksAuxR tasks' res.2
    | none => parseTasksAuxR tasks rest
termination_by l => l.length
decreasing_by
  · simp only [List.length_cons]
    have := bodyR_length bAcc0 rest
    omega
  · simp

/-- Model of `parse_existing_tasks` of run_tests.py on a list of lines. -/
def parseTasksR (lines : List Str) : List (Str × TaskInfo) :=
  parseTasksAuxR [] lines

/-- Model of `parse_existing_tasks` of run_tests.py on a raw text. -/
def parseTasksTextR (text : Str) : List (Str × TaskInfo) :=
  parseTasksR (splitNl text)

/-- Maximal run of leading decimal digits. -/
def takeDigits (l : Str) : Str := l.takeWhile isDigitChar

/-- Scan for every occurrence of `- **ID**: (\d+)` (the `ID_RE` regex)
and return the maximal captured value (0 when there is none). -/
def idMaxScan : Str → Nat
  | [] => 0
  | c :: rest =>
    let here :=
      if startsWith (c :: rest) (("- **ID**: ").data) then
        let ds := takeDigits ((c :: rest).drop 10)
        if ds.isEmpty then 0 else digitsVal ds
      else 0
    max here (idMaxScan rest)

/-- Model of `get_next_task_id` of run_tests.py. -/
def getNextTaskId (text : Str) : Int := (idMaxScan text : Int) + 1

/-- The `lines` list constructed by `format_task_block` of run_tests.py;
`now` stands for `get_current_datetime()`. -/
def formatTaskBlockLinesR (now fp : Str) (test_results : List (Str × Str))
    (task_id : Int) (existing_subtasks : List (Str × Bool))
    (existing_task : Option TaskInfo) : List Str :=
  let has_failures := test_results.any (fun p => decide (p.2 = sFAILED))
  let main_checked := if has_failures then ("[ ]").data else ("[x]").data
  let failing_count := (test_results.filter (fun p => decide (p.2 = sFAILED))).length
  let create_date :=
    match existing_task with
    | some et => pyOrStr et.create_date now
    | none => now
  let start_date :=
    match existing_task with
    | some et => pyOrStr et.start_date now
    | none => now
  let finish_date : Option Str :=
    match existing_task with
    | some et => if has_failures then et.finish_date else some now
    | none => if has_failures then none else some now
  let assignee :=
    match existing_task with
    | some et => pyOrStr et.assignee (("Roo").data)
    | none => ("Roo").data
  let priority :=
    match existing_task with
    | some et => et.priority
    | none => ("Critical").data
  [ ("- ").data ++ main_checked ++ (" **Fix failing tests in ").data ++ fp ++ ("**:").data,
    ("  - **ID**: ").data ++ intToStr task_id,
    ("  - **Description**: Fix ").data ++ natToStr failing_count ++
      (" failing test").data ++ (if failing_count ≠ 1 then ("s").data else []) ++
      (" in ").data ++ fp,
    ("  - **Pre-requisites**:").data,
    ("    - None").data,
    ("  - **Priority**: ").data ++ priority,
    ("  - **Estimated Time**: 30 minutes").data,
    ("  - **Assignee**: ").data ++ renderOr assignee,
    ("  - **Create Date**: ").data ++ renderOr create_date,
    ("  - **Start Date**: ").data ++ renderOr start_date,
    ("  - **Finish Date**: ").data ++ renderOr (match finish_date with | some d => d | none => []),
    ("  - **Subtasks**:").data ]
  ++ existing_subtasks.map (fun p =>
      ("    - ").data ++
      (if ((alGet test_results p.1).getD sPASSED) = sFAILED
        then ("[ ]").data else ("[x]").data) ++
      (" Fix ").data ++ p.1)
  ++ (test_results.filter (fun p =>
        decide (p.2 = sFAILED) && !(alMem existing_subtasks p.1))).map (fun p =>
      ("    - [ ] Fix ").data ++ p.1)

/-- Model of `format_task_block` of run_tests.py (the returned string). -/
def formatTaskBlockR (now fp : Str) (test_results : List (Str × Str))
    (task_id : Int) (existing_subtasks : List (Str × Bool))
    (existing_task : Option TaskInfo) : Str :=
  joinNl (formatTaskBlockLinesR now fp test_results task_id existing_subtasks existing_task)
    ++ [nlChar]

/-- The `"{file_path}::{test_name}"` report string. -/
def encPair (f t : Str) : Str := f ++ ("::").data ++ t

/-- One iteration of the inner loop of `generate_report` (run_tests.py):
classify a single `(test_name, status)` entry of file `f` against the
file's existing task. -/
def reportStepTest (existing_task : Option TaskInfo) (f : Str)
    (acc : List Str × List Str × List Str) (q : Str × Str) :
    List Str × List Str × List Str :=
  let t := q.1
  let (nf, nb, sf) := acc
  if q.2 = sPASSED then
    if (match existing_task with
        | some et => decide (alGet et.subtasks t = some false)
        | none => false) then
      (nf ++ [encPair f t], nb, sf)
    else acc
  else
    match existing_task with
    | none => (nf, nb ++ [encPair f t], sf)
    | some et =>
      if alMem et.subtasks t then (nf, nb, sf ++ [encPair f t])
      else (nf, nb ++ [encPair f t], sf)

/-- One iteration of the outer loop of `generate_report` (run_tests.py). -/
def reportStepFile (existing : List (Str × TaskInfo))
    (acc : List Str × List Str × List Str) (p : Str × List (Str × Str)) :
    List Str × List Str × List Str :=
  p.2.foldl (reportStepTest (alGet existing p.1) p.1) acc

/-- Model of `generate_report` of run_tests.py: classify every
`(file, test)` pair of the current run into
`(newly_fixed, newly_broken, still_failing)`. -/
def generateReportR (current : List (Str × List (Str × Str)))
    (existing : List (Str × TaskInfo)) : List Str × List Str × List Str :=
  current.foldl (reportStepFile existing) ([], [], [])

/-- Selector: a test entry is classified `newly_fixed`. -/
def isNF (existing_task : Option TaskInfo) (q : Str × Str) : Bool :=
  decide (q.2 = sPASSED) &&
    (match existing_task with
     | some et => decide (alGet et.subtasks q.1 = some false)
     | none => false)

/-- Selector: a test entry is classified `newly_broken`. -/
def isNB (existing_task : Option TaskInfo) (q : Str × Str) : Bool :=
  !decide (q.2 = sPASSED) &&
    (match existing_task with
     | some et => !(alMem et.subtasks q.1)
     | none => true)

/-- Selector: a test entry is classified `still_failing`. -/
def isSF (existing_task : Option TaskInfo) (q : Str × Str) : Bool :=
  !decide (q.2 = sPASSED) &&
    (match existing_task with
     | some et => alMem et.subtasks q.1
     | none => false)

/-- A structural separator: `line.startswith("---") and
len(line.strip()) > 10` in `organize_tasks_by_priority`. -/
def isDashLine (line : Str) : Bool :=
  startsWith line (("---").data) && decide ((stripWs line).length > 10)

/-- Split a list of lines at the first dash separator. -/
def breakAtDash : List Str → Option (List Str × Str × List Str)
  | [] => none
  | l :: rest =>
    if isDashLine l then some ([], l, rest)
    else (breakAtDash rest).map (fun t => (l :: t.1, t.2.1, t.2.2))

/-- The `"---" + "-" * 90` separator written by the organizer. -/
def dashLine93 : Str := ("---").data ++ List.replicate 90 '-'

/-- The four priority-section names, in rendering order. -/
def priorityOrder : List Str :=
  [("Critical").data, ("High").data, ("Medium").data, ("Low").data]

/-- Model of `organize_tasks_by_priority` of run_tests.py. -/
def organizeTasksR (task_blocks : List Str) (original_text : Str) : Str :=
  let lines := splitNl original_text
  let firstSplit := breakAtDash lines
  let new0 :=
    match firstSplit with
    | some (pre, dash, _) => pre ++ [dash]
    | none => lines ++ [[], dashLine93]
  let sections := priorityOrder.flatMap (fun p =>
    [("## ").data ++ p ++ (" Priority Tasks").data, []]
    ++ (task_blocks.filter (fun b =>
          containsSub (("- **Priority**: ").data ++ p) b)).flatMap (fun b =>
        splitNl (rstripWs b) ++ [[]])
    ++ [[]])
  let archive :=
    [("## Archive").data, [],
     ("*Completed tasks are moved here for historical reference.*").data, []]
  let tailLines :=
    match firstSplit with
    | some (_, _, post) =>
      match breakAtDash post with
      | some (_, _, post2) => dashLine93 :: post2
      | none => [dashLine93]
    | none => [dashLine93]
  joinNl (new0 ++ [[]] ++ sections ++ archive ++ tailLines)

/-- The pure core of `update_tasks_file` of run_tests.py: given the
current grouped results, the parsed existing open tasks and the original
ledger text, return the `has_changes` flag and the resulting ledger text
(unchanged when no change is reported; the file write, the dry-run flag
and the cosmetic `ruff` invocation are I/O around this core). -/
def updateStep (now : Str) (existing : List (Str × TaskInfo))
    (st : List Str × Bool × Int) (p : Str × List (Str × Str)) : List Str × Bool × Int :=
  let (blocks, has_changes, cur_id) := st
  let f := p.1
  let tests := p.2
  let existing_task := alGet existing f
  let has_failures := tests.any (fun q => decide (q.2 = sFAILED))
  if !has_failures && existing_task.isNone then st
  else
    match existing_task with
    | some et =>
      let changes := tests.any (fun q =>
        (decide (q.2 = sFAILED) && !(alMem et.subtasks q.1)) ||
        (decide (q.2 = sPASSED) && decide (alGet et.subtasks q.1 = some false)))
      (blocks ++ [formatTaskBlockR now f tests et.task_id et.subtasks (some et)],
       has_changes || changes, cur_id)
    | none =>
      (blocks ++ [formatTaskBlockR now f tests cur_id [] none], true, cur_id + 1)

/-- The loop body of `update_tasks_file` was factored out above as
`updateStep`; this is the remaining glue. -/
def updateTasksFileR (now : Str) (current : List (Str × List (Str × Str)))
    (existing : List (Str × TaskInfo)) (original_text : Str) : Bool × Str :=
  let next_task_id := getNextTaskId original_text
  let res := current.foldl (updateStep now existing) ([], false, next_task_id)
  if res.2.1 then (true, organizeTasksR res.1 original_text) else (false, original_text)

end RT

namespace MD

/-! Embedding of `src/taskautomation/markdown_parser.py` (the enhanced
parser and formatter over `core_utils.TaskInfo`).  Python is dynamically
typed: the metadata branch of `parse_existing_tasks` can overwrite the
`checked`, `task_id`, `prerequisites` and `subtasks` slots of the
`task_data` dict with a string or `None`; those slots are `Sum`-typed
here, `Sum.inl` being the intended shape and `Sum.inr` a
metadata-assigned string-or-null. -/

/-- The mutable `task_data` dict of `parse_existing_tasks`
(markdown_parser.py), minus `raw_block`, which the final
`"\n".join(...)` assignment overwrites unconditionally. -/
structure MAcc where
  title : Option Str
  checked : Sum Bool (Option Str)
  task_id : Sum Int (Option Str)
  priority : Option Str
  assignee : Option Str
  create_date : Option Str
  start_date : Option Str
  finish_date : Option Str
  estimated_time : Option Str
  description : Option Str
  prerequisites : Sum (List Str) (Option Str)
  subtasks : Sum (List (Str × Bool)) (Option Str)
deriving DecidableEq

/-- The initial `task_data` dict for a block whose header carried
`checked` and `title`. -/
@[reducible] def mAcc0 (checked : Bool) (title : Str) : MAcc :=
  ⟨some title, Sum.inl checked, Sum.inl (-1), some (("Critical").data),
   none, none, none, none, none, none, Sum.inl [], Sum.inl []⟩

/-- One parsed task (`TaskInfo(**task_data)` of core_utils.py), with the
dynamic field types the metadata scan can produce. -/
structure PTask where
  title : Option Str
  checked : Sum Bool (Option Str)
  task_id : Sum Int (Option Str)
  priority : Option Str
  assignee : Option Str
  create_date : Option Str
  start_date : Option Str
  finish_date : Option Str
  estimated_time : Option Str
  description : Option Str
  prerequisites : Sum (List Str) (Option Str)
  subtasks : Sum (List (Str × Bool)) (Option Str)
  raw_block : Str
deriving DecidableEq

/-- Package the accumulated `task_data` and the raw block. -/
def mkPTask (acc : MAcc) (raw : Str) : PTask :=
  ⟨acc.title, acc.checked, acc.task_id, acc.priority, acc.assignee,
   acc.create_date, acc.start_date, acc.finish_date, acc.estimated_time,
   acc.description, acc.prerequisites, acc.subtasks, raw⟩

/-- Model of `TASK_BLOCK_RE.match(line)` of core_utils.py, regex
`- \[([ x])\] \*\*(.+?)\*\*:` (an anchored prefix match): returns the
checked flag and the title. -/
def parseHeaderM (l : Str) : Option (Bool × Str) :=
  if startsWith l (("- [").data) then
    match l.drop 3 with
    | [] => none
    | c :: rest =>
      if c = spChar || c = 'x' then
        match RT.matchMid (("] **").data) (("**:").data) rest with
        | some (t, _) => some (c = 'x', t)
        | none => none
      else none
  else none

/-- Model of `METADATA_RE.match(line.strip())`, regex
`- \*\*(.+?)\*\*: (.+?)(?:\n|$)` applied to a single line: returns the
raw key and the raw (nonempty) value. -/
def parseMetadataLine (s : Str) : Option (Str × Str) :=
  match RT.matchMid (("- **").data) (("**: ").data) s with
  | some (k, rest) =>
    match rest with
    | [] => none
    | v => some (k, v)
  | none => none

/-- `metadata_match.group(1).lower().replace(" ", "_")`. -/
def keyNorm (k : Str) : Str :=
  (lowerStr k).map (fun c => if c = spChar then '_' else c)

/-- `None if value.lower() in ("none", "") else value`. -/
def normVal (v : Str) : Option Str :=
  if lowerStr v = ("none").data ∨ v = [] then none else some v

/-- The metadata branch of `parse_existing_tasks` (markdown_parser.py):
apply one parsed key/value pair (the value already stripped) to the
accumulator.  The `id` key parses an integer with `-1` on failure; the
`finished_date` key is mapped onto the `finish_date` slot; any other
key present in `task_data` is overwritten with the normalised value
(`raw_block` assignments are omitted, see `MAcc`); unknown keys are
ignored. -/
def applyMeta (acc : MAcc) (key value : Str) : MAcc :=
  let k := keyNorm key
  if k = ("id").data then
    { acc with task_id := Sum.inl ((parseIntPy value).getD (-1)) }
  else if k = ("finished_date").data then
    { acc with finish_date := normVal value }
  else if k = ("title").data then { acc with title := normVal value }
  else if k = ("checked").data then { acc with checked := Sum.inr (normVal value) }
  else if k = ("task_id").data then { acc with task_id := Sum.inr (normVal value) }
  else if k = ("priority").data then { acc with priority := normVal value }
  else if k = ("assignee").data then { acc with assignee := normVal value }
  else if k = ("create_date").data then { acc with create_date := normVal value }
  else if k = ("start_date").data then { acc with start_date := normVal value }
  else if k = ("finish_date").data then { acc with finish_date := normVal value }
  else if k = ("estimated_time").data then { acc with estimated_time := normVal value }
  else if k = ("description").data then { acc with description := normVal value }
  else if k = ("prerequisites").data then { acc with prerequisites := Sum.inr (normVal value) }
  else if k = ("subtasks").data then { acc with subtasks := Sum.inr (normVal value) }
  else acc

/-- The metadata step applied to a whole line (match against the
stripped line, then strip the extracted value). -/
def metaApply (acc : MAcc) (line : Str) : MAcc :=
  match parseMetadataLine (stripWs line) with
  | some (k, v) => applyMeta acc k (stripWs v)
  | none => acc

/-- Propagate a modelled Python exception: continue on `ok`, re-raise
on `error`. -/
def exBind {α β : Type} : Except Unit α → (α → Except Unit β) → Except Unit β
  | Except.error e, _ => Except.error e
  | Except.ok a, f => f a

/-- The prerequisite sub-scan of `parse_existing_tasks`
(markdown_parser.py): consume `"    - "` lines, appending each
non-`None` entry to the `prerequisites` slot.  `Except.error` models the
`AttributeError` Python raises when that slot was clobbered by a
metadata line (a string or `None` has no `.append`).  Returns the
updated slot and the consumed lines; the caller resumes at
`input.drop consumed.length` (Python keeps the index `i`). -/
def scanPrereqs (pre : Sum (List Str) (Option Str)) :
    List Str → Except Unit ((Sum (List Str) (Option Str)) × List Str)
  | [] => Except.ok (pre, [])
  | line :: rest =>
    if startsWith line (("    - ").data) then
      if lowerStr ((stripWs line).drop 2) = ("none").data then
        exBind (scanPrereqs pre rest) (fun pc => Except.ok (pc.1, line :: pc.2))
      else
        match pre with
        | Sum.inl l =>
          exBind (scanPrereqs (Sum.inl (l ++ [(stripWs line).drop 2])) rest)
            (fun pc => Except.ok (pc.1, line :: pc.2))
        | Sum.inr _ => Except.error ()
    else Except.ok (pre, [])

/-- The subtask sub-scan of `parse_existing_tasks` (markdown_parser.py):
consume `"    - ["` lines, recording each `SUBTASK_RE` match in the
`subtasks` slot.  `Except.error` models the `TypeError` Python raises
when that slot was clobbered by a metadata line (item assignment on a
string or `None`).  Returns the updated slot and the consumed lines. -/
def scanSubs (subs : Sum (List (Str × Bool)) (Option Str)) :
    List Str → Except Unit ((Sum (List (Str × Bool)) (Option Str)) × List Str)
  | [] => Except.ok (subs, [])
  | line :: rest =>
    if startsWith line (("    - [").data) then
      match RT.parseSubtaskLine line with
      | some (b, nm) =>
        match subs with
        | Sum.inl l =>
          exBind (scanSubs (Sum.inl (alSet l nm b)) rest)
            (fun pc => Except.ok (pc.1, line :: pc.2))
        | Sum.inr _ => Except.error ()
      | none =>
        exBind (scanSubs subs rest) (fun pc => Except.ok (pc.1, line :: pc.2))
    else Except.ok (subs, [])

/-- `i + 1 < len(lines) and lines[i + 1].startswith("- [")`: the
look-ahead of the blank-line break condition. -/
def nextIsBullet : List Str → Bool
  | r :: _ => startsWith r (("- [").data)
  | [] => false

/-- The inner `while` loop of `parse_existing_tasks`
(markdown_parser.py): metadata extraction, the prerequisite and subtask
sub-scans, and the two break conditions (a blank line followed by a
top-level bullet, which is consumed, or a new `TASK_BLOCK_RE` header,
which is not).  Returns the final accumulator and the consumed lines
(those joined into `raw_block` after the header line); the unconsumed
rest is `input.drop consumed.length`, mirroring Python's index `i`.
`Except.error` propagates a crash from a sub-scan. -/
def bodyM (acc : MAcc) : List Str → Except Unit (MAcc × List Str)
  | [] => Except.ok (acc, [])
  | line :: rest =>
    if (stripWs line).isEmpty && nextIsBullet rest then
      Except.ok (acc, [line])
    else if (parseHeaderM line).isSome then
      Except.ok (acc, [])
    else
      let s := stripWs line
      let acc1 := metaApply acc line
      if startsWith s (("- **Pre-requisites**:").data) ||
          startsWith s (("- **Prerequisites**:").data) then
        exBind (scanPrereqs acc1.prerequisites rest) (fun pc =>
          exBind (bodyM { acc1 with prerequisites := pc.1 } (rest.drop pc.2.length))
            (fun ac => Except.ok (ac.1, line :: (pc.2 ++ ac.2))))
      else if startsWith s (("- **Subtasks**:").data) then
        exBind (scanSubs acc1.subtasks rest) (fun pc =>
          exBind (bodyM { acc1 with subtasks := pc.1 } (rest.drop pc.2.length))
            (fun ac => Except.ok (ac.1, line :: (pc.2 ++ ac.2))))
      else
        exBind (bodyM acc1 rest) (fun ac => Except.ok (ac.1, line :: ac.2))
termination_by l => l.length
decreasing_by
  · simp only [List.length_cons, List.length_drop]
    omega
  · simp only [List.length_cons, List.length_drop]
    omega
  · simp

/-- The outer loop of `parse_existing_tasks` (markdown_parser.py): every
`TASK_BLOCK_RE` header opens a block; the result maps title to `PTask`
(checked tasks included, unlike the run_tests.py variant). -/
def parseTasksAuxM (tasks : List (Str × PTask)) : List Str → Except Unit (List (Str × PTask))
  | [] => Except.ok tasks
  | line :: rest =>
    match parseHeaderM line with
    | some (checked, title) =>
      exBind (bodyM (mAcc0 checked title) rest) (fun ac =>
        parseTasksAuxM (alSet tasks title (mkPTask ac.1 (joinNl (line :: ac.2))))
          (rest.drop ac.2.length))
    | none => parseTasksAuxM tasks rest
termination_by l => l.length
decreasing_by
  · simp only [List.length_cons, List.length_drop]
    omega
  · simp

/-- Model of `parse_existing_tasks` of markdown_parser.py on a list of
lines. -/
def parseTasksM (lines : List Str) : Except Unit (List (Str × PTask)) :=
  parseTasksAuxM [] lines

/-- Model of `parse_existing_tasks` of markdown_parser.py on a raw
text. -/
def parseTasksTextM (text : Str) : Except Unit (List (Str × PTask)) :=
  parseTasksM (splitNl text)

/-- A clean task record in the shape `format_task_block`
(markdown_parser.py) consumes: the `core_utils.TaskInfo` named tuple
with its intended field types. -/
structure MTask where
  title : Str
  checked : Bool
  task_id : Int
  priority : Str
  assignee : Option Str
  create_date : Option Str
  start_date : Option Str
  finish_date : Option Str
  estimated_time : Option Str
  description : Option Str
  prerequisites : List Str
  subtasks : List (Str × Bool)
  raw_block : Str
deriving DecidableEq

/-- The rendered header line of a task block (markdown_parser.py). -/
def headerLineM (task : MTask) : Str :=
  ("- ").data ++ (if task.checked then ("[x]").data else ("[ ]").data) ++
    (" **").data ++ task.title ++ ("**:").data

/-- The rendered prerequisite entries of a task block: one `    - `
line per entry, or the `    - None` placeholder for an empty list. -/
def prereqLinesM (ps : List Str) : List Str :=
  if ps.isEmpty then [("    - None").data]
  else ps.map (fun p => ("    - ").data ++ p)

/-- One rendered subtask checkbox line. -/
def renderSubLine (q : Str × Bool) : Str :=
  ("    - ").data ++ (if q.2 then ("[x]").data else ("[ ]").data) ++
    [spChar] ++ q.1

/-- The rendered subtask entries of a task block: one checkbox line per
entry, or the `    - None` placeholder for an empty mapping. -/
def subtaskLinesM (ss : List (Str × Bool)) : List Str :=
  if ss.isEmpty then [("    - None").data]
  else ss.map renderSubLine

/-- The `lines` list constructed by `format_task_block`
(markdown_parser.py). -/
def formatTaskBlockLinesM (task : MTask) (updated_subtasks : Option (List (Str × Bool))) :
    List Str :=
  let subtasks := match updated_subtasks with | some u => u | none => task.subtasks
  [ headerLineM task,
    ("  - **ID**: ").data ++ intToStr task.task_id,
    ("  - **Description**: ").data ++ pyOrStr task.description (("No description").data),
    ("  - **Pre-requisites**:").data ]
  ++ prereqLinesM task.prerequisites
  ++ [ ("  - **Priority**: ").data ++ task.priority,
       ("  - **Estimated Time**: ").data ++ pyOrStr task.estimated_time (("30 minutes").data),
       ("  - **Assignee**: ").data ++ pyOrStr task.assignee (("None").data),
       ("  - **Create Date**: ").data ++ pyOrStr task.create_date (("None").data),
       ("  - **Start Date**: ").data ++ pyOrStr task.start_date (("None").data),
       ("  - **Finish Date**: ").data ++ pyOrStr task.finish_date (("None").data),
       ("  - **Subtasks**:").data ]
  ++ subtaskLinesM subtasks

/-- Model of `format_task_block` of markdown_parser.py. -/
def formatTaskBlockM (task : MTask) (updated_subtasks : Option (List (Str × Bool))) : Str :=
  joinNl (formatTaskBlockLinesM task updated_subtasks) ++ [nlChar]

end MD

/-- Python `sep.join(parts)`. -/
def joinSep (sep : Str) : List Str → Str
  | [] => []
  | [x] => x
  | x :: y :: rest => x ++ sep ++ joinSep sep (y :: rest)

/-- Quote a string in single quotes, as the validator's f-strings do. -/
def sq (t : Str) : Str := sqChar :: (t ++ [sqChar])

/-- Python `str(x)` for an optional integer (`None` prints as `None`). -/
def optIntStr (o : Option Int) : Str :=
  match o with
  | some n => intToStr n
  | none => ("None").data

namespace TV

/-!
Embedding of `src/taskautomation/task_validator.py` (the YAML-based
dependency-graph validator).  `Task` objects carry only the fields the
validator reads (`id`, `title`, `status`, `start_date`, `finish_date`,
`estimated_time`, `prerequisites`, `subtasks`); dates are modelled by
their order type (`Int` timestamps), since the validator only compares
them.  The `id`/`title` guards of the Python code are kept, so both are
optional here.
-/

/-- The `TaskStatus` enum of task_schema.py. -/
inductive TaskStatus : Type
  | pending
  | in_progress
  | completed
  | blocked
  | cancelled
deriving DecidableEq

/-- A subtask record (`Subtask` of task_schema.py). -/
structure SSubtask where
  name : Str
  completed : Bool
deriving DecidableEq

/-- A task record, restricted to the fields `validate_task_list` reads. -/
structure STask where
  id : Option Int
  title : Option Str
  status : TaskStatus
  start_date : Option Int
  finish_date : Option Int
  estimated_time : Option Str
  prerequisites : List Str
  subtasks : List SSubtask
deriving DecidableEq

/-- The `TaskList` container of task_schema.py (five priority buckets). -/
structure STaskList where
  critical : List STask
  high : List STask
  medium : List STask
  low : List STask
  archive : List STask
deriving DecidableEq

/-- Model of `TaskList.get_all_tasks`. -/
def getAllTasks (tl : STaskList) : List STask :=
  tl.critical ++ tl.high ++ tl.medium ++ tl.low ++ tl.archive

/-- The duplicate-ID error message of `_check_duplicate_task_ids`. -/
def dupErrMsg (task_id : Int) (t1 t2 : Str) : Str :=
  ("Duplicate task ID ").data ++ intToStr task_id ++ (": ").data ++
    sq t1 ++ (" and ").data ++ sq t2

/-- Loop of `_check_duplicate_task_ids`: `seen` is the `task_ids` dict
mapping each id to the first title seen with it. -/
def checkDupIdsAux (seen : List (Int × Str)) (errors : List Str) :
    List STask → List Str
  | [] => errors
  | task :: rest =>
    match task.id, task.title with
    | some tid, some ttl =>
      match alGet seen tid with
      | some prev => checkDupIdsAux seen (errors ++ [dupErrMsg tid ttl prev]) rest
      | none => checkDupIdsAux (alSet seen tid ttl) errors rest
    | _, _ => checkDupIdsAux seen errors rest

/-- Model of `_check_duplicate_task_ids` (the errors it appends). -/
def checkDuplicateTaskIds (tasks : List STask) : List Str :=
  checkDupIdsAux [] [] tasks

/-- The unresolved-prerequisite error message of
`_check_prerequisites_exist`. -/
def prereqErrMsg (title prereq : Str) : Str :=
  ("Task ").data ++ sq title ++ (" has unknown prerequisite: ").data ++ sq prereq

/-- Model of `_check_prerequisites_exist` (the errors it appends). -/
def checkPrerequisitesExist (tasks : List STask) : List Str :=
  let all_titles := tasks.filterMap (fun t => t.title)
  tasks.flatMap (fun t =>
    match t.title with
    | some ttl =>
      t.prerequisites.filterMap (fun pr =>
        if pr ∈ all_titles then none else some (prereqErrMsg ttl pr))
    | none => [])

/-- The `task_dict` built by the graph checks: a dict comprehension over
titled tasks, so a later task with the same title wins. -/
def taskDict (tasks : List STask) : List (Str × STask) :=
  tasks.foldl (fun d t =>
    match t.title with
    | some ttl => alSet d ttl t
    | none => d) []

/-- Model of `_has_circular_dependency`: depth-first search over the
prerequisite edges, tracking the set of titles on the current path only.
The Python recursion needs no fuel: each call adds a fresh title to
`visited` and only recurses into titles of `task_dict`, so its depth is
bounded by the number of distinct titles plus one; the callers below
pass `tasks.length + 1`, which therefore reproduces it exactly. -/
def hasCircFuel : Nat → Str → STask → List (Str × STask) → List Str → Bool
  | 0, _, _, _, _ => false
  | fuel + 1, current, task, dict, visited =>
    if current ∈ visited then true
    else
      task.prerequisites.any (fun pr =>
        match alGet dict pr with
        | some tp => hasCircFuel fuel pr tp dict (current :: visited)
        | none => false)

/-- The circular-dependency error message of
`_check_circular_dependencies`. -/
def circErrMsg (title : Str) : Str :=
  ("Circular dependency detected involving task: ").data ++ sq title

/-- Model of `_check_circular_dependencies` (the errors it appends). -/
def checkCircularDependencies (tasks : List STask) : List Str :=
  let dict := taskDict tasks
  tasks.filterMap (fun task =>
    match task.title with
    | some ttl =>
      if hasCircFuel (tasks.length + 1) ttl task dict [] then some (circErrMsg ttl)
      else none
    | none => none)

/-- Model of `_check_completion_consistency` (the warnings it appends). -/
def checkCompletionConsistency (tasks : List STask) : List Str :=
  let dict := taskDict tasks
  tasks.filterMap (fun task =>
    match task.title with
    | some ttl =>
      if task.status = TaskStatus.completed then
        let incomplete := task.prerequisites.filter (fun pr =>
          match alGet dict pr with
          | some tp => decide (tp.status ≠ TaskStatus.completed)
          | none => false)
        if incomplete.isEmpty then none
        else some (("Task ").data ++ sq ttl ++
          (" is complete but has incomplete prerequisites: ").data ++
          joinSep ((", ").data) incomplete)
      else none
    | none => none)

/-- Model of `_is_valid_time_estimate`: the six `re.match` patterns,
applied to the lowered and stripped string (an `re.match` against
`\d+\s*minutes?` and its variants succeeds whenever the digits, optional
whitespace and the singular word form are a prefix, since the trailing
`s?` may match the empty string). -/
def isValidTimeEstimate (s : Str) : Bool :=
  let t := stripWs (lowerStr s)
  let ds := t.takeWhile isDigitChar
  let rest := t.drop ds.length
  let afterWs := rest.dropWhile (fun c => isWsChar c)
  !ds.isEmpty &&
    (isPre (("minute").data) afterWs ||
     isPre (("hour").data) afterWs ||
     isPre (("day").data) afterWs ||
     isPre (("week").data) afterWs ||
     (match rest with
      | c :: _ => c = 'h' || c = 'm'
      | [] => false) ||
     (match rest with
      | ':' :: d :: _ => isDigitChar d
      | _ => false))

/-- Model of `validate_task_object`: returns `(errors, warnings)`. -/
def validateTaskObject (task : STask) : List Str × List Str :=
  let errors :=
    match task.start_date, task.finish_date with
    | some sd, some fd =>
      if fd < sd then
        [("Task ").data ++ optIntStr task.id ++
          (": Start date cannot be after finish date").data]
      else []
    | _, _ => []
  let w1 :=
    if task.status = TaskStatus.completed ∧ ¬task.subtasks.isEmpty then
      let uncompleted := (task.subtasks.filter
        (fun st => !st.completed && !st.name.isEmpty)).map (fun st => st.name)
      if uncompleted.isEmpty then []
      else
        [("Task ").data ++ optIntStr task.id ++
          (" is marked complete but has uncompleted subtasks: ").data ++
          joinSep ((", ").data) uncompleted]
    else []
  let w2 :=
    if task.status = TaskStatus.in_progress ∧ task.start_date = none then
      [("Task ").data ++ optIntStr task.id ++
        (" is in progress but has no start date").data]
    else []
  let w3 :=
    if task.status = TaskStatus.completed ∧ task.finish_date = none then
      [("Task ").data ++ optIntStr task.id ++
        (" is completed but has no finish date").data]
    else []
  let w4 :=
    match task.estimated_time with
    | some et =>
      if isValidTimeEstimate et then []
      else
        [("Task ").data ++ optIntStr task.id ++
          (": Estimated time should be in format like ").data ++
          sq (("30 minutes").data) ++ ((", ").data) ++ sq (("2 hours").data) ++
          ((", ").data) ++ sq (("1 day").data)]
    | none => []
  (errors, w1 ++ w2 ++ w3 ++ w4)

/-- Model of `validate_task_list`: aggregate the graph checks and the
per-task checks over all tasks of the list; `is_valid` holds exactly
when no error was collected. -/
def validateTaskList (tl : STaskList) : Bool × List Str × List Str :=
  let all_tasks := getAllTasks tl
  let errors :=
    checkDuplicateTaskIds all_tasks ++
    checkPrerequisitesExist all_tasks ++
    checkCircularDependencies all_tasks ++
    all_tasks.flatMap (fun t => (validateTaskObject t).1)
  let warnings :=
    checkCompletionConsistency all_tasks ++
    all_tasks.flatMap (fun t => (validateTaskObject t).2)
  (errors.isEmpty, errors, warnings)

end TV

/-! General lemmas about the association-list and string helpers. -/

theorem alGet_mem {α β : Type} [DecidableEq α] {l : List (α × β)} {k : α} {v : β}
    (h : alGet l k = some v) : (k, v) ∈ l := by
  induction l with
  | nil => simp [alGet] at h
  | cons p rest ih =>
    rcases p with ⟨k', v'⟩
    by_cases hk : k' = k
    · subst hk
      simp [alGet] at h
      simp [h]
    · simp [alGet, hk] at h
      simp [ih h]

theorem mem_alGet_of_nodup {α β : Type} [DecidableEq α] {l : List (α × β)} {k : α} {v : β}
    (hnd : (alKeys l).Nodup) (h : (k, v) ∈ l) : alGet l k = some v := by
  induction l with
  | nil => simp at h
  | cons p rest ih =>
    rcases p with ⟨k', v'⟩
    simp only [alKeys, List.map_cons, List.nodup_cons] at hnd
    rcases List.mem_cons.mp h with h1 | h1
    · rcases Prod.mk.injEq .. ▸ h1 with ⟨hk, hv⟩
      simp [alGet, hk.symm, hv]
    · have hk : k' ≠ k := by
        intro he
        subst he
        exact hnd.1 (List.mem_map.mpr ⟨(k', v), h1, rfl⟩)
      simp [alGet, hk, ih hnd.2 h1]

theorem eq_of_mem_of_nodup_keys {α β : Type} [DecidableEq α] {l : List (α × β)} {a b : α × β}
    (hnd : (alKeys l).Nodup) (ha : a ∈ l) (hb : b ∈ l) (hk : a.1 = b.1) : a = b := by
  rcases a with ⟨ka, va⟩
  rcases b with ⟨kb, vb⟩
  simp only at hk
  subst hk
  have h1 := mem_alGet_of_nodup hnd ha
  have h2 := mem_alGet_of_nodup hnd hb
  rw [h1] at h2
  simp at h2
  simp [h2]

theorem takeWhile_append_all {p : Char → Bool} :
    ∀ {l₁ l₂ : Str}, (∀ c ∈ l₁, p c = true) →
      (l₁ ++ l₂).takeWhile p = l₁ ++ l₂.takeWhile p := by
  intro l₁
  induction l₁ with
  | nil => intro l₂ _; simp
  | cons c rest ih =>
    intro l₂ hall
    have hc : p c = true := hall c (by simp)
    simp only [List.cons_append, List.takeWhile_cons, hc]
    rw [ih (fun d hd => hall d (by simp [hd]))]
    simp

theorem alGet_alSet_self {α β : Type} [DecidableEq α] (l : List (α × β)) (k : α) (v : β) :
    alGet (alSet l k v) k = some v := by
  induction l with
  | nil => simp [alSet, alGet]
  | cons p rest ih =>
    rcases p with ⟨k', w⟩
    by_cases hk : k' = k
    · subst hk; simp [alSet, alGet]
    · simp [alSet, alGet, hk, ih]

theorem alGet_alSet_ne {α β : Type} [DecidableEq α] (l : List (α × β)) (k k' : α) (v : β)
    (h : k ≠ k') : alGet (alSet l k v) k' = alGet l k' := by
  induction l with
  | nil => simp [alSet, alGet, h]
  | cons p rest ih =>
    rcases p with ⟨k0, w⟩
    by_cases hk : k0 = k
    · subst hk; simp [alSet, alGet, h]
    · by_cases hk' : k0 = k'
      · subst hk'; simp [alSet, alGet, hk]
      · simp [alSet, alGet, hk, hk', ih]

theorem isEmpty_false_of_mem {α : Type} {l : List α} {a : α} (h : a ∈ l) :
    l.isEmpty = false := by
  cases l with
  | nil => simp at h
  | cons b rest => rfl

namespace TV

theorem checkDupIdsAux_mem_mono :
    ∀ (tasks : List STask) (seen : List (Int × Str)) (errors : List Str) (e : Str),
    e ∈ errors → e ∈ checkDupIdsAux seen errors tasks := by
  intro tasks
  induction tasks with
  | nil => intro seen errors e he; simpa [checkDupIdsAux] using he
  | cons task rest ih =>
    intro seen errors e he
    cases htid : task.id with
    | some tid =>
      cases httl : task.title with
      | some ttl =>
        cases hseen : alGet seen tid with
        | some prev =>
          simp only [checkDupIdsAux, htid, httl, hseen]
          exact ih _ _ _ (by simp [he])
        | none =>
          simp only [checkDupIdsAux, htid, httl, hseen]
          exact ih _ _ _ he
      | none =>
        simp only [checkDupIdsAux, htid, httl]
        exact ih _ _ _ he
    | none =>
      cases httl : task.title with
      | some ttl =>
        simp only [checkDupIdsAux, htid, httl]
        exact ih _ _ _ he
      | none =>
        simp only [checkDupIdsAux, htid, httl]
        exact ih _ _ _ he

theorem sq_infix_dupErr_left (n : Int) (t1 t2 : Str) :
    sq t1 <:+: dupErrMsg n t1 t2 :=
  ⟨("Duplicate task ID ").data ++ intToStr n ++ ((": ").data),
   (" and ").data ++ sq t2, by simp [dupErrMsg, List.append_assoc]⟩

theorem sq_infix_dupErr_right (n : Int) (t1 t2 : Str) :
    sq t2 <:+: dupErrMsg n t1 t2 :=
  ⟨("Duplicate task ID ").data ++ intToStr n ++ ((": ").data) ++ sq t1 ++ ((" and ").data),
   [], by simp [dupErrMsg, List.append_assoc]⟩

theorem dup_prev_named :
    ∀ (tasks : List STask) (seen : List (Int × Str)) (errors : List Str) (n : Int) (ttl : Str),
    alGet seen n = some ttl →
    (∃ t ∈ tasks, t.id = some n ∧ t.title ≠ none) →
    ∃ e ∈ checkDupIdsAux seen errors tasks, sq ttl <:+: e := by
  intro tasks
  induction tasks with
  | nil =>
    rintro seen errors n ttl _ ⟨t, ht, _⟩
    simp at ht
  | cons task rest ih =>
    rintro seen errors n ttl hseen ⟨t, ht, htn, htt⟩
    have hwit : t ∈ rest → ∃ u ∈ rest, u.id = some n ∧ u.title ≠ none :=
      fun h => ⟨t, h, htn, htt⟩
    cases htid : task.id with
    | some tid =>
      cases httl : task.title with
      | some tttl =>
        by_cases heq : tid = n
        · subst heq
          simp only [checkDupIdsAux, htid, httl, hseen]
          refine ⟨dupErrMsg tid tttl ttl, ?_, sq_infix_dupErr_right tid tttl ttl⟩
          exact checkDupIdsAux_mem_mono rest _ _ _ (by simp)
        · have hmem : t ∈ rest := by
            rcases List.mem_cons.mp ht with h | h
            · exfalso; rw [h] at htn; rw [htid] at htn
              exact heq (Option.some.inj htn)
            · exact h
          cases hs2 : alGet seen tid with
          | some prev =>
            simp only [checkDupIdsAux, htid, httl, hs2]
            exact ih _ _ n ttl hseen (hwit hmem)
          | none =>
            simp only [checkDupIdsAux, htid, httl, hs2]
            refine ih _ _ n ttl ?_ (hwit hmem)
            rw [alGet_alSet_ne _ _ _ _ heq]
            exact hseen
      | none =>
        have hmem : t ∈ rest := by
          rcases List.mem_cons.mp ht with h | h
          · exfalso; rw [h] at htt; exact htt httl
          · exact h
        simp only [checkDupIdsAux, htid, httl]
        exact ih _ _ n ttl hseen (hwit hmem)
    | none =>
      have hmem : t ∈ rest := by
        rcases List.mem_cons.mp ht with h | h
        · exfalso; rw [h] at htn; rw [htid] at htn; exact Option.noConfusion htn
        · exact h
      cases httl : task.title with
      | some tttl =>
        simp only [checkDupIdsAux, htid, httl]
        exact ih _ _ n ttl hseen (hwit hmem)
      | none =>
        simp only [checkDupIdsAux, htid, httl]
        exact ih _ _ n ttl hseen (hwit hmem)

theorem dup_mem_named :
    ∀ (tasks : List STask) (seen : List (Int × Str)) (errors : List Str),
    (∀ u ∈ tasks, u.title ≠ none) →
    ∀ t ∈ tasks, ∀ (n : Int) (ttl : Str), t.id = some n → t.title = some ttl →
    (alMem seen n = true ∨
      2 ≤ (tasks.filter (fun u => decide (u.id = some n))).length) →
    ∃ e ∈ checkDupIdsAux seen errors tasks, sq ttl <:+: e := by
  intro tasks
  induction tasks with
  | nil => intro seen errors _ t ht; simp at ht
  | cons task rest ih =>
    intro seen errors htitled t ht n ttl htn httl hcond
    have htitled2 : ∀ u ∈ rest, u.title ≠ none := fun u hu => htitled u (by simp [hu])
    rcases List.mem_cons.mp ht with hhead | htrest
    · subst hhead
      cases hseen : alGet seen n with
      | some prev =>
        simp only [checkDupIdsAux, htn, httl, hseen]
        refine ⟨dupErrMsg n ttl prev, ?_, sq_infix_dupErr_left n ttl prev⟩
        exact checkDupIdsAux_mem_mono rest _ _ _ (by simp)
      | none =>
        simp only [checkDupIdsAux, htn, httl, hseen]
        have hcount : 2 ≤ ((t :: rest).filter (fun u => decide (u.id = some n))).length := by
          rcases hcond with h | h
          · rw [alMem, hseen] at h; simp at h
          · exact h
        have hpos : 0 < (rest.filter (fun u => decide (u.id = some n))).length := by
          simp only [List.filter_cons, htn, decide_True, if_true, List.length_cons] at hcount
          omega
        obtain ⟨u, hu⟩ := List.exists_mem_of_length_pos hpos
        have hu2 := List.mem_filter.mp hu
        have hun : u.id = some n := by simpa using hu2.2
        refine dup_prev_named rest _ _ n ttl (alGet_alSet_self seen n ttl)
          ⟨u, hu2.1, hun, htitled2 u hu2.1⟩
    · cases htid : task.id with
      | some tid =>
        cases httl2 : task.title with
        | some tttl =>
          by_cases heq : tid = n
          · subst heq
            cases hseen : alGet seen tid with
            | some prev =>
              simp only [checkDupIdsAux, htid, httl2, hseen]
              refine ih _ _ htitled2 t htrest tid ttl htn httl (Or.inl ?_)
              rw [alMem, hseen]; rfl
            | none =>
              simp only [checkDupIdsAux, htid, httl2, hseen]
              refine ih _ _ htitled2 t htrest tid ttl htn httl (Or.inl ?_)
              rw [alMem, alGet_alSet_self]; rfl
          · have hfneg : (decide (task.id = some n)) = false := by
              rw [htid]; simp; intro he; exact heq he
            have hcond2 : alMem seen n = true ∨
                2 ≤ (rest.filter (fun u => decide (u.id = some n))).length := by
              rcases hcond with h | h
              · exact Or.inl h
              · refine Or.inr ?_
                simpa [List.filter_cons, hfneg] using h
            cases hseen : alGet seen tid with
            | some prev =>
              simp only [checkDupIdsAux, htid, httl2, hseen]
              exact ih _ _ htitled2 t htrest n ttl htn httl hcond2
            | none =>
              simp only [checkDupIdsAux, htid, httl2, hseen]
              refine ih _ _ htitled2 t htrest n ttl htn httl ?_
              rcases hcond2 with h | h
              · refine Or.inl ?_
                rw [alMem, alGet_alSet_ne _ _ _ _ heq]
                exact h
              · exact Or.inr h
        | none =>
          exact absurd httl2 (htitled task (by simp))
      | none =>
        cases httl2 : task.title with
        | some tttl =>
          have hfneg : (decide (task.id = some n)) = false := by rw [htid]; simp
          simp only [checkDupIdsAux, htid, httl2]
          refine ih _ _ htitled2 t htrest n ttl htn httl ?_
          rcases hcond with h | h
          · exact Or.inl h
          · refine Or.inr ?_
            simpa [List.filter_cons, hfneg] using h
        | none =>
          exact absurd httl2 (htitled task (by simp))

theorem checkDupIdsAux_nil :
    ∀ (tasks : List STask) (seen : List (Int × Str)) (errors : List Str),
    (∀ t ∈ tasks, ∀ n : Int, t.id = some n → alGet seen n = none) →
    (tasks.filterMap STask.id).Nodup →
    checkDupIdsAux seen errors tasks = errors := by
  intro tasks
  induction tasks with
  | nil => intro seen errors _ _; rfl
  | cons task rest ih =>
    intro seen errors hdisj hnodup
    have hdisj2 : ∀ t ∈ rest, ∀ n : Int, t.id = some n → alGet seen n = none :=
      fun t ht n htn => hdisj t (by simp [ht]) n htn
    cases htid : task.id with
    | some tid =>
      have hrestids : (rest.filterMap STask.id).Nodup ∧ tid ∉ rest.filterMap STask.id := by
        rw [List.filterMap_cons, htid] at hnodup
        exact ⟨(List.nodup_cons.mp hnodup).2, (List.nodup_cons.mp hnodup).1⟩
      cases httl : task.title with
      | some ttl =>
        simp only [checkDupIdsAux, htid, httl, hdisj task (by simp) tid htid]
        refine ih _ _ ?_ hrestids.1
        intro t ht n htn
        have hne : tid ≠ n := by
          intro he
          subst he
          exact hrestids.2 (List.mem_filterMap.mpr ⟨t, ht, htn⟩)
        rw [alGet_alSet_ne _ _ _ _ hne]
        exact hdisj2 t ht n htn
      | none =>
        simp only [checkDupIdsAux, htid, httl]
        exact ih _ _ hdisj2 hrestids.1
    | none =>
      have hrestids : (rest.filterMap STask.id).Nodup := by
        rw [List.filterMap_cons, htid] at hnodup
        exact hnodup
      cases httl : task.title with
      | some ttl =>
        simp only [checkDupIdsAux, htid, httl]
        exact ih _ _ hdisj2 hrestids
      | none =>
        simp only [checkDupIdsAux, htid, httl]
        exact ih _ _ hdisj2 hrestids

end TV

namespace RT

theorem encPair_colon_left {f t : Str} (hf : ':' ∉ f) :
    (encPair f t).takeWhile (fun c => !(c = ':')) = f := by
  unfold encPair
  rw [List.append_assoc]
  rw [takeWhile_append_all (p := fun c => !(c = ':'))
    (fun c hc => by
      simp only [Bool.not_eq_eq_eq_not, Bool.not_true, decide_eq_false_iff_not]
      intro he
      exact hf (he ▸ hc))]
  simp [chars]

theorem encPair_inj {f f' t t' : Str} (hf : ':' ∉ f) (hf' : ':' ∉ f')
    (h : encPair f t = encPair f' t') : f = f' ∧ t = t' := by
  have hff : f = f' := by
    rw [← encPair_colon_left (t := t) hf, ← encPair_colon_left (t := t') hf', h]
  refine ⟨hff, ?_⟩
  subst hff
  unfold encPair at h
  rw [List.append_assoc, List.append_assoc] at h
  have h2 := List.append_cancel_left h
  exact List.append_cancel_left h2

/-- Unfolding of the inner classification loop of `generate_report`:
each processed test appends its report string to exactly the list picked
by the corresponding selector. -/
theorem foldTest_eq (et : Option TaskInfo) (f : Str) :
    ∀ (tests : List (Str × Str)) (acc : List Str × List Str × List Str),
    tests.foldl (reportStepTest et f) acc =
      (acc.1 ++ (tests.filter (isNF et)).map (fun q => encPair f q.1),
       acc.2.1 ++ (tests.filter (isNB et)).map (fun q => encPair f q.1),
       acc.2.2 ++ (tests.filter (isSF et)).map (fun q => encPair f q.1)) := by
  intro tests
  induction tests with
  | nil => intro acc; simp
  | cons q rest ih =>
    intro acc
    rcases acc with ⟨nf, nb, sf⟩
    simp only [List.foldl_cons]
    rw [ih]
    by_cases hp : q.2 = sPASSED
    · cases et with
      | none =>
        simp [reportStepTest, isNF, isNB, isSF, hp]
      | some t0 =>
        by_cases hu : alGet t0.subtasks q.1 = some false
        · simp [reportStepTest, isNF, isNB, isSF, hp, hu]
        · simp [reportStepTest, isNF, isNB, isSF, hp, hu]
    · cases et with
      | none =>
        simp [reportStepTest, isNF, isNB, isSF, hp]
      | some t0 =>
        by_cases hm : alMem t0.subtasks q.1
        · simp [reportStepTest, isNF, isNB, isSF, hp, hm]
        · simp [reportStepTest, isNF, isNB, isSF, hp, hm]

/-- The newly-fixed list of `generate_report`, as a filter over the input. -/
def nfList (cur : List (Str × List (Str × Str))) (ex : List (Str × TaskInfo)) : List Str :=
  cur.flatMap (fun p => (p.2.filter (isNF (alGet ex p.1))).map (fun q => encPair p.1 q.1))

/-- The newly-broken list of `generate_report`, as a filter over the input. -/
def nbList (cur : List (Str × List (Str × Str))) (ex : List (Str × TaskInfo)) : List Str :=
  cur.flatMap (fun p => (p.2.filter (isNB (alGet ex p.1))).map (fun q => encPair p.1 q.1))

/-- The still-failing list of `generate_report`, as a filter over the input. -/
def sfList (cur : List (Str × List (Str × Str))) (ex : List (Str × TaskInfo)) : List Str :=
  cur.flatMap (fun p => (p.2.filter (isSF (alGet ex p.1))).map (fun q => encPair p.1 q.1))

theorem generateReportR_eq (cur : List (Str × List (Str × Str)))
    (ex : List (Str × TaskInfo)) :
    generateReportR cur ex = (nfList cur ex, nbList cur ex, sfList cur ex) := by
  suffices h : ∀ (cur : List (Str × List (Str × Str))) (acc : List Str × List Str × List Str),
      cur.foldl (reportStepFile ex) acc =
        (acc.1 ++ nfList cur ex, acc.2.1 ++ nbList cur ex, acc.2.2 ++ sfList cur ex) by
    have := h cur ([], [], [])
    simpa [generateReportR] using this
  intro cur
  induction cur with
  | nil => intro acc; simp [nfList, nbList, sfList]
  | cons p rest ih =>
    intro acc
    simp only [List.foldl_cons, reportStepFile]
    rw [foldTest_eq, ih]
    simp [nfList, nbList, sfList, List.flatMap_cons, List.append_assoc]

/-- Membership in one of the three report lists, reduced to the
corresponding selector on the pair's own entry. -/
theorem mem_encList_iff (sel : Option TaskInfo → (Str × Str) → Bool)
    {cur : List (Str × List (Str × Str))} (ex : List (Str × TaskInfo))
    (hkeys : (alKeys cur).Nodup)
    (hinner : ∀ p ∈ cur, (alKeys p.2).Nodup)
    (hcolon : ∀ p ∈ cur, ':' ∉ p.1)
    {f t st : Str} {tests : List (Str × Str)}
    (hf : alGet cur f = some tests) (ht : alGet tests t = some st) :
    (encPair f t ∈
      cur.flatMap (fun p => (p.2.filter (sel (alGet ex p.1))).map (fun q => encPair p.1 q.1)))
      ↔ sel (alGet ex f) (t, st) = true := by
  have hmem : (f, tests) ∈ cur := alGet_mem hf
  have hcf : ':' ∉ f := hcolon _ hmem
  have hq : (t, st) ∈ tests := alGet_mem ht
  constructor
  · intro h
    obtain ⟨p, hp, h2⟩ := List.mem_flatMap.mp h
    obtain ⟨q, hq2, heq⟩ := List.mem_map.mp h2
    have hqmem : q ∈ p.2 := List.mem_of_mem_filter hq2
    have hqsel : sel (alGet ex p.1) q = true := List.of_mem_filter hq2
    obtain ⟨hp1, ht1⟩ := encPair_inj (hcolon p hp) hcf heq
    have hpe : p = (f, tests) := eq_of_mem_of_nodup_keys hkeys hp hmem hp1
    have hqe : q = (t, st) := by
      refine eq_of_mem_of_nodup_keys (hinner _ hmem) ?_ hq ht1
      rw [← hpe]
      exact hqmem
    rw [← hp1, ← hqe]
    exact hqsel
  · intro hsel
    refine List.mem_flatMap.mpr ⟨(f, tests), hmem, ?_⟩
    exact List.mem_map.mpr ⟨(t, st), List.mem_filter.mpr ⟨hq, by simpa using hsel⟩, rfl⟩

/-- Existing open ledger task of the C1 counterexample: the failing test
is recorded as a checked subtask. -/
def cexC1Task : TaskInfo :=
  ⟨("tests/test_x.py").data, false, 1, ("High").data, none, none, none, none,
   [(("test_a").data, true)]⟩

/-- Existing-task map of the C1 counterexample. -/
def cexC1Ex : List (Str × TaskInfo) := [(("tests/test_x.py").data, cexC1Task)]

/-- Current results of the C1 counterexample: the recorded test fails. -/
def cexC1Cur : List (Str × List (Str × Str)) :=
  [(("tests/test_x.py").data, [(("test_a").data, sFAILED)])]

/-- Existing open task of the specification's worked classification
scenario: `test_foo` unchecked, `test_bar` checked. -/
def cexC1wTask : TaskInfo :=
  ⟨("tests/test_x.py").data, false, 3, ("High").data, none, none, none, none,
   [(("test_foo").data, false), (("test_bar").data, true)]⟩

/-- C1 counterexample: a FAILED test that is present as a *checked*
subtask of its file's open task is still listed in `still_failing` by
`generate_report`, although the claim requires membership in
`still_failing` exactly for tests present as an *unchecked* subtask. -/
theorem c1_counterexample :
    (generateReportR cexC1Cur cexC1Ex).2.2 =
      [encPair (("tests/test_x.py").data) (("test_a").data)] ∧
    alGet cexC1Cur (("tests/test_x.py").data) =
      some [(("test_a").data, sFAILED)] ∧
    alGet cexC1Ex (("tests/test_x.py").data) = some cexC1Task ∧
    alGet cexC1Task.subtasks (("test_a").data) = some true := by
  refine ⟨?_, ?_, ?_, ?_⟩ <;> rfl

/-- C1 (amended): `generate_report` lists a PASSED pair in `newly_fixed`
exactly when it was recorded as an unchecked subtask of its file's task;
a FAILED pair in `newly_broken` exactly when it is not present as any
existing subtask; and a FAILED pair in `still_failing` exactly when it is
already present as a subtask, whether checked or unchecked. -/
theorem c1_report_classification
    (cur : List (Str × List (Str × Str))) (ex : List (Str × TaskInfo))
    (hkeys : (alKeys cur).Nodup)
    (hinner : ∀ p ∈ cur, (alKeys p.2).Nodup)
    (hcolon : ∀ p ∈ cur, ':' ∉ p.1)
    (f t st : Str) (tests : List (Str × Str))
    (hf : alGet cur f = some tests) (ht : alGet tests t = some st)
    (hstatus : st = sPASSED ∨ st = sFAILED) :
    ((encPair f t ∈ (generateReportR cur ex).1) ↔
      (st = sPASSED ∧ ∃ et, alGet ex f = some et ∧ alGet et.subtasks t = some false)) ∧
    ((encPair f t ∈ (generateReportR cur ex).2.1) ↔
      (st = sFAILED ∧ ∀ et, alGet ex f = some et → alGet et.subtasks t = none)) ∧
    ((encPair f t ∈ (generateReportR cur ex).2.2) ↔
      (st = sFAILED ∧ ∃ et, alGet ex f = some et ∧ (alGet et.subtasks t).isSome)) := by
  have hPF : sPASSED ≠ sFAILED := by decide
  have hne : ¬ st = sPASSED ↔ st = sFAILED := by
    rcases hstatus with h | h <;> subst h <;> simp [hPF, Ne.symm hPF]
  rw [generateReportR_eq]
  refine ⟨?_, ?_, ?_⟩
  · rw [show (nfList cur ex, nbList cur ex, sfList cur ex).1 = nfList cur ex from rfl]
    rw [nfList, mem_encList_iff isNF ex hkeys hinner hcolon hf ht]
    unfold isNF
    cases hex : alGet ex f with
    | none => simp
    | some et =>
      by_cases hu : alGet et.subtasks t = some false <;> simp [hu]
  · rw [show (nfList cur ex, nbList cur ex, sfList cur ex).2.1 = nbList cur ex from rfl]
    rw [nbList, mem_encList_iff isNB ex hkeys hinner hcolon hf ht]
    unfold isNB
    cases hex : alGet ex f with
    | none => simp [hne]
    | some et =>
      simp only [Bool.and_eq_true, Bool.not_eq_true', decide_eq_false_iff_not, hne]
      unfold alMem
      cases hu : alGet et.subtasks t <;> simp [hex, hu]
  · rw [show (nfList cur ex, nbList cur ex, sfList cur ex).2.2 = sfList cur ex from rfl]
    rw [sfList, mem_encList_iff isSF ex hkeys hinner hcolon hf ht]
    unfold isSF
    cases hex : alGet ex f with
    | none => simp [hne]
    | some et =>
      simp only [Bool.and_eq_true, Bool.not_eq_true', decide_eq_false_iff_not, hne]
      unfold alMem
      cases hu : alGet et.subtasks t <;> simp [hex, hu]

/-- Concrete instantiation of the C1 classification theorem: its
hypotheses are dischargeable and its conclusion holds on the worked
scenario of the specification. -/
theorem c1_report_classification_witness :
    ((encPair (("tests/test_x.py").data) (("test_foo").data) ∈
        (generateReportR
          [((("tests/test_x.py").data),
            [(("test_foo").data, sPASSED), (("test_baz").data, sFAILED)])]
          [((("tests/test_x.py").data), cexC1wTask)]).1) ↔
      (sPASSED = sPASSED ∧ ∃ et,
        alGet [((("tests/test_x.py").data), cexC1wTask)] (("tests/test_x.py").data) = some et ∧
        alGet et.subtasks (("test_foo").data) = some false)) ∧
    ((encPair (("tests/test_x.py").data) (("test_foo").data) ∈
        (generateReportR
          [((("tests/test_x.py").data),
            [(("test_foo").data, sPASSED), (("test_baz").data, sFAILED)])]
          [((("tests/test_x.py").data), cexC1wTask)]).2.1) ↔
      (sPASSED = sFAILED ∧ ∀ et,
        alGet [((("tests/test_x.py").data), cexC1wTask)] (("tests/test_x.py").data) = some et →
        alGet et.subtasks (("test_foo").data) = none)) ∧
    ((encPair (("tests/test_x.py").data) (("test_foo").data) ∈
        (generateReportR
          [((("tests/test_x.py").data),
            [(("test_foo").data, sPASSED), (("test_baz").data, sFAILED)])]
          [((("tests/test_x.py").data), cexC1wTask)]).2.2) ↔
      (sPASSED = sFAILED ∧ ∃ et,
        alGet [((("tests/test_x.py").data), cexC1wTask)] (("tests/test_x.py").data) = some et ∧
        (alGet et.subtasks (("test_foo").data)).isSome)) :=
  c1_report_classification
    [((("tests/test_x.py").data),
      [(("test_foo").data, sPASSED), (("test_baz").data, sFAILED)])]
    [((("tests/test_x.py").data), cexC1wTask)]
    (by decide) (by decide) (by decide)
    (("tests/test_x.py").data) (("test_foo").data) sPASSED
    [(("test_foo").data, sPASSED), (("test_baz").data, sFAILED)]
    (by decide) (by decide) (Or.inl rfl)

/-- Each report list is duplicate-free (under unique dict keys and
colon-free file paths). -/
theorem nodup_encList (sel : Option TaskInfo → (Str × Str) → Bool)
    (ex : List (Str × TaskInfo)) :
    ∀ (cur : List (Str × List (Str × Str))),
    (alKeys cur).Nodup →
    (∀ p ∈ cur, (alKeys p.2).Nodup) →
    (∀ p ∈ cur, ':' ∉ p.1) →
    (cur.flatMap (fun p =>
      (p.2.filter (sel (alGet ex p.1))).map (fun q => encPair p.1 q.1))).Nodup := by
  intro cur
  induction cur with
  | nil => intro _ _ _; simp
  | cons p rest ih =>
    intro hkeys hinner hcolon
    simp only [alKeys, List.map_cons, List.nodup_cons] at hkeys
    simp only [List.flatMap_cons]
    have hpnd : (alKeys p.2).Nodup := hinner p (by simp)
    have hfilnd : ((p.2.filter (sel (alGet ex p.1))).map Prod.fst).Nodup := by
      have hsub : List.Sublist ((p.2.filter (sel (alGet ex p.1))).map Prod.fst)
          (p.2.map Prod.fst) := (List.filter_sublist _).map _
      exact hpnd.sublist hsub
    refine List.Nodup.append ?_ ?_ ?_
    · refine List.Nodup.map_on ?_ (hfilnd.of_map _)
      intro q hq q' hq' he
      have h1 : q.1 = q'.1 := by
        unfold encPair at he
        rw [List.append_assoc, List.append_assoc] at he
        exact List.append_cancel_left (List.append_cancel_left he)
      exact eq_of_mem_of_nodup_keys
        (show (alKeys (p.2.filter (sel (alGet ex p.1)))).Nodup from hfilnd) hq hq' h1
    · exact ih hkeys.2 (fun r hr => hinner r (by simp [hr]))
        (fun r hr => hcolon r (by simp [hr]))
    · intro x hx hx'
      obtain ⟨q, _, hq2⟩ := List.mem_map.mp hx
      obtain ⟨r, hr, h3⟩ := List.mem_flatMap.mp hx'
      obtain ⟨q', _, hq4⟩ := List.mem_map.mp h3
      have heq : encPair p.1 q.1 = encPair r.1 q'.1 := by rw [hq2, ← hq4]
      obtain ⟨h5, _⟩ := encPair_inj (hcolon p (by simp)) (hcolon r (by simp [hr])) heq
      exact hkeys.1 (h5 ▸ List.mem_map.mpr ⟨r, hr, rfl⟩)

/-- Two report lists built from mutually exclusive selectors share no
element (under unique dict keys and colon-free file paths). -/
theorem disjoint_encLists (sel₁ sel₂ : Option TaskInfo → (Str × Str) → Bool)
    (ex : List (Str × TaskInfo)) (cur : List (Str × List (Str × Str)))
    (hkeys : (alKeys cur).Nodup)
    (hinner : ∀ p ∈ cur, (alKeys p.2).Nodup)
    (hcolon : ∀ p ∈ cur, ':' ∉ p.1)
    (hexcl : ∀ et q, ¬(sel₁ et q = true ∧ sel₂ et q = true)) :
    ∀ x, ¬(x ∈ cur.flatMap (fun p =>
        (p.2.filter (sel₁ (alGet ex p.1))).map (fun q => encPair p.1 q.1)) ∧
      x ∈ cur.flatMap (fun p =>
        (p.2.filter (sel₂ (alGet ex p.1))).map (fun q => encPair p.1 q.1))) := by
  rintro x ⟨h1, h2⟩
  obtain ⟨p, hp, h3⟩ := List.mem_flatMap.mp h1
  obtain ⟨q, hq, hq2⟩ := List.mem_map.mp h3
  obtain ⟨p', hp', h4⟩ := List.mem_flatMap.mp h2
  obtain ⟨q', hq', hq4⟩ := List.mem_map.mp h4
  have heq : encPair p.1 q.1 = encPair p'.1 q'.1 := by rw [hq2, ← hq4]
  obtain ⟨h5, h6⟩ := encPair_inj (hcolon p hp) (hcolon p' hp') heq
  have hpe : p = p' := eq_of_mem_of_nodup_keys hkeys hp hp' h5
  subst hpe
  have hqm : q ∈ p.2 := List.mem_of_mem_filter hq
  have hqm' : q' ∈ p.2 := List.mem_of_mem_filter hq'
  have hqe : q = q' := eq_of_mem_of_nodup_keys (hinner p hp) hqm hqm' h6
  subst hqe
  exact hexcl (alGet ex p.1) q ⟨List.of_mem_filter hq, List.of_mem_filter hq'⟩

/-- C10: the three lists returned by `generate_report` are pairwise
disjoint and duplicate-free: a `filePath::testName` pair occurs in at
most one of `newly_fixed`, `newly_broken`, `still_failing`, and at most
once within that list (for dict-shaped inputs, i.e. unique file keys,
unique test keys per file, and colon-free file paths). -/
theorem c10_report_lists_disjoint
    (cur : List (Str × List (Str × Str))) (ex : List (Str × TaskInfo))
    (hkeys : (alKeys cur).Nodup)
    (hinner : ∀ p ∈ cur, (alKeys p.2).Nodup)
    (hcolon : ∀ p ∈ cur, ':' ∉ p.1) :
    (generateReportR cur ex).1.Nodup ∧
    (generateReportR cur ex).2.1.Nodup ∧
    (generateReportR cur ex).2.2.Nodup ∧
    (∀ x, ¬(x ∈ (generateReportR cur ex).1 ∧ x ∈ (generateReportR cur ex).2.1)) ∧
    (∀ x, ¬(x ∈ (generateReportR cur ex).1 ∧ x ∈ (generateReportR cur ex).2.2)) ∧
    (∀ x, ¬(x ∈ (generateReportR cur ex).2.1 ∧ x ∈ (generateReportR cur ex).2.2)) := by
  have hNFNB : ∀ et q, ¬(isNF et q = true ∧ isNB et q = true) := by
    rintro et q ⟨h1, h2⟩
    simp only [isNF, Bool.and_eq_true, decide_eq_true_eq] at h1
    simp only [isNB, Bool.and_eq_true, Bool.not_eq_true', decide_eq_false_iff_not] at h2
    exact h2.1 h1.1
  have hNFSF : ∀ et q, ¬(isNF et q = true ∧ isSF et q = true) := by
    rintro et q ⟨h1, h2⟩
    simp only [isNF, Bool.and_eq_true, decide_eq_true_eq] at h1
    simp only [isSF, Bool.and_eq_true, Bool.not_eq_true', decide_eq_false_iff_not] at h2
    exact h2.1 h1.1
  have hNBSF : ∀ et q, ¬(isNB et q = true ∧ isSF et q = true) := by
    rintro et q ⟨h1, h2⟩
    cases et with
    | none => simp [isSF] at h2
    | some t0 =>
      simp only [isNB, Bool.and_eq_true, Bool.not_eq_true'] at h1
      simp only [isSF, Bool.and_eq_true] at h2
      rw [h2.2] at h1
      exact Bool.false_ne_true h1.2.symm
  rw [generateReportR_eq]
  refine ⟨nodup_encList isNF ex cur hkeys hinner hcolon,
          nodup_encList isNB ex cur hkeys hinner hcolon,
          nodup_encList isSF ex cur hkeys hinner hcolon,
          disjoint_encLists isNF isNB ex cur hkeys hinner hcolon hNFNB,
          disjoint_encLists isNF isSF ex cur hkeys hinner hcolon hNFSF,
          disjoint_encLists isNB isSF ex cur hkeys hinner hcolon hNBSF⟩

/-- Concrete instantiation of the C10 theorem on the specification's
worked scenario. -/
theorem c10_report_lists_disjoint_witness :
    (generateReportR
      [((("tests/test_x.py").data),
        [(("test_foo").data, sPASSED), (("test_baz").data, sFAILED)])]
      [((("tests/test_x.py").data), cexC1wTask)]).1.Nodup ∧
    (generateReportR
      [((("tests/test_x.py").data),
        [(("test_foo").data, sPASSED), (("test_baz").data, sFAILED)])]
      [((("tests/test_x.py").data), cexC1wTask)]).2.1.Nodup ∧
    (generateReportR
      [((("tests/test_x.py").data),
        [(("test_foo").data, sPASSED), (("test_baz").data, sFAILED)])]
      [((("tests/test_x.py").data), cexC1wTask)]).2.2.Nodup ∧
    (∀ x, ¬(x ∈ (generateReportR
      [((("tests/test_x.py").data),
        [(("test_foo").data, sPASSED), (("test_baz").data, sFAILED)])]
      [((("tests/test_x.py").data), cexC1wTask)]).1 ∧ x ∈ (generateReportR
      [((("tests/test_x.py").data),
        [(("test_foo").data, sPASSED), (("test_baz").data, sFAILED)])]
      [((("tests/test_x.py").data), cexC1wTask)]).2.1)) ∧
    (∀ x, ¬(x ∈ (generateReportR
      [((("tests/test_x.py").data),
        [(("test_foo").data, sPASSED), (("test_baz").data, sFAILED)])]
      [((("tests/test_x.py").data), cexC1wTask)]).1 ∧ x ∈ (generateReportR
      [((("tests/test_x.py").data),
        [(("test_foo").data, sPASSED), (("test_baz").data, sFAILED)])]
      [((("tests/test_x.py").data), cexC1wTask)]).2.2)) ∧
    (∀ x, ¬(x ∈ (generateReportR
      [((("tests/test_x.py").data),
        [(("test_foo").data, sPASSED), (("test_baz").data, sFAILED)])]
      [((("tests/test_x.py").data), cexC1wTask)]).2.1 ∧ x ∈ (generateReportR
      [((("tests/test_x.py").data),
        [(("test_foo").data, sPASSED), (("test_baz").data, sFAILED)])]
      [((("tests/test_x.py").data), cexC1wTask)]).2.2)) :=
  c10_report_lists_disjoint
    [((("tests/test_x.py").data),
      [(("test_foo").data, sPASSED), (("test_baz").data, sFAILED)])]
    [((("tests/test_x.py").data), cexC1wTask)]
    (by decide) (by decide) (by decide)

/-- Decode the subtask checkbox lines of a rendered block: each line of
the shape `    - [c] Fix name` contributes `(name, c = 'x')`. -/
def renderedSubtasks (lines : List Str) : List (Str × Bool) :=
  lines.filterMap (fun l => (parseSubtaskLine l).map (fun q => (q.2.drop 4, q.1)))

/-- Decode the parent checkbox of a rendered block's first line. -/
def parentChecked (lines : List Str) : Option Bool :=
  match lines with
  | l :: _ =>
    if startsWith l (("- [x]").data) then some true
    else if startsWith l (("- [ ]").data) then some false
    else none
  | [] => none

/-- Decode the finish-date value rendered in a block (line 11 of the
fixed layout produced by `format_task_block`). -/
def finishValue (lines : List Str) : Option Str :=
  (lines.get? 10).bind (fun l =>
    if startsWith l (("  - **Finish Date**: ").data)
    then some (l.drop (("  - **Finish Date**: ").data).length)
    else none)

theorem filterMap_all_some {α β : Type} {f : α → Option β} {g : α → β}
    (h : ∀ a, f a = some (g a)) : ∀ l : List α, l.filterMap f = l.map g := by
  intro l
  induction l with
  | nil => simp
  | cons a rest ih => simp [List.filterMap_cons, h a, ih]

/-- C3: in every merged block, the existing subtasks are rendered first,
in exactly their original order, each checked exactly when its test is
not FAILED in the current run (absent tests count as fixed), and the
newly failing tests not already present are appended at the end,
unchecked. -/
theorem c3_merge_preserves_subtask_order (now fp : Str)
    (results : List (Str × Str)) (task_id : Int)
    (ex : List (Str × Bool)) (et : Option TaskInfo) :
    renderedSubtasks (formatTaskBlockLinesR now fp results task_id ex et) =
      ex.map (fun p => (p.1, !decide (((alGet results p.1).getD sPASSED) = sFAILED))) ++
      (results.filter (fun p => decide (p.2 = sFAILED) && !(alMem ex p.1))).map
        (fun p => (p.1, false)) := by
  have hhdr : ∀ v : Str, parseSubtaskLine (("- ").data ++ v) = none := fun _ => rfl
  have hid : ∀ v : Str, parseSubtaskLine (("  - **ID**: ").data ++ v) = none := fun _ => rfl
  have hdesc : ∀ v : Str,
    parseSubtaskLine (("  - **Description**: Fix ").data ++ v) = none := fun _ => rfl
  have hpre : parseSubtaskLine (("  - **Pre-requisites**:").data) = none := rfl
  have hnone : parseSubtaskLine (("    - None").data) = none := rfl
  have hprio : ∀ v : Str,
    parseSubtaskLine (("  - **Priority**: ").data ++ v) = none := fun _ => rfl
  have hest : parseSubtaskLine (("  - **Estimated Time**: 30 minutes").data) = none := rfl
  have hass : ∀ v : Str,
    parseSubtaskLine (("  - **Assignee**: ").data ++ v) = none := fun _ => rfl
  have hcd : ∀ v : Str,
    parseSubtaskLine (("  - **Create Date**: ").data ++ v) = none := fun _ => rfl
  have hsd : ∀ v : Str,
    parseSubtaskLine (("  - **Start Date**: ").data ++ v) = none := fun _ => rfl
  have hfd : ∀ v : Str,
    parseSubtaskLine (("  - **Finish Date**: ").data ++ v) = none := fun _ => rfl
  have hsubh : parseSubtaskLine (("  - **Subtasks**:").data) = none := rfl
  have hex : ∀ p : Str × Bool,
      (parseSubtaskLine (("    - ").data ++
        (if ((alGet results p.1).getD sPASSED) = sFAILED
          then ("[ ]").data else ("[x]").data) ++
        (" Fix ").data ++ p.1)).map (fun q => (q.2.drop 4, q.1)) =
      some (p.1, !decide (((alGet results p.1).getD sPASSED) = sFAILED)) := by
    intro p
    by_cases hc : ((alGet results p.1).getD sPASSED) = sFAILED
    · rw [if_pos hc]
      simp only [hc, decide_True, Bool.not_true]
      rfl
    · rw [if_neg hc]
      simp only [decide_eq_true_eq, hc, decide_False, Bool.not_false]
      rfl
  have hnew : ∀ p : Str × Str,
      (parseSubtaskLine (("    - [ ] Fix ").data ++ p.1)).map
        (fun q => (q.2.drop 4, q.1)) = some (p.1, false) := fun _ => rfl
  have hB : (ex.map (fun p => ("    - ").data ++
        (if ((alGet results p.1).getD sPASSED) = sFAILED
          then ("[ ]").data else ("[x]").data) ++
        (" Fix ").data ++ p.1)).filterMap
        (fun l => (parseSubtaskLine l).map (fun q => (q.2.drop 4, q.1))) =
      ex.map (fun p => (p.1, !decide (((alGet results p.1).getD sPASSED) = sFAILED))) := by
    rw [List.filterMap_map]
    exact filterMap_all_some (fun p => hex p) ex
  have hC : ((results.filter (fun p => decide (p.2 = sFAILED) && !(alMem ex p.1))).map
        (fun p => ("    - [ ] Fix ").data ++ p.1)).filterMap
        (fun l => (parseSubtaskLine l).map (fun q => (q.2.drop 4, q.1))) =
      (results.filter (fun p => decide (p.2 = sFAILED) && !(alMem ex p.1))).map
        (fun p => (p.1, false)) := by
    rw [List.filterMap_map]
    exact filterMap_all_some (fun p => hnew p) _
  unfold formatTaskBlockLinesR renderedSubtasks
  rw [List.filterMap_append, List.filterMap_append, hB, hC]
  simp only [List.filterMap_cons, List.append_assoc, hhdr, hid, hdesc, hpre, hnone,
    hprio, hest, hass, hcd, hsd, hfd, hsubh, Option.map_none',
    List.filterMap_nil, List.nil_append]

/-- Existing task of the C4 counterexample: an open task carrying an old
finish date. -/
def cexC4Task : TaskInfo :=
  ⟨("tests/test_x.py").data, false, 1, ("High").data, none, none, none,
   some (("2020-01-01T00:00:00Z").data), [(("test_a").data, false)]⟩

/-- C4 counterexample: reconciling a still-failing file against an
existing task whose finish date is set renders a block whose parent box
is unchecked and whose finish date is the *old* date, not `None`; the
claim requires the finish date to be cleared whenever the parent box is
unchecked. -/
theorem c4_counterexample :
    parentChecked (formatTaskBlockLinesR (("NOW").data) (("tests/test_x.py").data)
      [(("test_a").data, sFAILED)] 1 cexC4Task.subtasks (some cexC4Task)) = some false ∧
    finishValue (formatTaskBlockLinesR (("NOW").data) (("tests/test_x.py").data)
      [(("test_a").data, sFAILED)] 1 cexC4Task.subtasks (some cexC4Task)) =
      some (("2020-01-01T00:00:00Z").data) ∧
    (("2020-01-01T00:00:00Z").data : Str) ≠ ("None").data := by
  refine ⟨rfl, rfl, by decide⟩

/-- C4 (amended): the parent checkbox of a rendered block is checked
exactly when no test of the file currently fails; the finish date is
stamped to the current time exactly in that case, and otherwise it
retains the existing task's prior finish date (rendered `None` when the
prior finish date is null or for a new task), rather than being
cleared unconditionally. -/
theorem c4_finish_date_stamped (now fp : Str) (results : List (Str × Str))
    (task_id : Int) (ex : List (Str × Bool)) (et : Option TaskInfo) :
    parentChecked (formatTaskBlockLinesR now fp results task_id ex et) =
      some (!(results.any (fun p => decide (p.2 = sFAILED)))) ∧
    ((results.any (fun p => decide (p.2 = sFAILED))) = false →
      finishValue (formatTaskBlockLinesR now fp results task_id ex et) =
        some (renderOr now)) ∧
    ((results.any (fun p => decide (p.2 = sFAILED))) = true →
      finishValue (formatTaskBlockLinesR now fp results task_id ex et) =
        some (match et with
          | some e => renderOr (match e.finish_date with | some d => d | none => [])
          | none => ("None").data)) := by
  cases hf : results.any (fun p => decide (p.2 = sFAILED)) with
  | false =>
    refine ⟨?_, fun _ => ?_, fun hc => absurd hc (by simp)⟩
    · unfold formatTaskBlockLinesR parentChecked
      rw [hf]
      rfl
    · unfold formatTaskBlockLinesR finishValue
      rw [hf]
      cases et <;> rfl
  | true =>
    refine ⟨?_, fun hc => absurd hc (by simp), fun _ => ?_⟩
    · unfold formatTaskBlockLinesR parentChecked
      rw [hf]
      rfl
    · unfold formatTaskBlockLinesR finishValue
      rw [hf]
      cases het : et with
      | none => rfl
      | some e => cases e.finish_date <;> rfl

/-- Concrete instantiation of the C4 theorem: an all-passing run over an
existing open task checks the parent box and stamps the finish date. -/
theorem c4_finish_date_stamped_witness :
    parentChecked (formatTaskBlockLinesR (("NOW").data) (("tests/test_x.py").data)
      [(("test_a").data, sPASSED)] 1 cexC4Task.subtasks (some cexC4Task)) = some true ∧
    finishValue (formatTaskBlockLinesR (("NOW").data) (("tests/test_x.py").data)
      [(("test_a").data, sPASSED)] 1 cexC4Task.subtasks (some cexC4Task)) =
      some (renderOr (("NOW").data)) :=
  ⟨(c4_finish_date_stamped (("NOW").data) (("tests/test_x.py").data)
      [(("test_a").data, sPASSED)] 1 cexC4Task.subtasks (some cexC4Task)).1,
   (c4_finish_date_stamped (("NOW").data) (("tests/test_x.py").data)
      [(("test_a").data, sPASSED)] 1 cexC4Task.subtasks (some cexC4Task)).2.1 rfl⟩

end RT

namespace TV

theorem validateTaskList_fst (tl : STaskList) :
    (validateTaskList tl).1 =
      (checkDuplicateTaskIds (getAllTasks tl) ++
       checkPrerequisitesExist (getAllTasks tl) ++
       checkCircularDependencies (getAllTasks tl) ++
       (getAllTasks tl).flatMap (fun t => (validateTaskObject t).1)).isEmpty := rfl

theorem validateTaskList_errors (tl : STaskList) :
    (validateTaskList tl).2.1 =
      checkDuplicateTaskIds (getAllTasks tl) ++
      checkPrerequisitesExist (getAllTasks tl) ++
      checkCircularDependencies (getAllTasks tl) ++
      (getAllTasks tl).flatMap (fun t => (validateTaskObject t).1) := rfl

theorem infix_trans_sq {t e : Str} (h : sq t <:+: e) : t <:+: e := by
  rcases h with ⟨s, u, hsu⟩
  exact ⟨s ++ [sqChar], [sqChar] ++ u, by
    rw [← hsu]; simp [sq, List.append_assoc]⟩

theorem flatMap_eq_nil_of {α β : Type} {f : α → List β}
    (l : List α) (h : ∀ a ∈ l, f a = []) : l.flatMap f = [] := by
  induction l with
  | nil => simp
  | cons a rest ih =>
    simp only [List.flatMap_cons, h a (by simp), List.nil_append]
    exact ih (fun b hb => h b (by simp [hb]))

/-- C7: two or more tasks sharing the same id make `validate_task_list`
invalid, with duplicate-ID hard errors collectively naming every
conflicting title; pairwise-distinct ids yield no duplicate-ID error. -/
theorem c7_duplicate_ids (tl : STaskList)
    (htitled : ∀ t ∈ getAllTasks tl, t.title ≠ none) :
    ((∃ n : Int,
        2 ≤ ((getAllTasks tl).filter (fun u => decide (u.id = some n))).length) →
      (validateTaskList tl).1 = false) ∧
    (∀ t ∈ getAllTasks tl, ∀ (n : Int) (ttl : Str), t.id = some n →
      t.title = some ttl →
      2 ≤ ((getAllTasks tl).filter (fun u => decide (u.id = some n))).length →
      ∃ e ∈ (validateTaskList tl).2.1, ttl <:+: e) ∧
    (((getAllTasks tl).filterMap STask.id).Nodup →
      checkDuplicateTaskIds (getAllTasks tl) = []) := by
  have hnamed : ∀ t ∈ getAllTasks tl, ∀ (n : Int) (ttl : Str), t.id = some n →
      t.title = some ttl →
      2 ≤ ((getAllTasks tl).filter (fun u => decide (u.id = some n))).length →
      ∃ e ∈ checkDuplicateTaskIds (getAllTasks tl), sq ttl <:+: e := by
    intro t ht n ttl htn httl hcount
    exact dup_mem_named (getAllTasks tl) [] [] htitled t ht n ttl htn httl (Or.inr hcount)
  have hlift : ∀ e ∈ checkDuplicateTaskIds (getAllTasks tl),
      e ∈ (validateTaskList tl).2.1 := by
    intro e he
    rw [validateTaskList_errors]
    exact List.mem_append_left _ (List.mem_append_left _ (List.mem_append_left _ he))
  refine ⟨?_, ?_, ?_⟩
  · rintro ⟨n, hcount⟩
    have hpos : 0 < ((getAllTasks tl).filter (fun u => decide (u.id = some n))).length := by
      omega
    obtain ⟨t, ht⟩ := List.exists_mem_of_length_pos hpos
    have ht2 := List.mem_filter.mp ht
    have htn : t.id = some n := by simpa using ht2.2
    obtain ⟨ttl, httl⟩ := Option.ne_none_iff_exists'.mp (htitled t ht2.1)
    obtain ⟨e, he, _⟩ := hnamed t ht2.1 n ttl htn httl hcount
    rw [validateTaskList_fst]
    exact isEmpty_false_of_mem
      (List.mem_append_left _ (List.mem_append_left _ (List.mem_append_left _ he)))
  · intro t ht n ttl htn httl hcount
    obtain ⟨e, he, hinf⟩ := hnamed t ht n ttl htn httl hcount
    exact ⟨e, hlift e he, infix_trans_sq hinf⟩
  · intro hnodup
    exact checkDupIdsAux_nil (getAllTasks tl) [] [] (by intro t _ n _; rfl) hnodup

/-- Two tasks sharing id 5 (the specification's duplicate-ID scenario). -/
def c7wTaskA : STask :=
  ⟨some 5, some (("Task A").data), TaskStatus.pending, none, none, none, [], []⟩

/-- Second task of the duplicate-ID scenario. -/
def c7wTaskB : STask :=
  ⟨some 5, some (("Task B").data), TaskStatus.pending, none, none, none, [], []⟩

/-- Task list with a duplicated id. -/
def c7wTl : STaskList := ⟨[c7wTaskA, c7wTaskB], [], [], [], []⟩

/-- Task list with pairwise-distinct ids. -/
def c7wTlOk : STaskList :=
  ⟨[c7wTaskA, ⟨some 6, some (("Task B").data), TaskStatus.pending, none, none, none, [], []⟩],
   [], [], [], []⟩

/-- Concrete instantiation of the C7 theorem: two tasks with id 5 yield
an invalid list with errors naming both titles, and distinct ids yield
no duplicate-ID error. -/
theorem c7_duplicate_ids_witness :
    (validateTaskList c7wTl).1 = false ∧
    (∃ e ∈ (validateTaskList c7wTl).2.1, (("Task A").data : Str) <:+: e) ∧
    (∃ e ∈ (validateTaskList c7wTl).2.1, (("Task B").data : Str) <:+: e) ∧
    checkDuplicateTaskIds (getAllTasks c7wTlOk) = [] :=
  ⟨(c7_duplicate_ids c7wTl (by decide)).1 ⟨5, by decide⟩,
   (c7_duplicate_ids c7wTl (by decide)).2.1 c7wTaskA (by decide) 5
     (("Task A").data) rfl rfl (by decide),
   (c7_duplicate_ids c7wTl (by decide)).2.1 c7wTaskB (by decide) 5
     (("Task B").data) rfl rfl (by decide),
   (c7_duplicate_ids c7wTlOk (by decide)).2.2 (by decide)⟩

theorem infix_prereqErr_title (ttl pr : Str) : ttl <:+: prereqErrMsg ttl pr :=
  ⟨("Task ").data ++ [sqChar],
   [sqChar] ++ (" has unknown prerequisite: ").data ++ sq pr,
   by simp [prereqErrMsg, sq, List.append_assoc]⟩

theorem infix_prereqErr_pr (ttl pr : Str) : pr <:+: prereqErrMsg ttl pr :=
  ⟨("Task ").data ++ sq ttl ++ (" has unknown prerequisite: ").data ++ [sqChar],
   [sqChar],
   by simp [prereqErrMsg, sq, List.append_assoc]⟩

/-- C8: an unresolvable prerequisite title makes `validate_task_list`
invalid with a hard error naming both the dependent task and the missing
title; when every prerequisite resolves, no unresolved-prerequisite
error is reported. -/
theorem c8_missing_prerequisite (tl : STaskList) :
    (∀ t ∈ getAllTasks tl, ∀ ttl : Str, t.title = some ttl →
      ∀ pr ∈ t.prerequisites,
      pr ∉ (getAllTasks tl).filterMap (fun u => u.title) →
      (validateTaskList tl).1 = false ∧
      ∃ e ∈ (validateTaskList tl).2.1, ttl <:+: e ∧ pr <:+: e) ∧
    ((∀ t ∈ getAllTasks tl, ∀ pr ∈ t.prerequisites,
        pr ∈ (getAllTasks tl).filterMap (fun u => u.title)) →
      checkPrerequisitesExist (getAllTasks tl) = []) := by
  constructor
  · intro t ht ttl httl pr hpr hnmem
    have hmsg : prereqErrMsg ttl pr ∈ checkPrerequisitesExist (getAllTasks tl) := by
      unfold checkPrerequisitesExist
      refine List.mem_flatMap.mpr ⟨t, ht, ?_⟩
      rw [httl]
      exact List.mem_filterMap.mpr ⟨pr, hpr, by simp [hnmem]⟩
    have hmem2 : prereqErrMsg ttl pr ∈ (validateTaskList tl).2.1 := by
      rw [validateTaskList_errors]
      exact List.mem_append_left _
        (List.mem_append_left _ (List.mem_append_right _ hmsg))
    refine ⟨?_, prereqErrMsg ttl pr, hmem2, infix_prereqErr_title ttl pr,
      infix_prereqErr_pr ttl pr⟩
    rw [validateTaskList_fst]
    exact isEmpty_false_of_mem (List.mem_append_left _
      (List.mem_append_left _ (List.mem_append_right _ hmsg)))
  · intro hall
    unfold checkPrerequisitesExist
    refine flatMap_eq_nil_of _ ?_
    intro t ht
    cases httl : t.title with
    | none => rfl
    | some ttl =>
      refine List.filterMap_eq_nil_iff.mpr ?_
      intro pr hpr
      simp [hall t ht pr hpr]

/-- Task declaring a missing prerequisite. -/
def c8wTask : STask :=
  ⟨some 1, some (("Task A").data), TaskStatus.pending, none, none, none,
   [("Nonexistent Task").data], []⟩

/-- Task list of the missing-prerequisite scenario. -/
def c8wTl : STaskList := ⟨[c8wTask], [], [], [], []⟩

/-- Concrete instantiation of the C8 theorem: a prerequisite naming a
nonexistent task yields an invalid list with an error naming both
titles. -/
theorem c8_missing_prerequisite_witness :
    (validateTaskList c8wTl).1 = false ∧
    ∃ e ∈ (validateTaskList c8wTl).2.1,
      (("Task A").data : Str) <:+: e ∧ (("Nonexistent Task").data : Str) <:+: e :=
  (c8_missing_prerequisite c8wTl).1 c8wTask (by decide) (("Task A").data) rfl
    (("Nonexistent Task").data) (by decide) (by decide)

/-- Prerequisite-graph edge of a task set: `a → b` when the task
registered under title `a` lists `b` among its prerequisites and `b`
itself resolves to a task (edges restricted to resolvable titles). -/
def Edge (tasks : List STask) (a b : Str) : Prop :=
  ∃ ta, alGet (taskDict tasks) a = some ta ∧ b ∈ ta.prerequisites ∧
    (alGet (taskDict tasks) b).isSome = true

/-- A title lies on a cycle of the prerequisite graph. -/
def OnCycle (tasks : List STask) (t : Str) : Prop :=
  Relation.TransGen (Edge tasks) t t

/-- The prerequisite graph of the task set contains a cycle. -/
def HasCycle (tasks : List STask) : Prop := ∃ t, OnCycle tasks t

theorem taskDict_entry_aux :
    ∀ (tasks : List STask) (acc : List (Str × STask)) (k : Str) (v : STask),
    alGet (tasks.foldl (fun d t =>
      match t.title with
      | some ttl => alSet d ttl t
      | none => d) acc) k = some v →
    (v ∈ tasks ∧ v.title = some k) ∨ alGet acc k = some v := by
  intro tasks
  induction tasks with
  | nil => intro acc k v h; exact Or.inr h
  | cons t rest ih =>
    intro acc k v h
    simp only [List.foldl_cons] at h
    rcases ih _ k v h with ⟨hm, ht⟩ | hacc
    · exact Or.inl ⟨by simp [hm], ht⟩
    · cases httl : t.title with
      | none => rw [httl] at hacc; exact Or.inr hacc
      | some ttl =>
        rw [httl] at hacc
        by_cases hk : ttl = k
        · subst hk
          rw [alGet_alSet_self] at hacc
          have : v = t := (Option.some.inj hacc).symm
          subst this
          exact Or.inl ⟨by simp, httl⟩
        · rw [alGet_alSet_ne _ _ _ _ hk] at hacc
          exact Or.inr hacc

theorem taskDict_entry {tasks : List STask} {k : Str} {v : STask}
    (h : alGet (taskDict tasks) k = some v) : v ∈ tasks ∧ v.title = some k := by
  rcases taskDict_entry_aux tasks [] k v h with h2 | h2
  · exact h2
  · simp [alGet] at h2

theorem taskDict_skip :
    ∀ (tasks : List STask) (acc : List (Str × STask)) (k : Str),
    (∀ u ∈ tasks, u.title ≠ some k) →
    alGet (tasks.foldl (fun d t =>
      match t.title with
      | some ttl => alSet d ttl t
      | none => d) acc) k = alGet acc k := by
  intro tasks
  induction tasks with
  | nil => intro acc k _; rfl
  | cons t rest ih =>
    intro acc k hno
    simp only [List.foldl_cons]
    rw [ih _ k (fun u hu => hno u (by simp [hu]))]
    cases httl : t.title with
    | none => rfl
    | some ttl =>
      have : ttl ≠ k := by
        intro he; subst he; exact hno t (by simp) httl
      rw [alGet_alSet_ne _ _ _ _ this]

theorem taskDict_lookup_nodup :
    ∀ (tasks : List STask) (acc : List (Str × STask)) (t : STask) (k : Str),
    (tasks.filterMap STask.title).Nodup → t ∈ tasks → t.title = some k →
    alGet (tasks.foldl (fun d t =>
      match t.title with
      | some ttl => alSet d ttl t
      | none => d) acc) k = some t := by
  intro tasks
  induction tasks with
  | nil => intro acc t k _ hmem; simp at hmem
  | cons u rest ih =>
    intro acc t k hnodup hmem htitle
    simp only [List.foldl_cons]
    rcases List.mem_cons.mp hmem with rfl | hrest
    · rw [htitle]
      have hkey : ∀ w ∈ rest, w.title ≠ some k := by
        intro w hw he
        rw [List.filterMap_cons, htitle] at hnodup
        exact (List.nodup_cons.mp hnodup).1 (List.mem_filterMap.mpr ⟨w, hw, he⟩)
      rw [taskDict_skip rest _ k hkey, alGet_alSet_self]
    · have hnodup2 : (rest.filterMap STask.title).Nodup := by
        rw [List.filterMap_cons] at hnodup
        cases hu : u.title with
        | none => rw [hu] at hnodup; exact hnodup
        | some ttl => rw [hu] at hnodup; exact (List.nodup_cons.mp hnodup).2
      exact ih _ t k hnodup2 hrest htitle

theorem alSet_length_le {α β : Type} [DecidableEq α] :
    ∀ (l : List (α × β)) (k : α) (v : β), (alSet l k v).length ≤ l.length + 1 := by
  intro l
  induction l with
  | nil => intro k v; simp [alSet]
  | cons p rest ih =>
    intro k v
    rcases p with ⟨k', w⟩
    by_cases hk : k' = k
    · simp [alSet, hk]
    · simp only [alSet, if_neg hk, List.length_cons]
      have := ih k v
      omega

theorem taskDict_length_le :
    ∀ (tasks : List STask) (acc : List (Str × STask)),
    (tasks.foldl (fun d t =>
      match t.title with
      | some ttl => alSet d ttl t
      | none => d) acc).length ≤ acc.length + tasks.length := by
  intro tasks
  induction tasks with
  | nil => intro acc; simp
  | cons t rest ih =>
    intro acc
    simp only [List.foldl_cons, List.length_cons]
    cases httl : t.title with
    | none =>
      simp only [httl]
      have := ih acc
      omega
    | some ttl =>
      simp only [httl]
      have h1 := ih (alSet acc ttl t)
      have h2 := alSet_length_le acc ttl t
      omega

theorem alGet_isSome_mem_keys {α β : Type} [DecidableEq α] :
    ∀ {l : List (α × β)} {k : α}, (alGet l k).isSome = true → k ∈ alKeys l := by
  intro l
  induction l with
  | nil => intro k h; simp [alGet] at h
  | cons p rest ih =>
    intro k h
    rcases p with ⟨k', v⟩
    by_cases hk : k' = k
    · simp [alKeys, hk]
    · simp only [alGet, if_neg hk] at h
      simp [alKeys] at ih ⊢
      exact Or.inr (ih h)

theorem nodup_length_le {α : Type} [DecidableEq α] {l l' : List α}
    (hnd : l.Nodup) (hsub : ∀ x ∈ l, x ∈ l') : l.length ≤ l'.length := by
  calc l.length = l.toFinset.card := (List.toFinset_card_of_nodup hnd).symm
    _ ≤ l'.toFinset.card := by
        refine Finset.card_le_card ?_
        intro x hx
        exact List.mem_toFinset.mpr (hsub x (List.mem_toFinset.mp hx))
    _ ≤ l'.length := List.toFinset_card_le l'

theorem chain_resolvable {tasks : List STask} :
    ∀ {l : List Str} {a : Str}, List.Chain (Edge tasks) a l →
    ∀ b ∈ l, (alGet (taskDict tasks) b).isSome = true := by
  intro l
  induction l with
  | nil => intro a _ b hb; simp at hb
  | cons c rest ih =>
    intro a hch b hb
    obtain ⟨hedge, hrest⟩ := List.chain_cons.mp hch
    obtain ⟨ta, _, _, hres⟩ := hedge
    rcases List.mem_cons.mp hb with rfl | hb2
    · exact hres
    · exact ih hrest b hb2

theorem chain_take {α : Type} {r : α → α → Prop} :
    ∀ (s : List α) (a b : α) (u : List α),
    List.Chain r a (s ++ b :: u) → List.Chain r a (s ++ [b]) := by
  intro s
  induction s with
  | nil =>
    intro a b u h
    exact List.chain_cons.mpr ⟨(List.chain_cons.mp h).1, List.Chain.nil⟩
  | cons c s' ih =>
    intro a b u h
    rw [List.cons_append] at h ⊢
    obtain ⟨hr, hch⟩ := List.chain_cons.mp h
    exact List.chain_cons.mpr ⟨hr, ih c b u hch⟩

theorem first_occ {α : Type} [DecidableEq α] {a : α} :
    ∀ {l : List α}, a ∈ l → ∃ s₁ s₂, l = s₁ ++ a :: s₂ ∧ a ∉ s₁ := by
  intro l
  induction l with
  | nil => intro h; simp at h
  | cons b rest ih =>
    intro h
    by_cases hab : a = b
    · subst hab
      exact ⟨[], rest, rfl, by simp⟩
    · have h2 : a ∈ rest := by
        rcases List.mem_cons.mp h with h3 | h3
        · exact absurd h3 hab
        · exact h3
      obtain ⟨s₁, s₂, heq, hna⟩ := ih h2
      exact ⟨b :: s₁, s₂, by rw [heq]; rfl, by simp [hab, hna]⟩

theorem firstRepeat {α : Type} [DecidableEq α] :
    ∀ {l : List α}, ¬ l.Nodup → ∃ l₁ x l₂, l = l₁ ++ x :: l₂ ∧ l₁.Nodup ∧ x ∈ l₁ := by
  intro l
  induction l with
  | nil => intro h; exact absurd List.nodup_nil h
  | cons a t ih =>
    intro h
    by_cases hnd : t.Nodup
    · have ha : a ∈ t := by
        by_contra hna
        exact h (List.nodup_cons.mpr ⟨hna, hnd⟩)
      obtain ⟨t₁, t₂, heq, hna⟩ := first_occ ha
      refine ⟨a :: t₁, a, t₂, by rw [heq]; rfl, ?_, by simp⟩
      refine List.nodup_cons.mpr ⟨hna, ?_⟩
      have : List.Sublist t₁ t := heq ▸ List.sublist_append_left t₁ (a :: t₂)
      exact hnd.sublist this
    · obtain ⟨t₁, x, t₂, heq, ht₁, hx⟩ := ih hnd
      by_cases ha : a ∈ t₁
      · obtain ⟨s₁, s₂, heq2, hna⟩ := first_occ ha
        refine ⟨a :: s₁, a, s₂ ++ x :: t₂, ?_, ?_, by simp⟩
        · rw [heq, heq2]
          simp [List.append_assoc]
        · refine List.nodup_cons.mpr ⟨hna, ?_⟩
          have : List.Sublist s₁ t₁ := heq2 ▸ List.sublist_append_left s₁ (a :: s₂)
          exact ht₁.sublist this
      · refine ⟨a :: t₁, x, t₂, by rw [heq]; rfl, List.nodup_cons.mpr ⟨ha, ht₁⟩, by simp [hx]⟩

theorem hasCirc_sound (tasks : List STask) :
    ∀ (fuel : Nat) (cur : Str) (task : STask) (visited : List Str),
    alGet (taskDict tasks) cur = some task →
    hasCircFuel fuel cur task (taskDict tasks) visited = true →
    (∃ v ∈ visited, Relation.ReflTransGen (Edge tasks) cur v) ∨ HasCycle tasks := by
  intro fuel
  induction fuel with
  | zero => intro cur task visited _ h; simp [hasCircFuel] at h
  | succ f ih =>
    intro cur task visited hdict h
    by_cases hv : cur ∈ visited
    · exact Or.inl ⟨cur, hv, Relation.ReflTransGen.refl⟩
    · simp only [hasCircFuel, if_neg hv] at h
      obtain ⟨pr, hpr, hrec⟩ := List.any_eq_true.mp h
      cases htp : alGet (taskDict tasks) pr with
      | none => rw [htp] at hrec; simp at hrec
      | some tp =>
        rw [htp] at hrec
        have hedge : Edge tasks cur pr := ⟨task, hdict, hpr, by rw [htp]; rfl⟩
        rcases ih pr tp (cur :: visited) htp hrec with ⟨v, hv2, hreach⟩ | hcyc
        · rcases List.mem_cons.mp hv2 with heq | hv3
          · exact Or.inr ⟨cur, Relation.TransGen.head' hedge (heq ▸ hreach)⟩
          · exact Or.inl ⟨v, hv3, Relation.ReflTransGen.head hedge hreach⟩
        · exact Or.inr hcyc

theorem hasCirc_complete (tasks : List STask) :
    ∀ (l₁ : List Str) (cur x : Str) (task : STask) (visited : List Str) (fuel : Nat),
    alGet (taskDict tasks) cur = some task →
    List.Chain (Edge tasks) cur (l₁ ++ [x]) →
    (cur :: l₁).Nodup →
    (∀ y ∈ cur :: l₁, y ∉ visited) →
    (x ∈ visited ∨ x ∈ cur :: l₁) →
    l₁.length + 2 ≤ fuel →
    hasCircFuel fuel cur task (taskDict tasks) visited = true := by
  intro l₁
  induction l₁ with
  | nil =>
    intro cur x task visited fuel hdict hchain _ hnv hx hfuel
    obtain ⟨f, rfl⟩ : ∃ f, fuel = f + 1 + 1 := ⟨fuel - 2, by omega⟩
    simp only [hasCircFuel, if_neg (hnv cur (by simp))]
    obtain ⟨ta, hta, hxpre, hxres⟩ := (List.chain_cons.mp hchain).1
    have htask : ta = task := by rw [hdict] at hta; exact (Option.some.inj hta).symm
    refine List.any_eq_true.mpr ⟨x, by rw [← htask]; exact hxpre, ?_⟩
    obtain ⟨tx, htx⟩ := Option.isSome_iff_exists.mp hxres
    rw [htx]
    have hxcv : x ∈ cur :: visited := by
      rcases hx with h | h
      · exact List.mem_cons.mpr (Or.inr h)
      · rcases List.mem_cons.mp h with rfl | h2
        · exact List.mem_cons.mpr (Or.inl rfl)
        · simp at h2
    simp only [hasCircFuel, if_pos hxcv]
  | cons y l₁' ih =>
    intro cur x task visited fuel hdict hchain hnd hnv hx hfuel
    obtain ⟨f, rfl⟩ : ∃ f, fuel = f + 1 := ⟨fuel - 1, by omega⟩
    simp only [hasCircFuel, if_neg (hnv cur (by simp))]
    rw [List.cons_append] at hchain
    obtain ⟨hedge, hchain2⟩ := List.chain_cons.mp hchain
    obtain ⟨ta, hta, hypre, hyres⟩ := hedge
    have htask : ta = task := by rw [hdict] at hta; exact (Option.some.inj hta).symm
    refine List.any_eq_true.mpr ⟨y, by rw [← htask]; exact hypre, ?_⟩
    obtain ⟨ty, hty⟩ := Option.isSome_iff_exists.mp hyres
    rw [hty]
    have hndc := List.nodup_cons.mp hnd
    refine ih y x ty (cur :: visited) f hty hchain2 hndc.2 ?_ ?_ (by
      simp only [List.length_cons] at hfuel; omega)
    · intro z hz hzin
      rcases List.mem_cons.mp hzin with rfl | hzv
      · exact hndc.1 hz
      · exact hnv z (List.mem_cons.mpr (Or.inr hz)) hzv
    · rcases hx with h | h
      · exact Or.inl (List.mem_cons.mpr (Or.inr h))
      · rcases List.mem_cons.mp h with rfl | h2
        · exact Or.inl (List.mem_cons.mpr (Or.inl rfl))
        · exact Or.inr h2

theorem circ_error_of_cycle (tasks : List STask) (h : HasCycle tasks) :
    ∃ ttl, OnCycle tasks ttl ∧ circErrMsg ttl ∈ checkCircularDependencies tasks := by
  obtain ⟨t0, hcyc⟩ := h
  obtain ⟨m, hedge0, hreach⟩ := Relation.TransGen.head'_iff.mp hcyc
  obtain ⟨v, hvdict, hmpre, hmres⟩ := hedge0
  have hvmem := taskDict_entry hvdict
  obtain ⟨l, hchain_m, hlast⟩ := List.exists_chain_of_relationReflTransGen hreach
  have hchain : List.Chain (Edge tasks) t0 (m :: l) :=
    List.chain_cons.mpr ⟨⟨v, hvdict, hmpre, hmres⟩, hchain_m⟩
  have hdup : ¬ (t0 :: m :: l).Nodup := by
    intro hnd
    have ht0mem : t0 ∈ m :: l := hlast ▸ List.getLast_mem (List.cons_ne_nil m l)
    exact (List.nodup_cons.mp hnd).1 ht0mem
  obtain ⟨l₁, x, l₂, heqN, hndl₁, hxl₁⟩ := firstRepeat hdup
  obtain ⟨l₁x, rfl⟩ : ∃ l₁x, l₁ = t0 :: l₁x := by
    cases hl : l₁ with
    | nil => rw [hl] at hxl₁; simp at hxl₁
    | cons c lx =>
      rw [hl, List.cons_append] at heqN
      exact ⟨lx, by rw [(List.cons.inj heqN).1]⟩
  rw [List.cons_append] at heqN
  have htail : m :: l = l₁x ++ x :: l₂ := (List.cons.inj heqN).2
  have hchain2 : List.Chain (Edge tasks) t0 (l₁x ++ [x]) := by
    refine chain_take l₁x t0 x l₂ ?_
    rw [← htail]
    exact hchain
  have hkeys : ∀ z ∈ t0 :: l₁x, z ∈ alKeys (taskDict tasks) := by
    intro z hz
    rcases List.mem_cons.mp hz with rfl | hz2
    · exact alGet_isSome_mem_keys (by rw [hvdict]; rfl)
    · refine alGet_isSome_mem_keys (chain_resolvable hchain z ?_)
      rw [htail]
      exact List.mem_append_left _ hz2
  have hlen : l₁x.length + 2 ≤ tasks.length + 1 := by
    have h1 := nodup_length_le hndl₁ hkeys
    have h2 : (alKeys (taskDict tasks)).length = (taskDict tasks).length := by
      simp [alKeys]
    have h3 : (taskDict tasks).length ≤ ([] : List (Str × STask)).length + tasks.length :=
      taskDict_length_le tasks []
    simp only [List.length_cons, List.length_nil] at h1 h3
    omega
  have htrue : hasCircFuel (tasks.length + 1) t0 v (taskDict tasks) [] = true :=
    hasCirc_complete tasks l₁x t0 x v [] (tasks.length + 1) hvdict hchain2 hndl₁
      (by simp) (Or.inr hxl₁) hlen
  refine ⟨t0, hcyc, ?_⟩
  unfold checkCircularDependencies
  refine List.mem_filterMap.mpr ⟨v, hvmem.1, ?_⟩
  rw [hvmem.2]
  simp [htrue]

theorem circ_nil_of_acyclic (tasks : List STask)
    (hNodup : (tasks.filterMap STask.title).Nodup) (h : ¬ HasCycle tasks) :
    checkCircularDependencies tasks = [] := by
  unfold checkCircularDependencies
  refine List.filterMap_eq_nil_iff.mpr ?_
  intro task htask
  cases httl : task.title with
  | none => simp [httl]
  | some ttl =>
    cases hb : hasCircFuel (tasks.length + 1) ttl task (taskDict tasks) [] with
    | false => simp [httl, hb]
    | true =>
      exfalso
      have hdict : alGet (taskDict tasks) ttl = some task :=
        taskDict_lookup_nodup tasks [] task ttl hNodup htask httl
      rcases hasCirc_sound tasks _ ttl task [] hdict hb with ⟨v, hv, _⟩ | hcyc
      · simp at hv
      · exact h hcyc

/-- C6: a cycle in the prerequisite graph (restricted to resolvable
titles) makes `validate_task_list` report a circular-dependency hard
error naming a task on the cycle; an acyclic task set yields no
circular-dependency error (the DFS tracks only the current path, so
state never leaks between roots). -/
theorem c6_cycle_detection (tl : STaskList)
    (hNodup : ((getAllTasks tl).filterMap STask.title).Nodup) :
    (HasCycle (getAllTasks tl) →
      (validateTaskList tl).1 = false ∧
      ∃ ttl, OnCycle (getAllTasks tl) ttl ∧
        ∃ e ∈ checkCircularDependencies (getAllTasks tl),
          ttl <:+: e ∧ e ∈ (validateTaskList tl).2.1) ∧
    (¬ HasCycle (getAllTasks tl) →
      checkCircularDependencies (getAllTasks tl) = []) := by
  constructor
  · intro hcyc
    obtain ⟨ttl, honc, hmem⟩ := circ_error_of_cycle (getAllTasks tl) hcyc
    have hmem2 : circErrMsg ttl ∈ (validateTaskList tl).2.1 := by
      rw [validateTaskList_errors]
      exact List.mem_append_left _ (List.mem_append_right _ hmem)
    refine ⟨?_, ttl, honc, circErrMsg ttl, hmem, ?_, hmem2⟩
    · rw [validateTaskList_fst]
      exact isEmpty_false_of_mem
        (List.mem_append_left _ (List.mem_append_right _ hmem))
    · exact infix_trans_sq
        ⟨("Circular dependency detected involving task: ").data, [],
         by simp [circErrMsg]⟩
  · exact circ_nil_of_acyclic _ hNodup

/-- Task A of the three-task cycle scenario (A needs B). -/
def c6wA : STask :=
  ⟨some 1, some (("A").data), TaskStatus.pending, none, none, none, [("B").data], []⟩

/-- Task B of the three-task cycle scenario (B needs C). -/
def c6wB : STask :=
  ⟨some 2, some (("B").data), TaskStatus.pending, none, none, none, [("C").data], []⟩

/-- Task C of the three-task cycle scenario (C needs A). -/
def c6wC : STask :=
  ⟨some 3, some (("C").data), TaskStatus.pending, none, none, none, [("A").data], []⟩

/-- Task list with the A→B→C→A cycle. -/
def c6wTl : STaskList := ⟨[c6wA, c6wB, c6wC], [], [], [], []⟩

/-- Concrete instantiation of the C6 theorem: the A→B→C→A cycle makes
validation fail with a circular-dependency error naming a task on the
cycle. -/
theorem c6_cycle_detection_witness :
    (validateTaskList c6wTl).1 = false ∧
    ∃ ttl, OnCycle (getAllTasks c6wTl) ttl ∧
      ∃ e ∈ checkCircularDependencies (getAllTasks c6wTl),
        ttl <:+: e ∧ e ∈ (validateTaskList c6wTl).2.1 := by
  have eAB : Edge (getAllTasks c6wTl) (("A").data) (("B").data) :=
    ⟨c6wA, by decide, by decide, by decide⟩
  have eBC : Edge (getAllTasks c6wTl) (("B").data) (("C").data) :=
    ⟨c6wB, by decide, by decide, by decide⟩
  have eCA : Edge (getAllTasks c6wTl) (("C").data) (("A").data) :=
    ⟨c6wC, by decide, by decide, by decide⟩
  exact (c6_cycle_detection c6wTl (by decide)).1
    ⟨("A").data,
     Relation.TransGen.head eAB (Relation.TransGen.head eBC (Relation.TransGen.single eCA))⟩

end TV

/-! String-processing lemmas used by the round-trip developments. -/

theorem dropWhile_eq_self_of_forall {p : Char → Bool} {l : Str}
    (h : ∀ c ∈ l, p c = false) : l.dropWhile p = l := by
  cases l with
  | nil => rfl
  | cons a t =>
    rw [List.dropWhile_cons, h a (by simp)]
    simp

theorem lstripWs_of_forall {l : Str} (h : ∀ c ∈ l, isWsChar c = false) :
    lstripWs l = l := dropWhile_eq_self_of_forall h

theorem rstripWs_of_forall {l : Str} (h : ∀ c ∈ l, isWsChar c = false) :
    rstripWs l = l := by
  unfold rstripWs
  rw [dropWhile_eq_self_of_forall (fun c hc => h c (List.mem_reverse.mp hc))]
  exact List.reverse_reverse l

theorem stripWs_of_forall {l : Str} (h : ∀ c ∈ l, isWsChar c = false) :
    stripWs l = l := by
  unfold stripWs
  rw [lstripWs_of_forall h, rstripWs_of_forall h]

theorem lstripWs_append_of {cpre d : Str} (h : lstripWs cpre = d) (hd : d ≠ [])
    (v : Str) : lstripWs (cpre ++ v) = d ++ v := by
  induction cpre with
  | nil => exact absurd h.symm hd
  | cons c t ih =>
    simp only [lstripWs, List.cons_append, List.dropWhile_cons] at h ⊢
    cases hw : isWsChar c with
    | true =>
      rw [hw] at h
      rw [if_pos rfl] at h ⊢
      exact ih h
    | false =>
      rw [hw] at h
      rw [if_neg (by simp)] at h ⊢
      rw [← h]
      rfl

theorem dropWhile_length_le (p : Char → Bool) : ∀ l : Str, (l.dropWhile p).length ≤ l.length := by
  intro l
  induction l with
  | nil => simp
  | cons a t ih =>
    rw [List.dropWhile_cons]
    split
    · exact Nat.le_succ_of_le ih
    · simp

theorem rstripWs_append_of (x : Str) {v : Str} (h : rstripWs v = v) (hv : v ≠ []) :
    rstripWs (x ++ v) = x ++ v := by
  have hrv : v.reverse.dropWhile isWsChar = v.reverse := by
    have h2 := congrArg List.reverse h
    rwa [rstripWs, List.reverse_reverse] at h2
  obtain ⟨c, cs, hc⟩ : ∃ c cs, v.reverse = c :: cs := by
    cases hvr : v.reverse with
    | nil => exact absurd (by simpa using congrArg List.reverse hvr) hv
    | cons c cs => exact ⟨c, cs, rfl⟩
  have hcw : isWsChar c = false := by
    cases hw : isWsChar c with
    | false => rfl
    | true =>
      rw [hc, List.dropWhile_cons, hw, if_pos rfl] at hrv
      have hlen := congrArg List.length hrv
      have hle := dropWhile_length_le isWsChar cs
      simp only [List.length_cons] at hlen
      omega
  have hv2 : v = cs.reverse ++ [c] := by
    have := congrArg List.reverse hc
    rwa [List.reverse_reverse, List.reverse_cons] at this
  unfold rstripWs
  rw [List.reverse_append, hc, List.cons_append, List.dropWhile_cons, hcw,
    if_neg (by simp)]
  rw [List.reverse_cons, List.reverse_append, List.reverse_reverse]
  rw [hv2]
  simp [List.append_assoc]

theorem stripWs_append_meta {cpre d v : Str} (hpre : lstripWs cpre = d) (hd : d ≠ [])
    (hv1 : rstripWs v = v) (hv2 : v ≠ []) :
    stripWs (cpre ++ v) = d ++ v := by
  unfold stripWs
  rw [lstripWs_append_of hpre hd v, rstripWs_append_of d hv1 hv2]

theorem isPre_append_self : ∀ (pat x : Str), isPre pat (pat ++ x) = true := by
  intro pat x
  induction pat with
  | nil => rfl
  | cons c t ih => simp [isPre, ih]

theorem splitFirst_prefix {pat : Str} (hpat : pat ≠ []) (t : Str) :
    splitFirst pat (pat ++ t) = some ([], t) := by
  cases pat with
  | nil => exact absurd rfl hpat
  | cons c cs =>
    rw [List.cons_append, splitFirst]
    rw [if_pos (by rw [← List.cons_append]; exact isPre_append_self (c :: cs) t)]
    rw [← List.cons_append, List.drop_left]

theorem splitFirst_single_append {c : Char} : ∀ {a : Str} (t : Str), c ∉ a →
    splitFirst [c] (a ++ c :: t) = some (a, t) := by
  intro a
  induction a with
  | nil =>
    intro t _
    rw [List.nil_append, splitFirst, if_pos (by simp [isPre])]
    rfl
  | cons x xs ih =>
    intro t h
    have hx : ¬ (c = x) := fun hc => h (by simp [hc])
    rw [List.cons_append, splitFirst, if_neg (by simp [isPre, hx])]
    rw [ih t (fun hm => h (List.mem_cons_of_mem x hm))]
    rfl

theorem splitFirst_single_none {c : Char} : ∀ {l : Str}, c ∉ l →
    splitFirst [c] l = none := by
  intro l
  induction l with
  | nil => intro _; rfl
  | cons x xs ih =>
    intro h
    have hx : ¬ (c = x) := fun hc => h (by simp [hc])
    rw [splitFirst, if_neg (by simp [isPre, hx])]
    rw [ih (fun hm => h (List.mem_cons_of_mem x hm))]
    rfl

theorem splitOnSub_of_none {sep l : Str} (hsep : sep ≠ []) (h : splitFirst sep l = none) :
    splitOnSub sep l = [l] := by
  rw [splitOnSub, dif_neg hsep]
  split
  · rfl
  · rename_i a b heq
    rw [h] at heq
    cases heq

theorem splitOnSub_of_some {sep l a b : Str} (hsep : sep ≠ [])
    (h : splitFirst sep l = some (a, b)) :
    splitOnSub sep l = a :: splitOnSub sep b := by
  rw [splitOnSub, dif_neg hsep]
  split
  · rename_i heq
    rw [h] at heq
    cases heq
  · rename_i a2 b2 heq
    rw [h] at heq
    cases heq
    rfl

theorem splitNl_append_cons {a : Str} (t : Str) (h : noNl a) :
    splitNl (a ++ nlChar :: t) = a :: splitNl t :=
  splitOnSub_of_some (by simp) (splitFirst_single_append t h)

theorem splitNl_of_noNl {l : Str} (h : noNl l) : splitNl l = [l] :=
  splitOnSub_of_none (by simp) (splitFirst_single_none h)

theorem splitNl_joinNl_nl : ∀ (ls : List Str), ls ≠ [] → (∀ l ∈ ls, noNl l) →
    splitNl (joinNl ls ++ [nlChar]) = ls ++ [[]] := by
  intro ls
  induction ls with
  | nil => intro h _; exact absurd rfl h
  | cons x rest ih =>
    intro _ hall
    cases rest with
    | nil =>
      show splitNl (x ++ nlChar :: []) = [x, []]
      rw [splitNl_append_cons [] (hall x (by simp))]
      rw [splitNl_of_noNl (by simp [noNl])]
    | cons y rest2 =>
      show splitNl ((x ++ nlChar :: joinNl (y :: rest2)) ++ [nlChar]) = _
      rw [List.append_assoc, List.cons_append]
      rw [splitNl_append_cons _ (hall x (by simp))]
      rw [ih (by simp) (fun l hl => hall l (by simp [hl]))]
      rfl

theorem joinNl_append_nil : ∀ (ls : List Str), ls ≠ [] →
    joinNl (ls ++ [[]]) = joinNl ls ++ [nlChar] := by
  intro ls
  induction ls with
  | nil => intro h; exact absurd rfl h
  | cons x rest ih =>
    intro _
    cases rest with
    | nil => rfl
    | cons y rest2 =>
      show joinNl (x :: ((y :: rest2) ++ [[]])) = _
      have h1 : joinNl (x :: ((y :: rest2) ++ [[]])) =
          x ++ nlChar :: joinNl ((y :: rest2) ++ [[]]) := rfl
      rw [h1, ih (by simp)]
      simp [joinNl]

/-! Decimal-numeral round-trip lemmas. -/

theorem natToStr_lt (n : Nat) (h : n < 10) : natToStr n = [digitChar n] := by
  rw [natToStr, dif_pos h]

theorem natToStr_ge (n : Nat) (h : ¬ n < 10) :
    natToStr n = natToStr (n / 10) ++ [digitChar (n % 10)] := by
  rw [natToStr]
  rw [dif_neg h]

theorem natToStr_ne_nil (n : Nat) : natToStr n ≠ [] := by
  by_cases h : n < 10
  · rw [natToStr_lt n h]; simp
  · rw [natToStr_ge n h]; simp

theorem isDigit_digitChar (k : Nat) (h : k < 10) : isDigitChar (digitChar k) = true := by
  interval_cases k <;> decide

theorem digitVal_digitChar (k : Nat) (h : k < 10) : digitVal (digitChar k) = k := by
  interval_cases k <;> decide

theorem natToStr_all_digits : ∀ (n : Nat), ∀ c ∈ natToStr n, isDigitChar c = true := by
  intro n
  induction n using Nat.strong_induction_on with
  | _ n ih =>
    by_cases h : n < 10
    · rw [natToStr_lt n h]
      intro c hc
      rw [List.mem_singleton] at hc
      subst hc
      exact isDigit_digitChar n h
    · rw [natToStr_ge n h]
      intro c hc
      rcases List.mem_append.mp hc with hc | hc
      · exact ih (n / 10) (Nat.div_lt_self (by omega) (by omega)) c hc
      · rw [List.mem_singleton] at hc
        subst hc
        exact isDigit_digitChar (n % 10) (Nat.mod_lt n (by omega))

theorem not_ws_of_digit {c : Char} (h : isDigitChar c = true) : isWsChar c = false := by
  have h1 : ('0' : Char) ≤ c := by
    simp only [isDigitChar, Bool.and_eq_true, decide_eq_true_eq] at h
    exact h.1
  unfold isWsChar
  simp only [Bool.or_eq_false_iff, decide_eq_false_iff_not]
  refine ⟨⟨⟨⟨⟨fun hc => ?_, fun hc => ?_⟩, fun hc => ?_⟩, fun hc => ?_⟩, fun hc => ?_⟩,
    fun hc => ?_⟩
  all_goals subst hc
  all_goals exact absurd h1 (by decide)

theorem intBodyRest_of_digits : ∀ {l : Str}, (∀ c ∈ l, isDigitChar c = true) →
    intBodyOk.intBodyRest l = true := by
  intro l
  induction l with
  | nil => intro _; rfl
  | cons c t ih =>
    intro h
    unfold intBodyOk.intBodyRest
    rw [h c (by simp), if_pos rfl]
    exact ih (fun d hd => h d (by simp [hd]))

theorem intBodyOk_of_digits {l : Str} (hne : l ≠ []) (h : ∀ c ∈ l, isDigitChar c = true) :
    intBodyOk l = true := by
  cases l with
  | nil => exact absurd rfl hne
  | cons c t =>
    show (isDigitChar c && intBodyOk.intBodyRest t) = true
    rw [h c (by simp), intBodyRest_of_digits (fun d hd => h d (by simp [hd]))]
    rfl

theorem digitsVal_append_last (a : Str) (d : Char) :
    digitsVal (a ++ [d]) = 10 * digitsVal a + digitVal d := by
  unfold digitsVal
  rw [List.foldl_append]
  simp [Nat.mul_comm]

theorem digitsVal_natToStr : ∀ n : Nat, digitsVal (natToStr n) = n := by
  intro n
  induction n using Nat.strong_induction_on with
  | _ n ih =>
    by_cases h : n < 10
    · rw [natToStr_lt n h]
      show List.foldl _ 0 [digitChar n] = n
      simp [digitVal_digitChar n h]
    · rw [natToStr_ge n h, digitsVal_append_last,
        ih (n / 10) (Nat.div_lt_self (by omega) (by omega)),
        digitVal_digitChar (n % 10) (Nat.mod_lt n (by omega))]
      omega

theorem filter_digits_natToStr (n : Nat) : (natToStr n).filter isDigitChar = natToStr n :=
  List.filter_eq_self.mpr (natToStr_all_digits n)

theorem stripWs_natToStr (n : Nat) : stripWs (natToStr n) = natToStr n :=
  stripWs_of_forall (fun c hc => not_ws_of_digit (natToStr_all_digits n c hc))

theorem startsWith_natToStr_sign (n : Nat) (c : Char) (hc : isDigitChar c = false) :
    startsWith (natToStr n) [c] = false := by
  obtain ⟨d, t, hdt⟩ : ∃ d t, natToStr n = d :: t := by
    cases hx : natToStr n with
    | nil => exact absurd hx (natToStr_ne_nil n)
    | cons d t => exact ⟨d, t, rfl⟩
  rw [hdt]
  have hd : isDigitChar d = true := natToStr_all_digits n d (by rw [hdt]; simp)
  unfold startsWith isPre
  have : ¬ (c = d) := fun hcd => by rw [hcd, hd] at hc; cases hc
  simp [this]

theorem parseIntPy_natToStr (m : Nat) : parseIntPy (natToStr m) = some (m : Int) := by
  unfold parseIntPy
  rw [stripWs_natToStr m]
  rw [startsWith_natToStr_sign m '-' (by decide), startsWith_natToStr_sign m '+' (by decide)]
  rw [if_neg (by simp), if_neg (by simp)]
  rw [intBodyOk_of_digits (natToStr_ne_nil m) (natToStr_all_digits m), if_pos rfl]
  rw [filter_digits_natToStr m, digitsVal_natToStr m]

theorem parseIntPy_intToStr (n : Int) : parseIntPy (intToStr n) = some n := by
  unfold intToStr
  by_cases h : n < 0
  · rw [if_pos h]
    unfold parseIntPy
    have hstrip : stripWs ('-' :: natToStr n.natAbs) = '-' :: natToStr n.natAbs := by
      apply stripWs_of_forall
      intro c hc
      rcases List.mem_cons.mp hc with hc | hc
      · subst hc; decide
      · exact not_ws_of_digit (natToStr_all_digits _ c hc)
    rw [hstrip]
    rw [if_pos (by simp [startsWith, isPre])]
    show (if intBodyOk (natToStr n.natAbs) = true then _ else _) = _
    rw [intBodyOk_of_digits (natToStr_ne_nil _) (natToStr_all_digits _), if_pos rfl]
    show some (-(digitsVal ((natToStr n.natAbs).filter isDigitChar) : Int)) = some n
    rw [filter_digits_natToStr, digitsVal_natToStr]
    have : ((n.natAbs : Nat) : Int) = -n := by omega
    rw [this, neg_neg]
  · rw [if_neg h]
    rw [parseIntPy_natToStr n.toNat]
    have : ((n.toNat : Nat) : Int) = n := by omega
    rw [this]

theorem alSet_append_of_notin {α β : Type} [DecidableEq α] :
    ∀ {l : List (α × β)} {k : α} (v : β), k ∉ alKeys l → alSet l k v = l ++ [(k, v)] := by
  intro l
  induction l with
  | nil => intro k v _; rfl
  | cons p t ih =>
    intro k v h
    obtain ⟨a, b⟩ := p
    unfold alSet
    rw [if_neg (fun hak => h (by simp [alKeys, hak]))]
    rw [ih v (fun hm => h (by simp [alKeys] at hm ⊢; exact Or.inr hm))]
    rfl

theorem intToStr_no_ws (n : Int) : ∀ c ∈ intToStr n, isWsChar c = false := by
  intro c hc
  unfold intToStr at hc
  by_cases h : n < 0
  · rw [if_pos h] at hc
    rcases List.mem_cons.mp hc with hc | hc
    · subst hc; decide
    · exact not_ws_of_digit (natToStr_all_digits _ c hc)
  · rw [if_neg h] at hc
    exact not_ws_of_digit (natToStr_all_digits _ c hc)

theorem intToStr_ne_nil (n : Int) : intToStr n ≠ [] := by
  unfold intToStr
  by_cases h : n < 0
  · rw [if_pos h]; simp
  · rw [if_neg h]; exact natToStr_ne_nil _

theorem lstripWs_intToStr (n : Int) : lstripWs (intToStr n) = intToStr n :=
  lstripWs_of_forall (intToStr_no_ws n)

theorem rstripWs_intToStr (n : Int) : rstripWs (intToStr n) = intToStr n :=
  rstripWs_of_forall (intToStr_no_ws n)

theorem noNl_of_no_ws {l : Str} (h : ∀ c ∈ l, isWsChar c = false) : noNl l := by
  intro hc
  have := h nlChar hc
  revert this
  decide

theorem noNl_intToStr (n : Int) : noNl (intToStr n) :=
  noNl_of_no_ws (intToStr_no_ws n)

theorem noNl_append {a b : Str} (ha : noNl a) (hb : noNl b) : noNl (a ++ b) := by
  unfold noNl at *
  rw [List.mem_append]
  rintro (h | h)
  · exact ha h
  · exact hb h

theorem pyOrStr_some_of_ne {v : Str} (hne : v ≠ []) (d : Str) :
    pyOrStr (some v) d = v := by
  show (if List.isEmpty v = true then d else v) = v
  rw [if_neg (by simp [List.isEmpty_iff, hne])]

namespace MD

/-- The failing input of C9: a task block whose `Prerequisites` metadata
line carries an inline value, followed by an indented prerequisite
entry. -/
def c9FailingText : Str :=
  joinNl [("- [ ] **T**:").data, ("  - **Prerequisites**: foo").data, ("    - bar").data]

unseal splitOnSub bodyM parseTasksAuxM in
/-- C9: `parse_existing_tasks` of markdown_parser.py does not return a
map on every input: on the failing input, the metadata branch
overwrites the `prerequisites` slot of `task_data` with the string
`"foo"`, and the prerequisite sub-scan then attempts `.append` on that
string, raising `AttributeError` (modelled as `Except.error`). -/
theorem c9_parser_crash : parseTasksTextM c9FailingText = Except.error () := rfl

/-- The C5 counterexample task: valid (nonempty title, positive id), but
its optional description is null. -/
def cexC5Task : MTask :=
  ⟨("T").data, false, 1, ("High").data, none, none, none, none,
   some (("1 hour").data), none, [], [], []⟩

unseal natToStr splitOnSub bodyM parseTasksAuxM in
/-- C5 counterexample: rendering a valid task whose description is null
produces the line `- **Description**: No description`, which parses
back as the literal string `"No description"`, not null — the
round-trip changes the description field. -/
theorem c5_counterexample :
    (parseTasksTextM (formatTaskBlockM cexC5Task none)).map
        (List.map (fun q => (q.1, q.2.description))) =
      Except.ok [(cexC5Task.title, some (("No description").data))] ∧
    cexC5Task.description = none := ⟨rfl, rfl⟩

/-- A metadata value that survives the parser's strip and
`None`-normalisation unchanged: no surrounding whitespace, nonempty, not
a spelling of `None`, and newline-free. -/
def benignVal (v : Str) : Prop :=
  lstripWs v = v ∧ rstripWs v = v ∧ v ≠ [] ∧ lowerStr v ≠ ("none").data ∧ noNl v

instance (v : Str) : Decidable (benignVal v) := by
  unfold benignVal; infer_instance

/-- An optional field whose rendered form round-trips: either null
(rendered `None`, parsed back to null) or a benign value. -/
def benignOpt : Option Str → Prop
  | none => True
  | some v => benignVal v

instance (o : Option Str) : Decidable (benignOpt o) := by
  cases o <;> unfold benignOpt <;> infer_instance

/-- A present (non-null) benign optional field. -/
def benignSome : Option Str → Prop
  | none => False
  | some v => benignVal v

instance (o : Option Str) : Decidable (benignSome o) := by
  cases o <;> unfold benignSome <;> infer_instance

theorem normVal_benign {v : Str} (hnone : lowerStr v ≠ ("none").data) (hne : v ≠ []) :
    normVal v = some v := by
  unfold normVal
  rw [if_neg (by exact fun h => h.elim hnone hne)]

theorem bodyM_nil (acc : MAcc) : bodyM acc [] = Except.ok (acc, []) := by
  rw [bodyM]

theorem bodyM_step_plain (acc : MAcc) (line : Str) (rest : List Str)
    (h1 : ((stripWs line).isEmpty && nextIsBullet rest) = false)
    (h2 : parseHeaderM line = none)
    (h3 : startsWith (stripWs line) (("- **Pre-requisites**:").data) = false)
    (h4 : startsWith (stripWs line) (("- **Prerequisites**:").data) = false)
    (h5 : startsWith (stripWs line) (("- **Subtasks**:").data) = false) :
    bodyM acc (line :: rest) =
      exBind (bodyM (metaApply acc line) rest)
        (fun ac => Except.ok (ac.1, line :: ac.2)) := by
  simp only [bodyM]
  rw [if_neg (by simp [h1]), if_neg (by simp [h2]), if_neg (by simp [h3, h4]),
    if_neg (by simp [h5])]

theorem bodyM_step_pre (acc : MAcc) (line : Str) (rest : List Str)
    (h1 : ((stripWs line).isEmpty && nextIsBullet rest) = false)
    (h2 : parseHeaderM line = none)
    (h34 : (startsWith (stripWs line) (("- **Pre-requisites**:").data) ||
      startsWith (stripWs line) (("- **Prerequisites**:").data)) = true) :
    bodyM acc (line :: rest) =
      exBind (scanPrereqs (metaApply acc line).prerequisites rest) (fun pc =>
        exBind (bodyM { metaApply acc line with prerequisites := pc.1 }
            (rest.drop pc.2.length))
          (fun ac => Except.ok (ac.1, line :: (pc.2 ++ ac.2)))) := by
  simp only [bodyM]
  rw [if_neg (by simp [h1]), if_neg (by simp [h2]), if_pos h34]

theorem bodyM_step_sub (acc : MAcc) (line : Str) (rest : List Str)
    (h1 : ((stripWs line).isEmpty && nextIsBullet rest) = false)
    (h2 : parseHeaderM line = none)
    (h3 : startsWith (stripWs line) (("- **Pre-requisites**:").data) = false)
    (h4 : startsWith (stripWs line) (("- **Prerequisites**:").data) = false)
    (h5 : startsWith (stripWs line) (("- **Subtasks**:").data) = true) :
    bodyM acc (line :: rest) =
      exBind (scanSubs (metaApply acc line).subtasks rest) (fun pc =>
        exBind (bodyM { metaApply acc line with subtasks := pc.1 }
            (rest.drop pc.2.length))
          (fun ac => Except.ok (ac.1, line :: (pc.2 ++ ac.2)))) := by
  simp only [bodyM]
  rw [if_neg (by simp [h1]), if_neg (by simp [h2]), if_neg (by simp [h3, h4]),
    if_pos h5]

theorem metaApply_id_line (acc : MAcc) {v : Str} (h1 : lstripWs v = v)
    (h2 : rstripWs v = v) (hne : v ≠ []) :
    metaApply acc (("  - **ID**: ").data ++ v) =
      { acc with task_id := Sum.inl ((parseIntPy v).getD (-1)) } := by
  unfold metaApply
  rw [stripWs_append_meta rfl (by decide) h2 hne]
  obtain ⟨d, t, rfl⟩ := List.exists_cons_of_ne_nil hne
  show applyMeta acc (("ID").data) (stripWs (d :: t)) = _
  rw [show stripWs (d :: t) = d :: t from by unfold stripWs; rw [h1, h2]]
  rfl

theorem metaApply_description_line (acc : MAcc) {v : Str} (h1 : lstripWs v = v)
    (h2 : rstripWs v = v) (hne : v ≠ []) :
    metaApply acc (("  - **Description**: ").data ++ v) =
      { acc with description := normVal v } := by
  unfold metaApply
  rw [stripWs_append_meta rfl (by decide) h2 hne]
  obtain ⟨d, t, rfl⟩ := List.exists_cons_of_ne_nil hne
  show applyMeta acc (("Description").data) (stripWs (d :: t)) = _
  rw [show stripWs (d :: t) = d :: t from by unfold stripWs; rw [h1, h2]]
  rfl

theorem metaApply_priority_line (acc : MAcc) {v : Str} (h1 : lstripWs v = v)
    (h2 : rstripWs v = v) (hne : v ≠ []) :
    metaApply acc (("  - **Priority**: ").data ++ v) =
      { acc with priority := normVal v } := by
  unfold metaApply
  rw [stripWs_append_meta rfl (by decide) h2 hne]
  obtain ⟨d, t, rfl⟩ := List.exists_cons_of_ne_nil hne
  show applyMeta acc (("Priority").data) (stripWs (d :: t)) = _
  rw [show stripWs (d :: t) = d :: t from by unfold stripWs; rw [h1, h2]]
  rfl

theorem metaApply_estimated_line (acc : MAcc) {v : Str} (h1 : lstripWs v = v)
    (h2 : rstripWs v = v) (hne : v ≠ []) :
    metaApply acc (("  - **Estimated Time**: ").data ++ v) =
      { acc with estimated_time := normVal v } := by
  unfold metaApply
  rw [stripWs_append_meta rfl (by decide) h2 hne]
  obtain ⟨d, t, rfl⟩ := List.exists_cons_of_ne_nil hne
  show applyMeta acc (("Estimated Time").data) (stripWs (d :: t)) = _
  rw [show stripWs (d :: t) = d :: t from by unfold stripWs; rw [h1, h2]]
  rfl

theorem metaApply_assignee_line (acc : MAcc) {v : Str} (h1 : lstripWs v = v)
    (h2 : rstripWs v = v) (hne : v ≠ []) :
    metaApply acc (("  - **Assignee**: ").data ++ v) =
      { acc with assignee := normVal v } := by
  unfold metaApply
  rw [stripWs_append_meta rfl (by decide) h2 hne]
  obtain ⟨d, t, rfl⟩ := List.exists_cons_of_ne_nil hne
  show applyMeta acc (("Assignee").data) (stripWs (d :: t)) = _
  rw [show stripWs (d :: t) = d :: t from by unfold stripWs; rw [h1, h2]]
  rfl

theorem metaApply_create_line (acc : MAcc) {v : Str} (h1 : lstripWs v = v)
    (h2 : rstripWs v = v) (hne : v ≠ []) :
    metaApply acc (("  - **Create Date**: ").data ++ v) =
      { acc with create_date := normVal v } := by
  unfold metaApply
  rw [stripWs_append_meta rfl (by decide) h2 hne]
  obtain ⟨d, t, rfl⟩ := List.exists_cons_of_ne_nil hne
  show applyMeta acc (("Create Date").data) (stripWs (d :: t)) = _
  rw [show stripWs (d :: t) = d :: t from by unfold stripWs; rw [h1, h2]]
  rfl

theorem metaApply_start_line (acc : MAcc) {v : Str} (h1 : lstripWs v = v)
    (h2 : rstripWs v = v) (hne : v ≠ []) :
    metaApply acc (("  - **Start Date**: ").data ++ v) =
      { acc with start_date := normVal v } := by
  unfold metaApply
  rw [stripWs_append_meta rfl (by decide) h2 hne]
  obtain ⟨d, t, rfl⟩ := List.exists_cons_of_ne_nil hne
  show applyMeta acc (("Start Date").data) (stripWs (d :: t)) = _
  rw [show stripWs (d :: t) = d :: t from by unfold stripWs; rw [h1, h2]]
  rfl

theorem metaApply_finish_line (acc : MAcc) {v : Str} (h1 : lstripWs v = v)
    (h2 : rstripWs v = v) (hne : v ≠ []) :
    metaApply acc (("  - **Finish Date**: ").data ++ v) =
      { acc with finish_date := normVal v } := by
  unfold metaApply
  rw [stripWs_append_meta rfl (by decide) h2 hne]
  obtain ⟨d, t, rfl⟩ := List.exists_cons_of_ne_nil hne
  show applyMeta acc (("Finish Date").data) (stripWs (d :: t)) = _
  rw [show stripWs (d :: t) = d :: t from by unfold stripWs; rw [h1, h2]]
  rfl

theorem exBind_ok {α β : Type} (a : α) (f : α → Except Unit β) :
    exBind (Except.ok a) f = f a := rfl

theorem scanPrereqs_step_inl (acc : List Str) (p : Str) (rest : List Str)
    (hl : lstripWs p = p) (hr : rstripWs p = p) (hne : p ≠ [])
    (hnone : lowerStr p ≠ ("none").data) :
    scanPrereqs (Sum.inl acc) (((("    - ").data) ++ p) :: rest) =
      exBind (scanPrereqs (Sum.inl (acc ++ [p])) rest)
        (fun pc => Except.ok (pc.1, ((("    - ").data) ++ p) :: pc.2)) := by
  have hcondA : startsWith ((("    - ").data) ++ p) (("    - ").data) = true :=
    isPre_append_self _ _
  have hline : stripWs ((("    - ").data) ++ p) = ("- ").data ++ p :=
    stripWs_append_meta rfl (by decide) hr hne
  have hdrop : (stripWs ((("    - ").data) ++ p)).drop 2 = p := by
    rw [hline]
    rfl
  have hnone3 : (lowerStr p = ("none").data) = False := eq_false hnone
  simp only [scanPrereqs, hcondA, if_true, hdrop, hnone3, if_false]

theorem scanPrereqs_stop (pre : Sum (List Str) (Option Str)) :
    ∀ (rest : List Str), (∀ r ∈ rest.take 1, startsWith r (("    - ").data) = false) →
    scanPrereqs pre rest = Except.ok (pre, []) := by
  intro rest hrest
  cases rest with
  | nil => rfl
  | cons r t =>
    have hcond : (startsWith r (("    - ").data)) = false := hrest r (by simp)
    simp only [scanPrereqs, hcond, Bool.false_eq_true, if_false]

theorem scanPrereqs_render : ∀ (ps : List Str) (acc : List Str) (rest : List Str),
    (∀ p ∈ ps, benignVal p) →
    (∀ r ∈ rest.take 1, startsWith r (("    - ").data) = false) →
    scanPrereqs (Sum.inl acc) ((ps.map (fun p => ("    - ").data ++ p)) ++ rest) =
      Except.ok (Sum.inl (acc ++ ps), ps.map (fun p => ("    - ").data ++ p)) := by
  intro ps
  induction ps with
  | nil =>
    intro acc rest _ hrest
    rw [List.map_nil, List.nil_append, List.append_nil]
    exact scanPrereqs_stop _ rest hrest
  | cons p ps2 ih =>
    intro acc rest hben hrest
    obtain ⟨hl, hr, hne, hnone, _⟩ := hben p (by simp)
    rw [List.map_cons, List.cons_append]
    rw [scanPrereqs_step_inl acc p _ hl hr hne hnone]
    rw [ih (acc ++ [p]) rest (fun q hq => hben q (by simp [hq])) hrest]
    rw [exBind_ok]
    beta_reduce
    rw [List.append_assoc]
    rfl

theorem scanSubs_step (acc : List (Str × Bool)) (nm : Str) (b : Bool) (rest : List Str)
    (hnm : nm ≠ []) :
    scanSubs (Sum.inl acc) (renderSubLine (nm, b) :: rest) =
      exBind (scanSubs (Sum.inl (alSet acc nm b)) rest)
        (fun pc => Except.ok (pc.1, renderSubLine (nm, b) :: pc.2)) := by
  obtain ⟨d, t, rfl⟩ := List.exists_cons_of_ne_nil hnm
  cases b with
  | true =>
    have hA : startsWith (renderSubLine (d :: t, true)) (("    - [").data) = true := rfl
    have hB : RT.parseSubtaskLine (renderSubLine (d :: t, true)) =
      some (true, d :: t) := rfl
    simp only [scanSubs, hA, if_true, hB]
  | false =>
    have hA : startsWith (renderSubLine (d :: t, false)) (("    - [").data) = true := rfl
    have hB : RT.parseSubtaskLine (renderSubLine (d :: t, false)) =
      some (false, d :: t) := rfl
    simp only [scanSubs, hA, if_true, hB]

theorem scanSubs_stop (subs : Sum (List (Str × Bool)) (Option Str)) :
    ∀ (rest : List Str), (∀ r ∈ rest.take 1, startsWith r (("    - [").data) = false) →
    scanSubs subs rest = Except.ok (subs, []) := by
  intro rest hrest
  cases rest with
  | nil => rfl
  | cons r t =>
    have hcond : (startsWith r (("    - [").data)) = false := hrest r (by simp)
    simp only [scanSubs, hcond, Bool.false_eq_true, if_false]

theorem scanSubs_render : ∀ (ss : List (Str × Bool)) (acc : List (Str × Bool)) (rest : List Str),
    (∀ q ∈ ss, q.1 ≠ []) →
    (alKeys (acc ++ ss)).Nodup →
    (∀ r ∈ rest.take 1, startsWith r (("    - [").data) = false) →
    scanSubs (Sum.inl acc) ((ss.map renderSubLine) ++ rest) =
      Except.ok (Sum.inl (acc ++ ss), ss.map renderSubLine) := by
  intro ss
  induction ss with
  | nil =>
    intro acc rest _ _ hrest
    rw [List.map_nil, List.nil_append, List.append_nil]
    exact scanSubs_stop _ rest hrest
  | cons q ss2 ih =>
    intro acc rest hne hnodup hrest
    obtain ⟨nm, b⟩ := q
    have hkeys : (alKeys acc ++ nm :: alKeys ss2).Nodup := by
      simpa [alKeys] using hnodup
    rw [List.nodup_append] at hkeys
    have hnotin : nm ∉ alKeys acc := fun hmem => hkeys.2.2 hmem (by simp)
    rw [List.map_cons, List.cons_append]
    rw [scanSubs_step acc nm b _ (hne (nm, b) (by simp))]
    rw [alSet_append_of_notin b hnotin]
    rw [ih (acc ++ [(nm, b)]) rest (fun q2 hq2 => hne q2 (by simp [hq2]))
      (by rw [List.append_assoc]; exact hnodup) hrest]
    rw [exBind_ok]
    beta_reduce
    rw [List.append_assoc]
    rfl

theorem bodyM_lastEmpty (acc : MAcc) : bodyM acc [[]] = Except.ok (acc, [[]]) := by
  rw [bodyM_step_plain acc [] [] rfl rfl rfl rfl rfl]
  rw [show metaApply acc [] = acc from rfl]
  rw [bodyM_nil, exBind_ok]

theorem bodyM_subSection (acc : MAcc) (ss : List (Str × Bool))
    (hss : ∀ q ∈ ss, q.1 ≠ []) (hnodup : (alKeys ss).Nodup)
    (hacc : acc.subtasks = Sum.inl []) :
    bodyM acc ((("  - **Subtasks**:").data) :: (subtaskLinesM ss ++ [[]])) =
      Except.ok ({ acc with subtasks := Sum.inl ss },
        ("  - **Subtasks**:").data :: (subtaskLinesM ss ++ [[]])) := by
  rw [bodyM_step_sub acc (("  - **Subtasks**:").data) (subtaskLinesM ss ++ [[]])
    rfl rfl rfl rfl rfl]
  rw [show metaApply acc (("  - **Subtasks**:").data) = acc from rfl]
  rw [hacc]
  by_cases hempty : ss = []
  · subst hempty
    have hrec : { acc with subtasks := Sum.inl ([] : List (Str × Bool)) } = acc := by
      rw [← hacc]
    rw [show (subtaskLinesM [] ++ [[]] : List Str) = [("    - None").data, []] from rfl]
    rw [scanSubs_stop (Sum.inl []) [("    - None").data, []]
      (by intro r hr; simp at hr; subst hr; rfl)]
    rw [exBind_ok]
    show exBind (bodyM { acc with subtasks := Sum.inl ([] : List (Str × Bool)) }
        [("    - None").data, []])
      (fun ac => Except.ok (ac.1,
        ("  - **Subtasks**:").data :: (([] : List Str) ++ ac.2))) =
      Except.ok ({ acc with subtasks := Sum.inl ([] : List (Str × Bool)) },
        [("  - **Subtasks**:").data, ("    - None").data, []])
    rw [hrec]
    rw [bodyM_step_plain acc (("    - None").data) [[]] rfl rfl rfl rfl rfl]
    rw [show metaApply acc (("    - None").data) = acc from rfl]
    rw [bodyM_lastEmpty acc]
    rfl
  · rw [show subtaskLinesM ss = ss.map renderSubLine from by
      unfold subtaskLinesM
      rw [if_neg (by simp [List.isEmpty_iff, hempty])]]
    rw [scanSubs_render ss [] [[]] hss (by simpa using hnodup)
      (by intro r hr; simp at hr; subst hr; rfl)]
    rw [exBind_ok]
    beta_reduce
    rw [List.drop_left, List.nil_append]
    rw [bodyM_lastEmpty]
    rw [exBind_ok]

theorem bodyM_preSection (acc : MAcc) (ps : List Str) (tail : List Str)
    (hben : ∀ p ∈ ps, benignVal p)
    (hacc : acc.prerequisites = Sum.inl [])
    (htail : ∀ r ∈ tail.take 1, startsWith r (("    - ").data) = false) :
    bodyM acc ((("  - **Pre-requisites**:").data) :: (prereqLinesM ps ++ tail)) =
      exBind (bodyM { acc with prerequisites := Sum.inl ps } tail)
        (fun ac => Except.ok (ac.1,
          (("  - **Pre-requisites**:").data) :: (prereqLinesM ps ++ ac.2))) := by
  rw [bodyM_step_pre acc (("  - **Pre-requisites**:").data) (prereqLinesM ps ++ tail)
    rfl rfl rfl]
  rw [show metaApply acc (("  - **Pre-requisites**:").data) = acc from rfl]
  rw [hacc]
  by_cases hempty : ps = []
  · subst hempty
    rw [show (prereqLinesM [] ++ tail : List Str) = ("    - None").data :: tail from rfl]
    have hscan : scanPrereqs (Sum.inl ([] : List Str)) (("    - None").data :: tail) =
        Except.ok (Sum.inl [], [("    - None").data]) := by
      have hA : startsWith (("    - None").data) (("    - ").data) = true := rfl
      have hB : (lowerStr ((stripWs (("    - None").data)).drop 2) =
        ("none").data) = True := by decide
      simp only [scanPrereqs, hA, if_true, hB]
      rw [scanPrereqs_stop (Sum.inl []) tail htail]
      rfl
    rw [hscan, exBind_ok]
    beta_reduce
    rw [show List.drop (List.length [("    - None").data]) (("    - None").data :: tail) =
      tail from rfl]
    rfl
  · rw [show prereqLinesM ps = ps.map (fun p => ("    - ").data ++ p) from by
      unfold prereqLinesM
      rw [if_neg (by simp [List.isEmpty_iff, hempty])]]
    rw [scanPrereqs_render ps [] tail hben htail]
    rw [exBind_ok]
    beta_reduce
    rw [List.drop_left, List.nil_append]

theorem break1_false {line : Str} (h : (stripWs line).isEmpty = false) (rest : List Str) :
    ((stripWs line).isEmpty && nextIsBullet rest) = false := by
  rw [h]
  rfl

theorem noNl_prereqLines {ps : List Str} (h : ∀ p ∈ ps, benignVal p) :
    ∀ l ∈ prereqLinesM ps, noNl l := by
  intro l hl
  unfold prereqLinesM at hl
  split at hl
  · rw [List.mem_singleton] at hl
    subst hl
    decide
  · obtain ⟨p, hp, rfl⟩ := List.mem_map.mp hl
    exact noNl_append (by decide) (h p hp).2.2.2.2

theorem noNl_subtaskLines {ss : List (Str × Bool)} (h : ∀ q ∈ ss, q.1 ≠ [] ∧ noNl q.1) :
    ∀ l ∈ subtaskLinesM ss, noNl l := by
  intro l hl
  unfold subtaskLinesM at hl
  split at hl
  · rw [List.mem_singleton] at hl
    subst hl
    decide
  · obtain ⟨q, hq, rfl⟩ := List.mem_map.mp hl
    obtain ⟨nm, b⟩ := q
    have hnl := (h (nm, b) hq).2
    unfold renderSubLine
    cases b with
    | true =>
      show noNl ((("    - ").data ++ ("[x]").data ++ [spChar]) ++ nm)
      exact noNl_append (by decide) hnl
    | false =>
      show noNl ((("    - ").data ++ ("[ ]").data ++ [spChar]) ++ nm)
      exact noNl_append (by decide) hnl

theorem parseTasksAux_nil (tasks : List (Str × PTask)) :
    parseTasksAuxM tasks [] = Except.ok tasks := by
  rw [parseTasksAuxM]

theorem parseTasksAux_step (tasks : List (Str × PTask)) (line : Str) (rest : List Str)
    (checked : Bool) (title : Str) (h : parseHeaderM line = some (checked, title)) :
    parseTasksAuxM tasks (line :: rest) =
      exBind (bodyM (mAcc0 checked title) rest) (fun ac =>
        parseTasksAuxM (alSet tasks title (mkPTask ac.1 (joinNl (line :: ac.2))))
          (rest.drop ac.2.length)) := by
  simp only [parseTasksAuxM, h]

theorem bodyM_id_step (A : MAcc) (n : Int) (rest : List Str) :
    bodyM A ((("  - **ID**: ").data ++ intToStr n) :: rest) =
      exBind (bodyM { A with task_id := Sum.inl n } rest)
        (fun ac => Except.ok (ac.1, (("  - **ID**: ").data ++ intToStr n) :: ac.2)) := by
  have hs : stripWs (("  - **ID**: ").data ++ intToStr n) =
      ("- **ID**: ").data ++ intToStr n :=
    stripWs_append_meta rfl (by decide) (rstripWs_intToStr n) (intToStr_ne_nil n)
  rw [bodyM_step_plain A ((("  - **ID**: ").data ++ intToStr n)) rest
    (break1_false (by rw [hs]; rfl) rest) rfl
    (by rw [hs]; rfl) (by rw [hs]; rfl) (by rw [hs]; rfl)]
  rw [metaApply_id_line A (lstripWs_intToStr n) (rstripWs_intToStr n) (intToStr_ne_nil n)]
  rw [parseIntPy_intToStr n]
  rfl

theorem bodyM_desc_step (A : MAcc) {v : Str} (h1 : lstripWs v = v) (h2 : rstripWs v = v)
    (hne : v ≠ []) (rest : List Str) :
    bodyM A ((("  - **Description**: ").data ++ v) :: rest) =
      exBind (bodyM { A with description := normVal v } rest)
        (fun ac => Except.ok (ac.1, (("  - **Description**: ").data ++ v) :: ac.2)) := by
  have hs : stripWs (("  - **Description**: ").data ++ v) =
      ("- **Description**: ").data ++ v :=
    stripWs_append_meta rfl (by decide) h2 hne
  rw [bodyM_step_plain A ((("  - **Description**: ").data ++ v)) rest
    (break1_false (by rw [hs]; rfl) rest) rfl
    (by rw [hs]; rfl) (by rw [hs]; rfl) (by rw [hs]; rfl)]
  rw [metaApply_description_line A h1 h2 hne]

theorem bodyM_priority_step (A : MAcc) {v : Str} (h1 : lstripWs v = v) (h2 : rstripWs v = v)
    (hne : v ≠ []) (rest : List Str) :
    bodyM A ((("  - **Priority**: ").data ++ v) :: rest) =
      exBind (bodyM { A with priority := normVal v } rest)
        (fun ac => Except.ok (ac.1, (("  - **Priority**: ").data ++ v) :: ac.2)) := by
  have hs : stripWs (("  - **Priority**: ").data ++ v) =
      ("- **Priority**: ").data ++ v :=
    stripWs_append_meta rfl (by decide) h2 hne
  rw [bodyM_step_plain A ((("  - **Priority**: ").data ++ v)) rest
    (break1_false (by rw [hs]; rfl) rest) rfl
    (by rw [hs]; rfl) (by rw [hs]; rfl) (by rw [hs]; rfl)]
  rw [metaApply_priority_line A h1 h2 hne]

theorem bodyM_estimated_step (A : MAcc) {v : Str} (h1 : lstripWs v = v)
    (h2 : rstripWs v = v) (hne : v ≠ []) (rest : List Str) :
    bodyM A ((("  - **Estimated Time**: ").data ++ v) :: rest) =
      exBind (bodyM { A with estimated_time := normVal v } rest)
        (fun ac => Except.ok (ac.1, (("  - **Estimated Time**: ").data ++ v) :: ac.2)) := by
  have hs : stripWs (("  - **Estimated Time**: ").data ++ v) =
      ("- **Estimated Time**: ").data ++ v :=
    stripWs_append_meta rfl (by decide) h2 hne
  rw [bodyM_step_plain A ((("  - **Estimated Time**: ").data ++ v)) rest
    (break1_false (by rw [hs]; rfl) rest) rfl
    (by rw [hs]; rfl) (by rw [hs]; rfl) (by rw [hs]; rfl)]
  rw [metaApply_estimated_line A h1 h2 hne]

theorem bodyM_assignee_step (A : MAcc) {v : Str} (h1 : lstripWs v = v)
    (h2 : rstripWs v = v) (hne : v ≠ []) (rest : List Str) :
    bodyM A ((("  - **Assignee**: ").data ++ v) :: rest) =
      exBind (bodyM { A with assignee := normVal v } rest)
        (fun ac => Except.ok (ac.1, (("  - **Assignee**: ").data ++ v) :: ac.2)) := by
  have hs : stripWs (("  - **Assignee**: ").data ++ v) =
      ("- **Assignee**: ").data ++ v :=
    stripWs_append_meta rfl (by decide) h2 hne
  rw [bodyM_step_plain A ((("  - **Assignee**: ").data ++ v)) rest
    (break1_false (by rw [hs]; rfl) rest) rfl
    (by rw [hs]; rfl) (by rw [hs]; rfl) (by rw [hs]; rfl)]
  rw [metaApply_assignee_line A h1 h2 hne]

theorem bodyM_create_step (A : MAcc) {v : Str} (h1 : lstripWs v = v)
    (h2 : rstripWs v = v) (hne : v ≠ []) (rest : List Str) :
    bodyM A ((("  - **Create Date**: ").data ++ v) :: rest) =
      exBind (bodyM { A with create_date := normVal v } rest)
        (fun ac => Except.ok (ac.1, (("  - **Create Date**: ").data ++ v) :: ac.2)) := by
  have hs : stripWs (("  - **Create Date**: ").data ++ v) =
      ("- **Create Date**: ").data ++ v :=
    stripWs_append_meta rfl (by decide) h2 hne
  rw [bodyM_step_plain A ((("  - **Create Date**: ").data ++ v)) rest
    (break1_false (by rw [hs]; rfl) rest) rfl
    (by rw [hs]; rfl) (by rw [hs]; rfl) (by rw [hs]; rfl)]
  rw [metaApply_create_line A h1 h2 hne]

theorem bodyM_start_step (A : MAcc) {v : Str} (h1 : lstripWs v = v)
    (h2 : rstripWs v = v) (hne : v ≠ []) (rest : List Str) :
    bodyM A ((("  - **Start Date**: ").data ++ v) :: rest) =
      exBind (bodyM { A with start_date := normVal v } rest)
        (fun ac => Except.ok (ac.1, (("  - **Start Date**: ").data ++ v) :: ac.2)) := by
  have hs : stripWs (("  - **Start Date**: ").data ++ v) =
      ("- **Start Date**: ").data ++ v :=
    stripWs_append_meta rfl (by decide) h2 hne
  rw [bodyM_step_plain A ((("  - **Start Date**: ").data ++ v)) rest
    (break1_false (by rw [hs]; rfl) rest) rfl
    (by rw [hs]; rfl) (by rw [hs]; rfl) (by rw [hs]; rfl)]
  rw [metaApply_start_line A h1 h2 hne]

theorem bodyM_finish_step (A : MAcc) {v : Str} (h1 : lstripWs v = v)
    (h2 : rstripWs v = v) (hne : v ≠ []) (rest : List Str) :
    bodyM A ((("  - **Finish Date**: ").data ++ v) :: rest) =
      exBind (bodyM { A with finish_date := normVal v } rest)
        (fun ac => Except.ok (ac.1, (("  - **Finish Date**: ").data ++ v) :: ac.2)) := by
  have hs : stripWs (("  - **Finish Date**: ").data ++ v) =
      ("- **Finish Date**: ").data ++ v :=
    stripWs_append_meta rfl (by decide) h2 hne
  rw [bodyM_step_plain A ((("  - **Finish Date**: ").data ++ v)) rest
    (break1_false (by rw [hs]; rfl) rest) rfl
    (by rw [hs]; rfl) (by rw [hs]; rfl) (by rw [hs]; rfl)]
  rw [metaApply_finish_line A h1 h2 hne]

/-- C5 (amended): for a task whose title header round-trips, whose
description and estimated time are present with benign values, whose
priority and prerequisite entries are benign, whose optional fields are
null or benign, and whose subtask names are nonempty, newline-free and
distinct, parsing the rendered markdown reproduces every field of the
task (the raw block being the rendered text itself); with a null
description or estimated time the round trip is broken — the parser
reads back the rendered placeholder text (`c5_counterexample`). -/
theorem c5_round_trip (T : MTask)
    (htitle : parseHeaderM (headerLineM T) = some (T.checked, T.title))
    (htnl : noNl T.title)
    (hprio : benignVal T.priority)
    (hassign : benignOpt T.assignee)
    (hcreate : benignOpt T.create_date)
    (hstart : benignOpt T.start_date)
    (hfinish : benignOpt T.finish_date)
    (hdesc : benignSome T.description)
    (hest : benignSome T.estimated_time)
    (hpre : ∀ p ∈ T.prerequisites, benignVal p)
    (hsub : ∀ q ∈ T.subtasks, q.1 ≠ [] ∧ noNl q.1)
    (hnodup : (alKeys T.subtasks).Nodup) :
    parseTasksTextM (formatTaskBlockM T none) =
      Except.ok [(T.title,
        ({ title := some T.title, checked := Sum.inl T.checked,
           task_id := Sum.inl T.task_id, priority := some T.priority,
           assignee := T.assignee, create_date := T.create_date,
           start_date := T.start_date, finish_date := T.finish_date,
           estimated_time := T.estimated_time, description := T.description,
           prerequisites := Sum.inl T.prerequisites, subtasks := Sum.inl T.subtasks,
           raw_block := formatTaskBlockM T none } : PTask))] := by
  obtain ⟨h1P, h2P, h3P, h4P, h5P⟩ := hprio
  have hvDex : ∃ v, pyOrStr T.description (("No description").data) = v ∧
      lstripWs v = v ∧ rstripWs v = v ∧ v ≠ [] ∧ normVal v = T.description ∧ noNl v := by
    cases hx : T.description with
    | none => rw [hx] at hdesc; exact hdesc.elim
    | some a =>
      rw [hx] at hdesc
      obtain ⟨g1, g2, g3, g4, g5⟩ := hdesc
      exact ⟨a, pyOrStr_some_of_ne g3 _, g1, g2, g3, normVal_benign g4 g3, g5⟩
  obtain ⟨vD, hvD, h1D, h2D, h3D, h4D, h5D⟩ := hvDex
  have hvEex : ∃ v, pyOrStr T.estimated_time (("30 minutes").data) = v ∧
      lstripWs v = v ∧ rstripWs v = v ∧ v ≠ [] ∧ normVal v = T.estimated_time ∧ noNl v := by
    cases hx : T.estimated_time with
    | none => rw [hx] at hest; exact hest.elim
    | some a =>
      rw [hx] at hest
      obtain ⟨g1, g2, g3, g4, g5⟩ := hest
      exact ⟨a, pyOrStr_some_of_ne g3 _, g1, g2, g3, normVal_benign g4 g3, g5⟩
  obtain ⟨vE, hvE, h1E, h2E, h3E, h4E, h5E⟩ := hvEex
  have hvAex : ∃ v, pyOrStr T.assignee (("None").data) = v ∧
      lstripWs v = v ∧ rstripWs v = v ∧ v ≠ [] ∧ normVal v = T.assignee ∧ noNl v := by
    cases hx : T.assignee with
    | none => exact ⟨("None").data, rfl, rfl, rfl, by decide, by decide, by decide⟩
    | some a =>
      rw [hx] at hassign
      obtain ⟨g1, g2, g3, g4, g5⟩ := hassign
      exact ⟨a, pyOrStr_some_of_ne g3 _, g1, g2, g3, normVal_benign g4 g3, g5⟩
  obtain ⟨vA, hvA, h1A, h2A, h3A, h4A, h5A⟩ := hvAex
  have hvCex : ∃ v, pyOrStr T.create_date (("None").data) = v ∧
      lstripWs v = v ∧ rstripWs v = v ∧ v ≠ [] ∧ normVal v = T.create_date ∧ noNl v := by
    cases hx : T.create_date with
    | none => exact ⟨("None").data, rfl, rfl, rfl, by decide, by decide, by decide⟩
    | some a =>
      rw [hx] at hcreate
      obtain ⟨g1, g2, g3, g4, g5⟩ := hcreate
      exact ⟨a, pyOrStr_some_of_ne g3 _, g1, g2, g3, normVal_benign g4 g3, g5⟩
  obtain ⟨vC, hvC, h1C, h2C, h3C, h4C, h5C⟩ := hvCex
  have hvSex : ∃ v, pyOrStr T.start_date (("None").data) = v ∧
      lstripWs v = v ∧ rstripWs v = v ∧ v ≠ [] ∧ normVal v = T.start_date ∧ noNl v := by
    cases hx : T.start_date with
    | none => exact ⟨("None").data, rfl, rfl, rfl, by decide, by decide, by decide⟩
    | some a =>
      rw [hx] at hstart
      obtain ⟨g1, g2, g3, g4, g5⟩ := hstart
      exact ⟨a, pyOrStr_some_of_ne g3 _, g1, g2, g3, normVal_benign g4 g3, g5⟩
  obtain ⟨vS, hvS, h1S, h2S, h3S, h4S, h5S⟩ := hvSex
  have hvFex : ∃ v, pyOrStr T.finish_date (("None").data) = v ∧
      lstripWs v = v ∧ rstripWs v = v ∧ v ≠ [] ∧ normVal v = T.finish_date ∧ noNl v := by
    cases hx : T.finish_date with
    | none => exact ⟨("None").data, rfl, rfl, rfl, by decide, by decide, by decide⟩
    | some a =>
      rw [hx] at hfinish
      obtain ⟨g1, g2, g3, g4, g5⟩ := hfinish
      exact ⟨a, pyOrStr_some_of_ne g3 _, g1, g2, g3, normVal_benign g4 g3, g5⟩
  obtain ⟨vF, hvF, h1F, h2F, h3F, h4F, h5F⟩ := hvFex
  have hLINES : formatTaskBlockLinesM T none ++ [[]] =
      headerLineM T :: ((("  - **ID**: ").data ++ intToStr T.task_id) ::
        ((("  - **Description**: ").data ++ vD) ::
        ((("  - **Pre-requisites**:").data) ::
        (prereqLinesM T.prerequisites ++
          ((("  - **Priority**: ").data ++ T.priority) ::
          ((("  - **Estimated Time**: ").data ++ vE) ::
          ((("  - **Assignee**: ").data ++ vA) ::
          ((("  - **Create Date**: ").data ++ vC) ::
          ((("  - **Start Date**: ").data ++ vS) ::
          ((("  - **Finish Date**: ").data ++ vF) ::
          ((("  - **Subtasks**:").data) ::
          (subtaskLinesM T.subtasks ++ [[]])))))))))))) := by
    unfold formatTaskBlockLinesM
    rw [hvD, hvE, hvA, hvC, hvS, hvF]
    simp [List.append_assoc]
  have hnoNlAll : ∀ l ∈ formatTaskBlockLinesM T none, noNl l := by
    have hAll : ∀ l ∈ (formatTaskBlockLinesM T none ++ [[]]), noNl l := by
      rw [hLINES]
      intro l hl
      have hbox : noNl (if T.checked then ("[x]").data else ("[ ]").data) := by
        cases T.checked <;> decide
      rcases List.mem_cons.mp hl with rfl | hl
      · exact noNl_append (noNl_append (noNl_append (noNl_append (by decide) hbox)
          (by decide)) htnl) (by decide)
      rcases List.mem_cons.mp hl with rfl | hl
      · exact noNl_append (by decide) (noNl_intToStr _)
      rcases List.mem_cons.mp hl with rfl | hl
      · exact noNl_append (by decide) h5D
      rcases List.mem_cons.mp hl with rfl | hl
      · decide
      rcases List.mem_append.mp hl with hl | hl
      · exact noNl_prereqLines hpre l hl
      rcases List.mem_cons.mp hl with rfl | hl
      · exact noNl_append (by decide) h5P
      rcases List.mem_cons.mp hl with rfl | hl
      · exact noNl_append (by decide) h5E
      rcases List.mem_cons.mp hl with rfl | hl
      · exact noNl_append (by decide) h5A
      rcases List.mem_cons.mp hl with rfl | hl
      · exact noNl_append (by decide) h5C
      rcases List.mem_cons.mp hl with rfl | hl
      · exact noNl_append (by decide) h5S
      rcases List.mem_cons.mp hl with rfl | hl
      · exact noNl_append (by decide) h5F
      rcases List.mem_cons.mp hl with rfl | hl
      · decide
      rcases List.mem_append.mp hl with hl | hl
      · exact noNl_subtaskLines hsub l hl
      rw [List.mem_singleton] at hl
      subst hl
      decide
    intro l hl
    exact hAll l (List.mem_append_left _ hl)
  have hne_lines : formatTaskBlockLinesM T none ≠ [] := by
    unfold formatTaskBlockLinesM
    simp
  have H10 : bodyM (⟨some T.title, Sum.inl T.checked, Sum.inl T.task_id, some T.priority, T.assignee, T.create_date, T.start_date, T.finish_date, T.estimated_time, T.description, Sum.inl T.prerequisites, Sum.inl []⟩ : MAcc)
      ((("  - **Subtasks**:").data) :: (subtaskLinesM T.subtasks ++ [[]])) =
      Except.ok ((⟨some T.title, Sum.inl T.checked, Sum.inl T.task_id, some T.priority, T.assignee, T.create_date, T.start_date, T.finish_date, T.estimated_time, T.description, Sum.inl T.prerequisites, Sum.inl T.subtasks⟩ : MAcc),
        (("  - **Subtasks**:").data) :: (subtaskLinesM T.subtasks ++ [[]])) :=
    bodyM_subSection _ T.subtasks (fun q hq => (hsub q hq).1) hnodup rfl
  have H9 : bodyM (⟨some T.title, Sum.inl T.checked, Sum.inl T.task_id, some T.priority, T.assignee, T.create_date, T.start_date, none, T.estimated_time, T.description, Sum.inl T.prerequisites, Sum.inl []⟩ : MAcc)
      ((("  - **Finish Date**: ").data ++ vF) :: ((("  - **Subtasks**:").data) :: (subtaskLinesM T.subtasks ++ [[]]))) =
      Except.ok ((⟨some T.title, Sum.inl T.checked, Sum.inl T.task_id, some T.priority, T.assignee, T.create_date, T.start_date, T.finish_date, T.estimated_time, T.description, Sum.inl T.prerequisites, Sum.inl T.subtasks⟩ : MAcc),
        ((("  - **Finish Date**: ").data ++ vF) :: ((("  - **Subtasks**:").data) :: (subtaskLinesM T.subtasks ++ [[]])))) := by
    rw [bodyM_finish_step _ h1F h2F h3F _, h4F, H10]
    rfl
  have H8 : bodyM (⟨some T.title, Sum.inl T.checked, Sum.inl T.task_id, some T.priority, T.assignee, T.create_date, none, none, T.estimated_time, T.description, Sum.inl T.prerequisites, Sum.inl []⟩ : MAcc)
      ((("  - **Start Date**: ").data ++ vS) :: ((("  - **Finish Date**: ").data ++ vF) :: ((("  - **Subtasks**:").data) :: (subtaskLinesM T.subtasks ++ [[]])))) =
      Except.ok ((⟨some T.title, Sum.inl T.checked, Sum.inl T.task_id, some T.priority, T.assignee, T.create_date, T.start_date, T.finish_date, T.estimated_time, T.description, Sum.inl T.prerequisites, Sum.inl T.subtasks⟩ : MAcc),
        ((("  - **Start Date**: ").data ++ vS) :: ((("  - **Finish Date**: ").data ++ vF) :: ((("  - **Subtasks**:").data) :: (subtaskLinesM T.subtasks ++ [[]]))))) := by
    rw [bodyM_start_step _ h1S h2S h3S _, h4S, H9]
    rfl
  have H7 : bodyM (⟨some T.title, Sum.inl T.checked, Sum.inl T.task_id, some T.priority, T.assignee, none, none, none, T.estimated_time, T.description, Sum.inl T.prerequisites, Sum.inl []⟩ : MAcc)
      ((("  - **Create Date**: ").data ++ vC) :: ((("  - **Start Date**: ").data ++ vS) :: ((("  - **Finish Date**: ").data ++ vF) :: ((("  - **Subtasks**:").data) :: (subtaskLinesM T.subtasks ++ [[]]))))) =
      Except.ok ((⟨some T.title, Sum.inl T.checked, Sum.inl T.task_id, some T.priority, T.assignee, T.create_date, T.start_date, T.finish_date, T.estimated_time, T.description, Sum.inl T.prerequisites, Sum.inl T.subtasks⟩ : MAcc),
        ((("  - **Create Date**: ").data ++ vC) :: ((("  - **Start Date**: ").data ++ vS) :: ((("  - **Finish Date**: ").data ++ vF) :: ((("  - **Subtasks**:").data) :: (subtaskLinesM T.subtasks ++ [[]])))))) := by
    rw [bodyM_create_step _ h1C h2C h3C _, h4C, H8]
    rfl
  have H6 : bodyM (⟨some T.title, Sum.inl T.checked, Sum.inl T.task_id, some T.priority, none, none, none, none, T.estimated_time, T.description, Sum.inl T.prerequisites, Sum.inl []⟩ : MAcc)
      ((("  - **Assignee**: ").data ++ vA) :: ((("  - **Create Date**: ").data ++ vC) :: ((("  - **Start Date**: ").data ++ vS) :: ((("  - **Finish Date**: ").data ++ vF) :: ((("  - **Subtasks**:").data) :: (subtaskLinesM T.subtasks ++ [[]])))))) =
      Except.ok ((⟨some T.title, Sum.inl T.checked, Sum.inl T.task_id, some T.priority, T.assignee, T.create_date, T.start_date, T.finish_date, T.estimated_time, T.description, Sum.inl T.prerequisites, Sum.inl T.subtasks⟩ : MAcc),
        ((("  - **Assignee**: ").data ++ vA) :: ((("  - **Create Date**: ").data ++ vC) :: ((("  - **Start Date**: ").data ++ vS) :: ((("  - **Finish Date**: ").data ++ vF) :: ((("  - **Subtasks**:").data) :: (subtaskLinesM T.subtasks ++ [[]]))))))) := by
    rw [bodyM_assignee_step _ h1A h2A h3A _, h4A, H7]
    rfl
  have H5 : bodyM (⟨some T.title, Sum.inl T.checked, Sum.inl T.task_id, some T.priority, none, none, none, none, none, T.description, Sum.inl T.prerequisites, Sum.inl []⟩ : MAcc)
      ((("  - **Estimated Time**: ").data ++ vE) :: ((("  - **Assignee**: ").data ++ vA) :: ((("  - **Create Date**: ").data ++ vC) :: ((("  - **Start Date**: ").data ++ vS) :: ((("  - **Finish Date**: ").data ++ vF) :: ((("  - **Subtasks**:").data) :: (subtaskLinesM T.subtasks ++ [[]]))))))) =
      Except.ok ((⟨some T.title, Sum.inl T.checked, Sum.inl T.task_id, some T.priority, T.assignee, T.create_date, T.start_date, T.finish_date, T.estimated_time, T.description, Sum.inl T.prerequisites, Sum.inl T.subtasks⟩ : MAcc),
        ((("  - **Estimated Time**: ").data ++ vE) :: ((("  - **Assignee**: ").data ++ vA) :: ((("  - **Create Date**: ").data ++ vC) :: ((("  - **Start Date**: ").data ++ vS) :: ((("  - **Finish Date**: ").data ++ vF) :: ((("  - **Subtasks**:").data) :: (subtaskLinesM T.subtasks ++ [[]])))))))) := by
    rw [bodyM_estimated_step _ h1E h2E h3E _, h4E, H6]
    rfl
  have H4 : bodyM (⟨some T.title, Sum.inl T.checked, Sum.inl T.task_id, some (("Critical").data), none, none, none, none, none, T.description, Sum.inl T.prerequisites, Sum.inl []⟩ : MAcc)
      ((("  - **Priority**: ").data ++ T.priority) :: ((("  - **Estimated Time**: ").data ++ vE) :: ((("  - **Assignee**: ").data ++ vA) :: ((("  - **Create Date**: ").data ++ vC) :: ((("  - **Start Date**: ").data ++ vS) :: ((("  - **Finish Date**: ").data ++ vF) :: ((("  - **Subtasks**:").data) :: (subtaskLinesM T.subtasks ++ [[]])))))))) =
      Except.ok ((⟨some T.title, Sum.inl T.checked, Sum.inl T.task_id, some T.priority, T.assignee, T.create_date, T.start_date, T.finish_date, T.estimated_time, T.description, Sum.inl T.prerequisites, Sum.inl T.subtasks⟩ : MAcc),
        ((("  - **Priority**: ").data ++ T.priority) :: ((("  - **Estimated Time**: ").data ++ vE) :: ((("  - **Assignee**: ").data ++ vA) :: ((("  - **Create Date**: ").data ++ vC) :: ((("  - **Start Date**: ").data ++ vS) :: ((("  - **Finish Date**: ").data ++ vF) :: ((("  - **Subtasks**:").data) :: (subtaskLinesM T.subtasks ++ [[]]))))))))) := by
    rw [bodyM_priority_step _ h1P h2P h3P _, normVal_benign h4P h3P, H5]
    rfl
  have Hpre : bodyM (⟨some T.title, Sum.inl T.checked, Sum.inl T.task_id, some (("Critical").data), none, none, none, none, none, T.description, Sum.inl [], Sum.inl []⟩ : MAcc)
      ((("  - **Pre-requisites**:").data) :: (prereqLinesM T.prerequisites ++ ((("  - **Priority**: ").data ++ T.priority) :: ((("  - **Estimated Time**: ").data ++ vE) :: ((("  - **Assignee**: ").data ++ vA) :: ((("  - **Create Date**: ").data ++ vC) :: ((("  - **Start Date**: ").data ++ vS) :: ((("  - **Finish Date**: ").data ++ vF) :: ((("  - **Subtasks**:").data) :: (subtaskLinesM T.subtasks ++ [[]])))))))))) =
      Except.ok ((⟨some T.title, Sum.inl T.checked, Sum.inl T.task_id, some T.priority, T.assignee, T.create_date, T.start_date, T.finish_date, T.estimated_time, T.description, Sum.inl T.prerequisites, Sum.inl T.subtasks⟩ : MAcc),
        ((("  - **Pre-requisites**:").data) :: (prereqLinesM T.prerequisites ++ ((("  - **Priority**: ").data ++ T.priority) :: ((("  - **Estimated Time**: ").data ++ vE) :: ((("  - **Assignee**: ").data ++ vA) :: ((("  - **Create Date**: ").data ++ vC) :: ((("  - **Start Date**: ").data ++ vS) :: ((("  - **Finish Date**: ").data ++ vF) :: ((("  - **Subtasks**:").data) :: (subtaskLinesM T.subtasks ++ [[]]))))))))))) := by
    rw [bodyM_preSection _ T.prerequisites _ hpre rfl
      (by intro r hr; simp at hr; subst hr; rfl), H4]
    rfl
  have H2 : bodyM (⟨some T.title, Sum.inl T.checked, Sum.inl T.task_id, some (("Critical").data), none, none, none, none, none, none, Sum.inl [], Sum.inl []⟩ : MAcc)
      ((("  - **Description**: ").data ++ vD) :: ((("  - **Pre-requisites**:").data) :: (prereqLinesM T.prerequisites ++ ((("  - **Priority**: ").data ++ T.priority) :: ((("  - **Estimated Time**: ").data ++ vE) :: ((("  - **Assignee**: ").data ++ vA) :: ((("  - **Create Date**: ").data ++ vC) :: ((("  - **Start Date**: ").data ++ vS) :: ((("  - **Finish Date**: ").data ++ vF) :: ((("  - **Subtasks**:").data) :: (subtaskLinesM T.subtasks ++ [[]]))))))))))) =
      Except.ok ((⟨some T.title, Sum.inl T.checked, Sum.inl T.task_id, some T.priority, T.assignee, T.create_date, T.start_date, T.finish_date, T.estimated_time, T.description, Sum.inl T.prerequisites, Sum.inl T.subtasks⟩ : MAcc),
        ((("  - **Description**: ").data ++ vD) :: ((("  - **Pre-requisites**:").data) :: (prereqLinesM T.prerequisites ++ ((("  - **Priority**: ").data ++ T.priority) :: ((("  - **Estimated Time**: ").data ++ vE) :: ((("  - **Assignee**: ").data ++ vA) :: ((("  - **Create Date**: ").data ++ vC) :: ((("  - **Start Date**: ").data ++ vS) :: ((("  - **Finish Date**: ").data ++ vF) :: ((("  - **Subtasks**:").data) :: (subtaskLinesM T.subtasks ++ [[]])))))))))))) := by
    rw [bodyM_desc_step _ h1D h2D h3D _, h4D, Hpre]
    rfl
  have H1 : bodyM (mAcc0 T.checked T.title)
      ((("  - **ID**: ").data ++ intToStr T.task_id) :: ((("  - **Description**: ").data ++ vD) :: ((("  - **Pre-requisites**:").data) :: (prereqLinesM T.prerequisites ++ ((("  - **Priority**: ").data ++ T.priority) :: ((("  - **Estimated Time**: ").data ++ vE) :: ((("  - **Assignee**: ").data ++ vA) :: ((("  - **Create Date**: ").data ++ vC) :: ((("  - **Start Date**: ").data ++ vS) :: ((("  - **Finish Date**: ").data ++ vF) :: ((("  - **Subtasks**:").data) :: (subtaskLinesM T.subtasks ++ [[]])))))))))))) =
      Except.ok ((⟨some T.title, Sum.inl T.checked, Sum.inl T.task_id, some T.priority, T.assignee, T.create_date, T.start_date, T.finish_date, T.estimated_time, T.description, Sum.inl T.prerequisites, Sum.inl T.subtasks⟩ : MAcc),
        ((("  - **ID**: ").data ++ intToStr T.task_id) :: ((("  - **Description**: ").data ++ vD) :: ((("  - **Pre-requisites**:").data) :: (prereqLinesM T.prerequisites ++ ((("  - **Priority**: ").data ++ T.priority) :: ((("  - **Estimated Time**: ").data ++ vE) :: ((("  - **Assignee**: ").data ++ vA) :: ((("  - **Create Date**: ").data ++ vC) :: ((("  - **Start Date**: ").data ++ vS) :: ((("  - **Finish Date**: ").data ++ vF) :: ((("  - **Subtasks**:").data) :: (subtaskLinesM T.subtasks ++ [[]]))))))))))))) := by
    rw [bodyM_id_step (mAcc0 T.checked T.title) T.task_id _, H2]
    rfl
  unfold parseTasksTextM formatTaskBlockM
  rw [splitNl_joinNl_nl (formatTaskBlockLinesM T none) hne_lines hnoNlAll]
  unfold parseTasksM
  rw [hLINES]
  rw [parseTasksAux_step [] (headerLineM T) _ T.checked T.title htitle]
  rw [H1]
  rw [exBind_ok]
  beta_reduce
  rw [List.drop_length]
  rw [parseTasksAux_nil]
  rw [← hLINES, joinNl_append_nil _ hne_lines]
  rfl

/-- A concrete well-behaved task for instantiating the round trip. -/
def c5wTask : MTask :=
  ⟨("Build parser").data, false, 7, ("High").data, some (("Dan").data),
   some (("2025-01-01T10:00:00Z").data), some (("2025-01-02T10:00:00Z").data),
   some (("2025-01-03T10:00:00Z").data), some (("2 hours").data),
   some (("Parse the ledger file").data),
   [("Design review").data, ("Setup repo").data],
   [(("Write tests").data, true), (("Fix bug").data, false)], []⟩

/-- Concrete instantiation of the C5 round trip: rendering and parsing
the concrete task reproduces every field. -/
theorem c5_round_trip_witness :
    parseTasksTextM (formatTaskBlockM c5wTask none) =
      Except.ok [(c5wTask.title,
        ({ title := some c5wTask.title, checked := Sum.inl c5wTask.checked,
           task_id := Sum.inl c5wTask.task_id, priority := some c5wTask.priority,
           assignee := c5wTask.assignee, create_date := c5wTask.create_date,
           start_date := c5wTask.start_date, finish_date := c5wTask.finish_date,
           estimated_time := c5wTask.estimated_time, description := c5wTask.description,
           prerequisites := Sum.inl c5wTask.prerequisites,
           subtasks := Sum.inl c5wTask.subtasks,
           raw_block := formatTaskBlockM c5wTask none } : PTask))] :=
  c5_round_trip c5wTask rfl (by decide) (by decide) (by decide) (by decide)
    (by decide) (by decide) (by decide) (by decide) (by decide) (by decide)
    (by decide)

end MD

namespace RT

/-- The condition under which a parsed ledger already reflects a test
run: every file with a failing test has an open task whose subtasks
record each failing test, no recorded-unchecked test currently passes,
and files without a task have no failures. -/
def reflectsAt (existing : List (Str × TaskInfo)) (p : Str × List (Str × Str)) : Prop :=
  match alGet existing p.1 with
  | some et => ∀ q ∈ p.2,
      (q.2 = sFAILED → alMem et.subtasks q.1 = true) ∧
      (q.2 = sPASSED → ¬ alGet et.subtasks q.1 = some false)
  | none => p.2.any (fun q => decide (q.2 = sFAILED)) = false

instance (existing : List (Str × TaskInfo)) (p : Str × List (Str × Str)) :
    Decidable (reflectsAt existing p) := by
  unfold reflectsAt
  cases alGet existing p.1 <;> infer_instance

/-- A run's grouped results are fully reflected by the parsed ledger. -/
def reflects (current : List (Str × List (Str × Str)))
    (existing : List (Str × TaskInfo)) : Prop :=
  ∀ p ∈ current, reflectsAt existing p

instance (current : List (Str × List (Str × Str))) (existing : List (Str × TaskInfo)) :
    Decidable (reflects current existing) := by
  unfold reflects
  infer_instance

theorem foldl_updateStep_false (now : Str) (existing : List (Str × TaskInfo)) :
    ∀ (current : List (Str × List (Str × Str))) (blocks : List Str) (tid : Int),
    (∀ p ∈ current, reflectsAt existing p) →
    (current.foldl (updateStep now existing) (blocks, false, tid)).2.1 = false := by
  intro current
  induction current with
  | nil => intro blocks tid _; rfl
  | cons p rest ih =>
    intro blocks tid h
    rw [List.foldl_cons]
    have hp := h p (by simp)
    unfold reflectsAt at hp
    cases halg : alGet existing p.1 with
    | none =>
      simp only [halg] at hp
      have hstep : updateStep now existing (blocks, false, tid) p = (blocks, false, tid) := by
        simp only [updateStep]
        rw [halg, hp]
        rfl
      rw [hstep]
      exact ih blocks tid (fun q hq => h q (by simp [hq]))
    | some et =>
      simp only [halg] at hp
      have hchanges : (p.2.any (fun q =>
          (decide (q.2 = sFAILED) && !(alMem et.subtasks q.1)) ||
          (decide (q.2 = sPASSED) && decide (alGet et.subtasks q.1 = some false)))) = false := by
        rw [List.any_eq_false]
        intro q hq
        obtain ⟨hF, hP⟩ := hp q hq
        by_cases hqf : q.2 = sFAILED
        · have hmem := hF hqf
          have e1 : decide (q.2 = sFAILED) = true := by rw [hqf]; decide
          have e2 : decide (q.2 = sPASSED) = false := by rw [hqf]; decide
          rw [e1, e2, hmem]
          simp
        · by_cases hqp : q.2 = sPASSED
          · have hval := hP hqp
            have e1 : decide (q.2 = sFAILED) = false := decide_eq_false hqf
            have e2 : decide (q.2 = sPASSED) = true := by rw [hqp]; decide
            have e3 : decide (alGet et.subtasks q.1 = some false) = false :=
              decide_eq_false hval
            rw [e1, e2, e3]
            simp
          · have e1 : decide (q.2 = sFAILED) = false := decide_eq_false hqf
            have e2 : decide (q.2 = sPASSED) = false := decide_eq_false hqp
            rw [e1, e2]
            simp
      have hstep : updateStep now existing (blocks, false, tid) p =
          (blocks ++ [formatTaskBlockR now p.1 p.2 et.task_id et.subtasks (some et)],
           false, tid) := by
        simp only [updateStep]
        rw [halg]
        simp only [Option.isNone_some, Bool.and_false, Bool.false_eq_true, if_false,
          hchanges, Bool.or_false]
      rw [hstep]
      exact ih _ tid (fun q hq => h q (by simp [hq]))

theorem updateTasksFileR_no_change (now : Str) (current : List (Str × List (Str × Str)))
    (existing : List (Str × TaskInfo)) (text : Str)
    (h : ∀ p ∈ current, reflectsAt existing p) :
    updateTasksFileR now current existing text = (false, text) := by
  simp only [updateTasksFileR]
  rw [foldl_updateStep_false now existing current [] _ h]
  rfl

theorem updateStep_true_snd (now : Str) (existing : List (Str × TaskInfo))
    (st : List Str × Bool × Int) (p : Str × List (Str × Str)) (h : st.2.1 = true) :
    (updateStep now existing st p).2.1 = true := by
  obtain ⟨b, hc, t⟩ := st
  have h2 : hc = true := h
  subst h2
  simp only [updateStep]
  split
  · rfl
  · split
    · rfl
    · rfl

theorem foldl_updateStep_true (now : Str) (existing : List (Str × TaskInfo)) :
    ∀ (current : List (Str × List (Str × Str))) (st : List Str × Bool × Int),
    st.2.1 = true → (current.foldl (updateStep now existing) st).2.1 = true := by
  intro current
  induction current with
  | nil => intro st h; exact h
  | cons p rest ih =>
    intro st h
    rw [List.foldl_cons]
    exact ih _ (updateStep_true_snd now existing st p h)

theorem reflectsAt_of_step_false (now : Str) (existing : List (Str × TaskInfo))
    (blocks : List Str) (tid : Int) (p : Str × List (Str × Str))
    (h : (updateStep now existing (blocks, false, tid) p).2.1 = false) :
    reflectsAt existing p := by
  unfold reflectsAt
  cases halg : alGet existing p.1 with
  | none =>
    show (p.2.any (fun q => decide (q.2 = sFAILED))) = false
    cases hany : (p.2.any (fun q => decide (q.2 = sFAILED))) with
    | false => rfl
    | true =>
      exfalso
      have hstep : (updateStep now existing (blocks, false, tid) p).2.1 = true := by
        simp only [updateStep]
        rw [halg, hany]
        rfl
      rw [hstep] at h
      exact Bool.noConfusion h
  | some et =>
    intro q hq
    have hch : (p.2.any (fun q =>
        (decide (q.2 = sFAILED) && !(alMem et.subtasks q.1)) ||
        (decide (q.2 = sPASSED) && decide (alGet et.subtasks q.1 = some false)))) = false := by
      cases hc : (p.2.any (fun q =>
          (decide (q.2 = sFAILED) && !(alMem et.subtasks q.1)) ||
          (decide (q.2 = sPASSED) && decide (alGet et.subtasks q.1 = some false)))) with
      | false => rfl
      | true =>
        exfalso
        have hstep : (updateStep now existing (blocks, false, tid) p).2.1 = true := by
          simp only [updateStep]
          rw [halg]
          simp only [Option.isNone_some, Bool.and_false, Bool.false_eq_true, if_false]
          rw [hc]
          rfl
        rw [hstep] at h
        exact Bool.noConfusion h
    rw [List.any_eq_false] at hch
    have hq2 := hch q hq
    constructor
    · intro hF
      have e1 : decide (q.2 = sFAILED) = true := by rw [hF]; decide
      rw [e1] at hq2
      cases hm : alMem et.subtasks q.1 with
      | true => rfl
      | false =>
        exfalso
        rw [hm] at hq2
        exact hq2 (by simp)
    · intro hP hget
      have e1 : decide (q.2 = sFAILED) = false := by rw [hP]; decide
      have e2 : decide (q.2 = sPASSED) = true := by rw [hP]; decide
      have e3 : decide (alGet et.subtasks q.1 = some false) = true := by rw [hget]; decide
      rw [e1, e2, e3] at hq2
      exact hq2 (by simp)

theorem foldl_updateStep_false_iff (now : Str) (existing : List (Str × TaskInfo)) :
    ∀ (current : List (Str × List (Str × Str))) (blocks : List Str) (tid : Int),
    ((current.foldl (updateStep now existing) (blocks, false, tid)).2.1 = false ↔
      ∀ p ∈ current, reflectsAt existing p) := by
  intro current
  induction current with
  | nil =>
    intro blocks tid
    constructor
    · intro _ p hp
      cases hp
    · intro _
      rfl
  | cons p rest ih =>
    intro blocks tid
    constructor
    · intro h
      rw [List.foldl_cons] at h
      obtain ⟨b1, f1, t1, hst⟩ : ∃ b f t,
          updateStep now existing (blocks, false, tid) p = (b, f, t) := ⟨_, _, _, rfl⟩
      rw [hst] at h
      cases f1 with
      | true =>
        exfalso
        have hmono := foldl_updateStep_true now existing rest (b1, true, t1) rfl
        rw [hmono] at h
        exact Bool.noConfusion h
      | false =>
        have hrest := (ih b1 t1).mp h
        intro p2 hp2
        rcases List.mem_cons.mp hp2 with heq | hp2
        · rw [heq]
          exact reflectsAt_of_step_false now existing blocks tid p (by rw [hst])
        · exact hrest p2 hp2
    · intro h
      exact foldl_updateStep_false now existing (p :: rest) blocks tid h

/-- The C2 counterexample inputs: a ledger holding one open task whose
priority is the non-standard `Bogus`, and a run with a new failing
test. -/
def cexC2Text : Str :=
  joinNl [("- [ ] **Fix failing tests in tests/test_x.py**:").data,
    ("  - **ID**: 1").data,
    ("  - **Priority**: Bogus").data,
    ("  - **Subtasks**:").data,
    ("    - [ ] Fix test_a").data]

/-- The C2 counterexample run: one newly failing test. -/
def cexC2Cur : List (Str × List (Str × Str)) :=
  [(("tests/test_x.py").data, [(("test_b").data, sFAILED)])]

/-- A current-time stand-in for the counterexample runs. -/
def cexC2Now : Str := ("2025-06-01T00:00:00Z").data

unseal splitOnSub replaceAll natToStr parseTasksAuxR in
/-- C2 counterexample: the first run reports changes and rewrites the
ledger, but `organize_tasks_by_priority` drops the rewritten block
(its priority `Bogus` matches no section), so the stale original block
survives and the second run over the written ledger reports changes
again — reconciliation is not idempotent. -/
theorem c2_counterexample :
    (updateTasksFileR cexC2Now cexC2Cur (parseTasksTextR cexC2Text) cexC2Text).1 = true ∧
    (updateTasksFileR cexC2Now cexC2Cur
      (parseTasksTextR
        (updateTasksFileR cexC2Now cexC2Cur (parseTasksTextR cexC2Text) cexC2Text).2)
      ((updateTasksFileR cexC2Now cexC2Cur (parseTasksTextR cexC2Text) cexC2Text).2)).1 =
      true := ⟨rfl, rfl⟩

/-- C2 (amended): `update_tasks_file` reports no changes and returns
the ledger byte-identical exactly when (proved as a biconditional) the
parsed ledger already reflects the run — every failing test is
recorded as a subtask of its file's open task, no recorded-unchecked
subtask currently passes, and files without a task have no failures.
Hence a write is idempotent exactly when the written text still
reflects the run; `c2_counterexample` shows the organizer can break
this by dropping a rewritten block whose priority names no section,
making the second run report changes again. -/
theorem c2_reconcile_idempotent (now : Str) (current : List (Str × List (Str × Str)))
    (text : Str) :
    updateTasksFileR now current (parseTasksTextR text) text = (false, text) ↔
      reflects current (parseTasksTextR text) := by
  constructor
  · intro h
    simp only [updateTasksFileR] at h
    by_cases hres : (current.foldl (updateStep now (parseTasksTextR text))
        ([], false, getNextTaskId text)).2.1 = true
    · rw [if_pos hres] at h
      have h1 : (true : Bool) = false := congrArg Prod.fst h
      exact absurd h1 (by decide)
    · have hres2 : (current.foldl (updateStep now (parseTasksTextR text))
          ([], false, getNextTaskId text)).2.1 = false := by
        revert hres
        cases (current.foldl (updateStep now (parseTasksTextR text))
          ([], false, getNextTaskId text)).2.1 <;> simp
      exact (foldl_updateStep_false_iff now (parseTasksTextR text) current []
        (getNextTaskId text)).mp hres2
  · intro h
    exact updateTasksFileR_no_change now current _ text h

/-- The C2 witness ledger: the failing test is already recorded. -/
def c2wText : Str :=
  joinNl [("- [ ] **Fix failing tests in tests/test_x.py**:").data,
    ("  - **ID**: 1").data,
    ("  - **Priority**: High").data,
    ("  - **Subtasks**:").data,
    ("    - [ ] Fix test_a").data]

/-- The C2 witness run: the recorded test still fails. -/
def c2wCur : List (Str × List (Str × Str)) :=
  [(("tests/test_x.py").data, [(("test_a").data, sFAILED)])]

unseal splitOnSub replaceAll natToStr parseTasksAuxR in
/-- Concrete instantiation of the amended C2 theorem: when the ledger
already records the failing test, the reconciler reports no changes and
leaves the text untouched. -/
theorem c2_reconcile_idempotent_witness :
    updateTasksFileR cexC2Now c2wCur (parseTasksTextR c2wText) c2wText =
      (false, c2wText) :=
  (c2_reconcile_idempotent cexC2Now c2wCur c2wText).mpr (by decide)

end RT

end TaskAuto
